import Mathlib

/-!
# Array jobs of the batch server: tracker, parent aggregation, doneness

A shallow embedding of `src/server/array_func.c`, of the renewal of
credentials in `src/server/svr_credfunc.c`, and of the list and string helpers
of `src/lib/Libattr/attr_func.c`.

Conventions of the embedding.

* C `int` and `long` values are `Int`.  The embedded functions only compare such
  values, add or subtract one, subtract two counters, or add the difference of
  two times, so the development reads the C arithmetic inside the range of
  `int` and of `long`.  Where the value of a `long` attribute is assigned to an
  `int` variable, the conversion is explicit: `long_to_int`.
* A C pointer that may be `NULL` is an `Option`; the `range *` list of the tracker
  is a `List`, whose empty list is the `NULL` pointer.
* Words of bit flags (`ji_svrflags`, `tkm_flags`) are records with one `Bool`
  per named bit; the word is zero when every bit is `false`.
* Functions of the server that are defined outside `array_func.c` and only
  record or report something (accounting, mail, hooks, the data base) are
  entries of a trace of external calls, each with the job as it is at the call.
* Functions whose outcome `array_func.c` only tests (`job_alloc`,
  `svr_enquejob`, `find_job`) are given by their outcome: a field of an
  environment record or a function argument.
* A linked list of `svrattrl` entries is the `List` of its entries in order.
* A C string is the list of its characters before the terminator.  Where a
  function scans a buffer by index, the loop is a recursion on a counter that
  starts above the length of the buffer, which no scan exhausts; a static
  pointer kept between calls is an argument and a result of the function.
-/

namespace Pbs

/-! ## Constants and small types -/

/-- Error codes returned by the routines of `array_func.c`. -/
inductive pbs_error where
  | PBSE_NONE
  | PBSE_BADATVAL
  | PBSE_MaxArraySize
  | PBSE_SYSTEM
  | PBSE_MODATRRUN
  | PBSE_IVALREQ
  deriving DecidableEq, Repr

/-- The `actmode` argument of an attribute action routine; `ATR_ACTION_OTHER`
stands for every value other than the three the routines test for. -/
inductive actmode where
  | ATR_ACTION_NEW
  | ATR_ACTION_ALTER
  | ATR_ACTION_RECOV
  | ATR_ACTION_OTHER
  deriving DecidableEq, Repr

/-- Return values of `is_job_array`. -/
inductive array_kind where
  | IS_ARRAY_NO
  | IS_ARRAY_ArrayJob
  | IS_ARRAY_Single
  | IS_ARRAY_Range
  deriving DecidableEq, Repr

/-- Number of job states, the length of `tkm_subjsct` and of `statename`. -/
def PBS_NUMJOBSTATE : Int := 10

/-- The conversion of a `long` value to `int` when it is assigned to an `int`
variable: the value of the same residue modulo 2^32 inside the range of `int`,
from -2^31 to 2^31 - 1.  A value inside that range is unchanged. -/
def long_to_int (x : Int) : Int :=
  (x + 2147483648) % 4294967296 - 2147483648

/-- Index of each job state: its position in the table `statename` of
`update_subjob_state_ct` ("Transit", "Queued", "Held", "Waiting", "Running",
"Exiting", "Expired", "Beginning", "Moved", "Finished"). -/
def JOB_STATE_TRANSIT : Int := 0
/-- Index of state Queued in `statename`. -/
def JOB_STATE_QUEUED : Int := 1
/-- Index of state Held in `statename`. -/
def JOB_STATE_HELD : Int := 2
/-- Index of state Waiting in `statename`. -/
def JOB_STATE_WAITING : Int := 3
/-- Index of state Running in `statename`. -/
def JOB_STATE_RUNNING : Int := 4
/-- Index of state Exiting in `statename`. -/
def JOB_STATE_EXITING : Int := 5
/-- Index of state Expired in `statename`. -/
def JOB_STATE_EXPIRED : Int := 6
/-- Index of state Beginning (begun) in `statename`. -/
def JOB_STATE_BEGUN : Int := 7
/-- Index of state Moved in `statename`. -/
def JOB_STATE_MOVED : Int := 8
/-- Index of state Finished in `statename`. -/
def JOB_STATE_FINISHED : Int := 9

/-- Modelled from the spec: the state letters of `job.h` (not among the sources),
one character per state of the data model. -/
def JOB_STATE_LTR_TRANSIT : Char := 'T'
/-- Modelled from the spec: letter of state Queued. -/
def JOB_STATE_LTR_QUEUED : Char := 'Q'
/-- Modelled from the spec: letter of state Held. -/
def JOB_STATE_LTR_HELD : Char := 'H'
/-- Modelled from the spec: letter of state Waiting. -/
def JOB_STATE_LTR_WAITING : Char := 'W'
/-- Modelled from the spec: letter of state Running. -/
def JOB_STATE_LTR_RUNNING : Char := 'R'
/-- Modelled from the spec: letter of state Exiting. -/
def JOB_STATE_LTR_EXITING : Char := 'E'
/-- Modelled from the spec: letter of state Expired. -/
def JOB_STATE_LTR_EXPIRED : Char := 'X'
/-- Modelled from the spec: letter of state Beginning (begun). -/
def JOB_STATE_LTR_BEGUN : Char := 'B'
/-- Modelled from the spec: letter of state Moved. -/
def JOB_STATE_LTR_MOVED : Char := 'M'
/-- Modelled from the spec: letter of state Finished. -/
def JOB_STATE_LTR_FINISHED : Char := 'F'

/-- Modelled from the spec: `state_char2int` of the job module (not among the
sources) maps a state letter to the index of its state, and every other
character to -1. -/
def state_char2int (stc : Char) : Int :=
  if stc = JOB_STATE_LTR_TRANSIT then JOB_STATE_TRANSIT
  else if stc = JOB_STATE_LTR_QUEUED then JOB_STATE_QUEUED
  else if stc = JOB_STATE_LTR_HELD then JOB_STATE_HELD
  else if stc = JOB_STATE_LTR_WAITING then JOB_STATE_WAITING
  else if stc = JOB_STATE_LTR_RUNNING then JOB_STATE_RUNNING
  else if stc = JOB_STATE_LTR_EXITING then JOB_STATE_EXITING
  else if stc = JOB_STATE_LTR_EXPIRED then JOB_STATE_EXPIRED
  else if stc = JOB_STATE_LTR_BEGUN then JOB_STATE_BEGUN
  else if stc = JOB_STATE_LTR_MOVED then JOB_STATE_MOVED
  else if stc = JOB_STATE_LTR_FINISHED then JOB_STATE_FINISHED
  else -1

/-! ## The array `tkm_subjsct` -/

/-- The array `int tkm_subjsct[PBS_NUMJOBSTATE]`: one counter per job state, in
the order of the state indices. -/
structure subjsct where
  transit : Int
  queued : Int
  held : Int
  waiting : Int
  running : Int
  exiting : Int
  expired : Int
  begun : Int
  moved : Int
  finished : Int
  deriving DecidableEq, Repr

/-- Read `tkm_subjsct[i]`. -/
def subjsct.get (c : subjsct) (i : Int) : Int :=
  if i = 0 then c.transit
  else if i = 1 then c.queued
  else if i = 2 then c.held
  else if i = 3 then c.waiting
  else if i = 4 then c.running
  else if i = 5 then c.exiting
  else if i = 6 then c.expired
  else if i = 7 then c.begun
  else if i = 8 then c.moved
  else if i = 9 then c.finished
  else 0

/-- Write `tkm_subjsct[i] = v`. -/
def subjsct.set (c : subjsct) (i : Int) (v : Int) : subjsct :=
  if i = 0 then { c with transit := v }
  else if i = 1 then { c with queued := v }
  else if i = 2 then { c with held := v }
  else if i = 3 then { c with waiting := v }
  else if i = 4 then { c with running := v }
  else if i = 5 then { c with exiting := v }
  else if i = 6 then { c with expired := v }
  else if i = 7 then { c with begun := v }
  else if i = 8 then { c with moved := v }
  else if i = 9 then { c with finished := v }
  else c

/-- The array with every counter 0 (the loop `for (i = 0; i < PBS_NUMJOBSTATE; i++)`
of `setup_ajinfo`). -/
def subjsct.zero : subjsct :=
  ⟨0, 0, 0, 0, 0, 0, 0, 0, 0, 0⟩

/-- Sum of the ten counters. -/
def subjsct.sum (c : subjsct) : Int :=
  c.transit + c.queued + c.held + c.waiting + c.running + c.exiting + c.expired
    + c.begun + c.moved + c.finished

/-! ## The range set of queued indices

`range.h` and the range library are not among the sources; the set is modelled
from the specification: a list of stripes `(start, end, step, count)` sorted by
their first index, the constructor taking the same four numbers as the call
`new_range(start, end, step, count, NULL)` in `setup_ajinfo`. -/

/-- Modelled from the spec: one stripe of a range set, the indices `start`,
`start + step`, ... up to `r_end`, `count` of them (the range library is not
among the sources). -/
structure range where
  start : Int
  r_end : Int
  step : Int
  count : Int
  deriving DecidableEq, Repr

/-- Modelled from the spec: `new_range(start, end, step, count, next)` builds one
stripe in front of `next` (the range library is not among the sources). -/
def new_range (start r_end step count : Int) (next : List range) : List range :=
  ⟨start, r_end, step, count⟩ :: next

/-- Modelled from the spec: membership of `val` in one stripe (the range library
is not among the sources). -/
def range_contains_single (r : range) (val : Int) : Bool :=
  decide (r.start ≤ val) && decide (val ≤ r.r_end) && decide ((val - r.start) % r.step = 0)

/-- Modelled from the spec: `contains(i)` of the range set (the range library is
not among the sources). -/
def range_contains (r : List range) (val : Int) : Bool :=
  r.any fun s => range_contains_single s val

/-- Modelled from the spec: `count()` of the range set, the number of indices in
all its stripes (the range library is not among the sources). -/
def range_count : List range → Int
  | [] => 0
  | r :: rest => r.count + range_count rest

/-- Modelled from the spec: what is left of the stripe `cur` once its member
`val` is taken out: nothing, the stripe without its first or last index, or the
two stripes on either side of `val` (the range library is not among the
sources). -/
def range_remove_single (cur : range) (val : Int) : List range :=
  if cur.count = 1 then []
  else if val = cur.start then
    [{ cur with start := cur.start + cur.step, count := cur.count - 1 }]
  else if cur.r_end < val + cur.step then
    [{ cur with r_end := val - cur.step, count := cur.count - 1 }]
  else
    [⟨cur.start, val - cur.step, cur.step, (val - cur.start) / cur.step⟩,
     ⟨val + cur.step, cur.r_end, cur.step, cur.count - (val - cur.start) / cur.step - 1⟩]

/-- Modelled from the spec: `remove(i)` of the range set; removing an absent
index is a no-op (the range library is not among the sources). -/
def range_remove_value : List range → Int → List range
  | [], _ => []
  | cur :: rest, val =>
    if range_contains_single cur val then range_remove_single cur val ++ rest
    else cur :: range_remove_value rest val

/-- Modelled from the spec: insertion of the absent index `val` into a sorted
list of stripes, merging it into a neighbouring stripe of the same step when it
is adjacent to it and splitting a stripe whose span it falls into (the range
library is not among the sources). -/
def range_insert : List range → Int → Int → List range
  | [], val, step => [⟨val, val, step, 1⟩]
  | cur :: rest, val, step =>
    if val < cur.start then
      if val + cur.step = cur.start ∧ cur.step = step then
        { cur with start := val, count := cur.count + 1 } :: rest
      else ⟨val, val, step, 1⟩ :: cur :: rest
    else if val < cur.r_end then
      ⟨cur.start, cur.start + ((val - cur.start) / cur.step) * cur.step, cur.step,
          (val - cur.start) / cur.step + 1⟩
        :: ⟨val, val, step, 1⟩
        :: ⟨cur.start + ((val - cur.start) / cur.step + 1) * cur.step, cur.r_end, cur.step,
          cur.count - ((val - cur.start) / cur.step + 1)⟩
        :: rest
    else if cur.r_end + cur.step = val ∧ cur.step = step
        ∧ rest.all (fun nxt => decide (val < nxt.start)) then
      { cur with r_end := val, count := cur.count + 1 } :: rest
    else cur :: range_insert rest val step

/-- Modelled from the spec: `add(i, step)` of the range set; adding an index that
is already present is a no-op (the range library is not among the sources). -/
def range_add_value (r : List range) (val : Int) (step : Int) : List range :=
  if range_contains r val then r else range_insert r val step

/-- Modelled from the spec: the text of one stripe in the grammar
`item := N | N "-" N [":" N]` (the range library is not among the sources). -/
def range_item_to_str (r : range) : String :=
  if r.start = r.r_end ∨ r.count = 1 then toString r.start
  else if r.step = 1 then toString r.start ++ "-" ++ toString r.r_end
  else toString r.start ++ "-" ++ toString r.r_end ++ ":" ++ toString r.step

/-- Modelled from the spec: `serialize()` of the range set, its stripes joined by
commas; the empty set gives the empty string, which
`update_array_indices_remaining_attr` turns into "-" (the range library is not
among the sources). -/
def range_to_str (r : List range) : String :=
  ",".intercalate (r.map range_item_to_str)

/-! ## Parsing of index ranges (modelled from the grammar of the specification) -/

/-- Modelled from the spec: the value of `N`, a non-empty string of decimal
digits (the parser is not among the sources). -/
def parse_N (cs : List Char) : Option Int :=
  if cs ≠ [] ∧ cs.all Char.isDigit = true then
    some (cs.foldl (fun n c => 10 * n + ((c.toNat : Int) - 48)) 0)
  else none

/-- Cut a text at the first occurrence of the character `d`: the part before it
and, when `d` occurs, the part after it. -/
def cut_at (d : Char) : List Char → List Char × Option (List Char)
  | [] => ([], none)
  | c :: cs =>
    if c = d then ([], some cs)
    else ((c :: (cut_at d cs).1), (cut_at d cs).2)

/-- Modelled from the spec: one `item := N | N "-" N [":" N]` as a stripe; a bare
`N` is `N-N:1`, a step of 0 and `start > end` are invalid (the parser is not
among the sources). -/
def parse_item (cs : List Char) : Option range :=
  match cut_at '-' cs with
  | (a, none) => (parse_N a).map fun n => ⟨n, n, 1, 1⟩
  | (a, some r) =>
    match cut_at ':' r with
    | (b, none) =>
      match parse_N a, parse_N b with
      | some x, some y => if x ≤ y then some ⟨x, y, 1, y - x + 1⟩ else none
      | _, _ => none
    | (b, some s) =>
      match parse_N a, parse_N b, parse_N s with
      | some x, some y, some st =>
        if x ≤ y ∧ st ≠ 0 then some ⟨x, y, st, (y - x) / st + 1⟩ else none
      | _, _, _ => none

/-- Split a text at every comma. -/
def split_commas : List Char → List (List Char)
  | [] => [[]]
  | c :: cs =>
    if c = ',' then [] :: split_commas cs
    else
      match split_commas cs with
      | [] => [[c]]
      | h :: t => (c :: h) :: t

/-- All items of a list of item texts, or nothing when one of them is invalid. -/
def parse_items : List (List Char) → Option (List range)
  | [] => some []
  | i :: rest =>
    match parse_item i, parse_items rest with
    | some r, some rs => some (r :: rs)
    | _, _ => none

/-- Modelled from the spec: `range_parse` reads `range := item ("," item)*` into
a range set and returns `NULL` (the empty list) for a missing or malformed
text, as for "-" (the range library is not among the sources). -/
def range_parse (text : Option String) : List range :=
  match text with
  | none => []
  | some s =>
    match parse_items (split_commas s.toList) with
    | some rs => rs
    | none => []

/-- Modelled from the spec: `parse_subjob_index` reads the leading item of an
index range and reports its `(start, end, step, count)`, or nothing on a parse
error (the function is not among the sources). -/
def parse_subjob_index (text : String) : Option (Int × Int × Int × Int) :=
  (parse_item (cut_at ',' text.toList).1).map fun r => (r.start, r.r_end, r.step, r.count)

/-- Modelled from the spec: `get_index_from_jid` extracts the index between the
brackets of a subjob id such as `123[7].host`, and gives -1 when the id has no
bracketed decimal index (the function is not among the sources). -/
def get_index_from_jid (jid : String) : Int :=
  match (cut_at '[' jid.toList).2 with
  | none => -1
  | some rest =>
    match cut_at ']' rest with
    | (_, none) => -1
    | (idx, some _) =>
      match parse_N idx with
      | some i => i
      | none => -1

/-! ## Jobs, attributes and the tracker -/

/-- An attribute holding a `long` (or a boolean): the bit `ATR_VFLAG_SET` of its
flags and `at_val.at_long`. -/
structure attr_l where
  is_set : Bool
  at_long : Int
  deriving DecidableEq, Repr

/-- Modelled from the spec: `set_jattr_l_slim(job, attr, val, SET)` and
`set_jattr_b_slim` store the value and mark the attribute set (the attribute
setters are not among the sources). -/
def set_attr_l (val : Int) : attr_l :=
  ⟨true, val⟩

/-- The word `ji_svrflags`, one field per bit that `array_func.c` tests or
changes. -/
structure svrflags where
  JOB_SVFLG_ArrayJob : Bool
  JOB_SVFLG_SubJob : Bool
  JOB_SVFLG_HERE : Bool
  deriving DecidableEq, Repr

/-- The word `tkm_flags` of the tracker, one field per bit. -/
structure tkmflags where
  TKMFLG_NO_DELETE : Bool
  TKMFLG_CHK_ARRAY : Bool
  deriving DecidableEq, Repr

/-- The tracker `ajinfo_t` of an array parent. -/
structure ajinfo_t where
  tkm_ct : Int
  tkm_start : Int
  tkm_end : Int
  tkm_step : Int
  tkm_flags : tkmflags
  tkm_subjsct : subjsct
  tkm_dsubjsct : Int
  trm_quelist : List range
  deriving DecidableEq, Repr

/-- Substates that `array_func.c` names; `other` is any further substate. -/
inductive job_substate where
  | JOB_SUBSTATE_UNKNOWN
  | JOB_SUBSTATE_TRANSICM
  | JOB_SUBSTATE_QUEUED
  | JOB_SUBSTATE_FINISHED
  | other (n : Int)
  deriving DecidableEq, Repr

/-- The tag `ji_un_type` of the union `ji_un`; `other` is any tag but
`JOB_UNION_TYPE_EXEC`. -/
inductive union_type where
  | JOB_UNION_TYPE_EXEC
  | other (n : Int)
  deriving DecidableEq, Repr

/-- The part of the job structure that the array functions read or write: the
fixed area `ji_qs`, the state, the attributes `ji_wattr[JOB_ATR_...]` (a string
attribute is its `char *`, `none` when unset) and the tracker `ji_ajinfo`.
The members that only the subjob functions use come last and have the value
of a job that does not use them: the file prefix `ji_qs.ji_fileprefix`, the
handles `ji_qhdr` and `ji_myResv` of the queue and the reservation (their
names), the pointer `ji_parentaj` to the parent of a subjob (a handle, the
job id under which `find_job` finds the parent), the attributes that
`create_subjob` sets or reads, and the two attributes of the credential that
`svr_credfunc.c` reads. -/
structure job where
  ji_jobid : String
  ji_svrflags : svrflags
  ji_state : Char
  ji_substate : job_substate
  ji_un_type : union_type
  ji_momaddr : Int
  ji_momport : Int
  ji_exitstat : Int
  ji_endtime : Int
  JOB_ATR_exit_status : attr_l
  JOB_ATR_stageout_status : attr_l
  JOB_ATR_endtime : attr_l
  JOB_ATR_array : attr_l
  JOB_ATR_depend : Bool
  JOB_ATR_array_indices_submitted : Option String
  JOB_ATR_array_indices_remaining : Option String
  JOB_ATR_array_state_count : Option String
  ji_ajinfo : Option ajinfo_t
  ji_fileprefix : String := ""
  ji_qhdr : Option String := none
  ji_myResv : Option String := none
  ji_parentaj : Option String := none
  JOB_ATR_array_id : Option String := none
  JOB_ATR_array_index : Option String := none
  JOB_ATR_outpath : Option String := none
  JOB_ATR_errpath : Option String := none
  JOB_ATR_eligible_time : attr_l := ⟨false, 0⟩
  JOB_ATR_sample_starttime : attr_l := ⟨false, 0⟩
  JOB_ATR_accrue_type : attr_l := ⟨false, 0⟩
  JOB_ATR_qrank : attr_l := ⟨false, 0⟩
  JOB_ATR_cred_id : Option String := none
  JOB_ATR_cred_validity : attr_l := ⟨false, 0⟩
  deriving DecidableEq, Repr

/-- Modelled from the spec: `check_job_state(pjob, letter)` tests the state
letter of the job (the accessor is not among the sources). -/
def check_job_state (pjob : job) (letter : Char) : Bool :=
  decide (pjob.ji_state = letter)

/-- Modelled from the spec: `get_jattr_long` reads `at_val.at_long` of the
attribute (the accessor is not among the sources). -/
def get_jattr_long (a : attr_l) : Int :=
  a.at_long

/-- The server attributes that `setup_ajinfo` reads. -/
structure server where
  SVR_ATR_maxarraysize : attr_l
  deriving DecidableEq, Repr

/-- The constant `PBS_MAX_ARRAY_JOB_DFL`, "default limit 10000" in the comment of
`setup_ajinfo`. -/
def PBS_MAX_ARRAY_JOB_DFL : Int := 10000

/-- Outcome of the two allocations of `setup_ajinfo`: `malloc(sizeof(ajinfo_t))`
and the one inside `new_range`. -/
structure heap where
  malloc_ok : Bool
  new_range_ok : Bool
  deriving DecidableEq, Repr

/-! ## is_job_array -/

/-- The function `is_job_array`: the kind of job the id names, decided at its
first `[`. -/
def is_job_array (id : String) : array_kind :=
  match (cut_at '[' id.toList).2 with
  | none => array_kind.IS_ARRAY_NO
  | some pc =>
    if pc.head? = some ']' then array_kind.IS_ARRAY_ArrayJob
    else
      match pc.dropWhile Char.isDigit with
      | c :: _ =>
        if c = '-' ∨ c = ',' then array_kind.IS_ARRAY_Range else array_kind.IS_ARRAY_Single
      | [] => array_kind.IS_ARRAY_Single

/-! ## Publishing the tracker in the attributes -/

/-- The text that `update_subjob_state_ct` prints with
`"%s:%d %s:%d %s:%d %s:%d"` from `statename` and the counters of Queued,
Running, Exiting and Expired. -/
def array_state_count_str (c : subjsct) : String :=
  "Queued:" ++ toString (c.get JOB_STATE_QUEUED)
    ++ " Running:" ++ toString (c.get JOB_STATE_RUNNING)
    ++ " Exiting:" ++ toString (c.get JOB_STATE_EXITING)
    ++ " Expired:" ++ toString (c.get JOB_STATE_EXPIRED)

/-- The function `update_subjob_state_ct`; `ptbl` is `pjob->ji_ajinfo`, which the
C function dereferences without a test. -/
def update_subjob_state_ct (pjob : job) (ptbl : ajinfo_t) : job :=
  { pjob with JOB_ATR_array_state_count := some (array_state_count_str ptbl.tkm_subjsct) }

/-- The function `update_array_indices_remaining_attr`; `ptbl` is
`parent->ji_ajinfo`, which the C function dereferences without a test. -/
def update_array_indices_remaining_attr (parent : job) (ptbl : ajinfo_t) : job :=
  let pnewstr := range_to_str ptbl.trm_quelist
  let pnewstr := if pnewstr = "" then "-" else pnewstr
  update_subjob_state_ct { parent with JOB_ATR_array_indices_remaining := some pnewstr } ptbl

/-! ## update_sj_parent -/

/-- The join of the exit status of a subjob into its parent, lines 295 to 309 of
`update_sj_parent`.  The two values are read into the `int` variables `e` and
`pe`. -/
def join_exit_status (parent sj : job) : job :=
  if sj.JOB_ATR_exit_status.is_set then
    let e := long_to_int (get_jattr_long sj.JOB_ATR_exit_status)
    let pe := if parent.JOB_ATR_exit_status.is_set then
      long_to_int (get_jattr_long parent.JOB_ATR_exit_status) else 0
    let pe := if pe ≠ 2 then (if e > 0 then 1 else if e < 0 then 2 else 0) else pe
    { parent with JOB_ATR_exit_status := set_attr_l pe }
  else parent

/-- The join of the stage-out status of a subjob into its parent, lines 310 to
317 of `update_sj_parent`.  The two values are read into the `int` variables
`e` and `pe`, and it is `e` that is stored. -/
def join_stageout_status (parent sj : job) : job :=
  if sj.JOB_ATR_stageout_status.is_set then
    let e := long_to_int (get_jattr_long sj.JOB_ATR_stageout_status)
    let pe := if parent.JOB_ATR_stageout_status.is_set then
      long_to_int (get_jattr_long parent.JOB_ATR_stageout_status) else -1
    if e > 0 ∧ pe ≠ 0 then { parent with JOB_ATR_stageout_status := set_attr_l e }
    else parent
  else parent

/-- The function `update_sj_parent(parent, sj, sjid, oldstate, newstate)` for a
parent that is not `NULL`; the result is the parent after the call.  The
closing `job_save_db(parent)` writes the record to the data base and leaves it
as it is. -/
def update_sj_parent (parent : job) (sj : Option job) (sjid : Option String)
    (oldstate newstate : Char) : job :=
  if oldstate = newstate then parent
  else
    match sjid with
    | none => parent
    | some id =>
      if id = "" ∨ get_index_from_jid id = -1 then parent
      else
        match parent.ji_ajinfo with
        | none => parent
        | some ptbl =>
          if state_char2int oldstate = -1 ∨ state_char2int newstate = -1 then parent
          else
            let idx := get_index_from_jid id
            let ostatenum := state_char2int oldstate
            let nstatenum := state_char2int newstate
            let c1 := ptbl.tkm_subjsct.set ostatenum (ptbl.tkm_subjsct.get ostatenum - 1)
            let c2 := c1.set nstatenum (c1.get nstatenum + 1)
            let q1 := if oldstate = JOB_STATE_LTR_QUEUED then
              range_remove_value ptbl.trm_quelist idx else ptbl.trm_quelist
            let q2 := if newstate = JOB_STATE_LTR_QUEUED then
              range_add_value q1 idx ptbl.tkm_step else q1
            let ptbl2 := { ptbl with tkm_subjsct := c2, trm_quelist := q2 }
            let p1 := update_array_indices_remaining_attr
              { parent with ji_ajinfo := some ptbl2 } ptbl2
            match sj with
            | none => p1
            | some s =>
              if newstate ≠ JOB_STATE_LTR_QUEUED then
                join_stageout_status (join_exit_status p1 s) s
              else p1

/-- One call of `update_sj_parent` on a given parent: its other arguments. -/
structure sj_call where
  sj : Option job
  sjid : Option String
  oldstate : Char
  newstate : Char
  deriving DecidableEq, Repr

/-- A sequence of `update_sj_parent` calls on one parent, in order. -/
def update_sj_parent_seq (parent : job) (calls : List sj_call) : job :=
  calls.foldl (fun p c => update_sj_parent p c.sj c.sjid c.oldstate c.newstate) parent

/-! ## Installing the tracker -/

/-- The function `setup_ajinfo(pjob, mode)`: the error code and the job after the
call.  The previous tracker is released first, so the job has no tracker on
every error return. -/
def setup_ajinfo (srv : server) (mem : heap) (pjob : job) (mode : actmode) :
    pbs_error × job :=
  let pjob := { pjob with ji_ajinfo := none }
  match pjob.JOB_ATR_array_indices_submitted with
  | none => (pbs_error.PBSE_BADATVAL, pjob)
  | some range =>
    match parse_subjob_index range with
    | none => (pbs_error.PBSE_BADATVAL, pjob)
    | some (start, r_end, step, count) =>
      let limit := if srv.SVR_ATR_maxarraysize.is_set then
          long_to_int srv.SVR_ATR_maxarraysize.at_long
        else PBS_MAX_ARRAY_JOB_DFL
      if (mode = actmode.ATR_ACTION_NEW ∨ mode = actmode.ATR_ACTION_ALTER) ∧ count > limit then
        (pbs_error.PBSE_MaxArraySize, pjob)
      else if mem.malloc_ok = false then (pbs_error.PBSE_SYSTEM, pjob)
      else if mode = actmode.ATR_ACTION_RECOV ∨ mode = actmode.ATR_ACTION_ALTER then
        let trktbl : ajinfo_t :=
          { tkm_ct := count, tkm_start := start, tkm_end := r_end, tkm_step := step,
            tkm_flags := ⟨false, false⟩, tkm_subjsct := subjsct.zero, tkm_dsubjsct := 0,
            trm_quelist := [] }
        (pbs_error.PBSE_NONE, { pjob with ji_ajinfo := some trktbl })
      else if mem.new_range_ok = false then (pbs_error.PBSE_SYSTEM, pjob)
      else
        let trktbl : ajinfo_t :=
          { tkm_ct := count, tkm_start := start, tkm_end := r_end, tkm_step := step,
            tkm_flags := ⟨false, false⟩,
            tkm_subjsct := subjsct.zero.set JOB_STATE_QUEUED count, tkm_dsubjsct := 0,
            trm_quelist := new_range start r_end step count [] }
        (pbs_error.PBSE_NONE, { pjob with ji_ajinfo := some trktbl })

/-- The function `setup_arrayjob_attrs(pattr, pobj, mode)`, the action routine of
`array_indices_submitted`: the error code and the job after the call.  The
result is `none` when the C code dereferences a `NULL` tracker, which happens
in `update_array_indices_remaining_attr` when the mode is ALTER and the job has
no tracker. -/
def setup_arrayjob_attrs (srv : server) (mem : heap) (pjob : job) (mode : actmode) :
    Option (pbs_error × job) :=
  if mode ≠ actmode.ATR_ACTION_ALTER ∧ mode ≠ actmode.ATR_ACTION_NEW
      ∧ mode ≠ actmode.ATR_ACTION_RECOV then
    some (pbs_error.PBSE_BADATVAL, pjob)
  else if is_job_array pjob.ji_jobid ≠ array_kind.IS_ARRAY_ArrayJob then
    some (pbs_error.PBSE_BADATVAL, pjob)
  else if mode = actmode.ATR_ACTION_ALTER ∧ check_job_state pjob JOB_STATE_LTR_QUEUED = false then
    some (pbs_error.PBSE_MODATRRUN, pjob)
  else
    let pjob := { pjob with
      ji_svrflags := { pjob.ji_svrflags with JOB_SVFLG_ArrayJob := true },
      JOB_ATR_array := set_attr_l 1,
      JOB_ATR_array_state_count := none }
    let r := if mode = actmode.ATR_ACTION_NEW ∨ mode = actmode.ATR_ACTION_RECOV then
      setup_ajinfo srv mem pjob mode else (pbs_error.PBSE_NONE, pjob)
    if r.1 ≠ pbs_error.PBSE_NONE then some r
    else if mode = actmode.ATR_ACTION_RECOV then some (pbs_error.PBSE_NONE, r.2)
    else
      match r.2.ji_ajinfo with
      | none => none
      | some ptbl =>
        some (pbs_error.PBSE_NONE, update_array_indices_remaining_attr r.2 ptbl)

/-- The function `fixup_arrayindicies(pattr, pobj, mode)`, the action routine of
`array_indices_remaining`, for a job that is not `NULL`: the error code and
the job after the call. -/
def fixup_arrayindicies (pjob : job) (mode : actmode) : pbs_error × job :=
  match pjob.ji_ajinfo with
  | none => (pbs_error.PBSE_BADATVAL, pjob)
  | some ptbl =>
    if pjob.ji_svrflags.JOB_SVFLG_ArrayJob = false then (pbs_error.PBSE_BADATVAL, pjob)
    else if mode = actmode.ATR_ACTION_NEW ∧ pjob.ji_svrflags.JOB_SVFLG_HERE = true then
      (pbs_error.PBSE_NONE, pjob)
    else if ptbl.trm_quelist ≠ [] then (pbs_error.PBSE_BADATVAL, pjob)
    else
      let range := pjob.JOB_ATR_array_indices_remaining
      let ptbl := { ptbl with trm_quelist := range_parse range }
      if ptbl.trm_quelist = [] then
        if (range.map fun s => s.toList.head?) = some (some '-') then
          let ptbl := { ptbl with
            tkm_subjsct := (ptbl.tkm_subjsct.set JOB_STATE_QUEUED 0).set JOB_STATE_EXPIRED
              ptbl.tkm_ct }
          (pbs_error.PBSE_NONE, update_subjob_state_ct { pjob with ji_ajinfo := some ptbl } ptbl)
        else (pbs_error.PBSE_BADATVAL, { pjob with ji_ajinfo := some ptbl })
      else
        let qcount := range_count ptbl.trm_quelist
        let ptbl := { ptbl with
          tkm_subjsct := (ptbl.tkm_subjsct.set JOB_STATE_QUEUED qcount).set JOB_STATE_EXPIRED
            (ptbl.tkm_ct - qcount) }
        (pbs_error.PBSE_NONE, update_subjob_state_ct { pjob with ji_ajinfo := some ptbl } ptbl)

/-! ## chk_array_doneness -/

/-- The functions of the server that `chk_array_doneness` calls and that are
defined outside `array_func.c`. -/
inductive ext_fn where
  | check_block
  | svr_setjobstate
  | process_hooks
  | account_job_update_LAST
  | account_jobend_END
  | svr_mailowner_END
  | depend_on_term
  | svr_saveorpurge_finjobhist
  deriving DecidableEq, Repr

/-- One external call: the function and the job as it is when the function is
called. -/
structure ext_call where
  fn : ext_fn
  arg : job
  deriving DecidableEq, Repr

/-- The end-of-job block of `chk_array_doneness` for a parent in state Begun,
lines 358 to 395: the parent and the external calls, in order.  `time_now` is
the global clock and `alloc_br_ok` tells whether `alloc_br` returns a request.
Modelled from the spec: `svr_setjobstate(parent, 'F', JOB_SUBSTATE_FINISHED)`
moves the parent to Finished/Finished (it is not among the sources).  The
messages written with `log_err` are left out. -/
def chk_array_doneness_begun (time_now : Int) (alloc_br_ok : Bool) (parent : job) :
    job × List ext_call :=
  let p1 := { parent with ji_endtime := time_now, JOB_ATR_endtime := set_attr_l time_now }
  let p2 := if alloc_br_ok then
    { p1 with ji_state := JOB_STATE_LTR_FINISHED,
              ji_substate := job_substate.JOB_SUBSTATE_FINISHED } else p1
  let hooks := if alloc_br_ok then
    [ext_call.mk ext_fn.svr_setjobstate p1, ext_call.mk ext_fn.process_hooks p2] else []
  (p2, hooks ++ [ext_call.mk ext_fn.account_job_update_LAST p2,
                 ext_call.mk ext_fn.account_jobend_END p2,
                 ext_call.mk ext_fn.svr_mailowner_END p2])

/-- The function `chk_array_doneness(parent)` for a parent that is not `NULL`:
the parent after the call and the external calls it made, in order. -/
def chk_array_doneness (time_now : Int) (alloc_br_ok : Bool) (parent : job) :
    job × List ext_call :=
  match parent.ji_ajinfo with
  | none => (parent, [])
  | some ptbl =>
    if ptbl.tkm_flags.TKMFLG_NO_DELETE = true ∨ ptbl.tkm_flags.TKMFLG_CHK_ARRAY = true then
      (parent, [])
    else if ptbl.tkm_subjsct.get JOB_STATE_QUEUED + ptbl.tkm_subjsct.get JOB_STATE_RUNNING
        + ptbl.tkm_subjsct.get JOB_STATE_HELD + ptbl.tkm_subjsct.get JOB_STATE_EXITING = 0 then
      let p1 := { parent with
        ji_un_type := union_type.JOB_UNION_TYPE_EXEC, ji_momaddr := 0, ji_momport := 0,
        ji_exitstat := get_jattr_long parent.JOB_ATR_exit_status }
      let t1 := [ext_call.mk ext_fn.check_block p1]
      let r := if check_job_state p1 JOB_STATE_LTR_BEGUN then
        chk_array_doneness_begun time_now alloc_br_ok p1 else (p1, [])
      let p2 := r.1
      let t2 := if p2.JOB_ATR_depend then [ext_call.mk ext_fn.depend_on_term p2] else []
      let ptbl2 : ajinfo_t :=
        { ptbl with tkm_flags := { ptbl.tkm_flags with TKMFLG_CHK_ARRAY := true } }
      let p3 := { p2 with ji_ajinfo := some ptbl2 }
      (p3, t1 ++ r.2 ++ t2 ++ [ext_call.mk ext_fn.svr_saveorpurge_finjobhist p3])
    else (parent, [])

/-! ## get_subjob_and_state -/

/-- Modelled from the spec: the letter `JOB_STATE_LTR_UNKNOWN` that
`get_subjob_and_state` reports for an index outside the range (`job.h` is not
among the sources); a character that is the letter of no job state. -/
def JOB_STATE_LTR_UNKNOWN : Char := '0'

/-- Modelled from the spec: `create_subjob_id(parent_jid, sjidx)` builds the
subjob id `base[index]suffix` from the id `base[]suffix` of the parent, and
gives `NULL` when the id of the parent has no brackets (the function is not
among the sources). -/
def create_subjob_id (parent_jid : String) (sjidx : Int) : Option String :=
  match cut_at '[' parent_jid.toList with
  | (_, none) => none
  | (base, some rest) =>
    match cut_at ']' rest with
    | (_, none) => none
    | (_, some suffix) =>
      some (String.mk (base ++ ['['] ++ (toString sjidx).toList ++ [']'] ++ suffix))

/-- The function `get_subjob_and_state(parent, sjidx, state, substate)` for a
parent that is not `NULL` and out-parameters that are not `NULL`: the job it
returns and the state and substate it reports.  `find_job` is the job table
of the server, looked up by job id (a `NULL` id is not found); `ptbl` is
`parent->ji_ajinfo`, which the C function dereferences without a test.  The C
remainder `%` is `Int.tmod`; for a step of 0, where C leaves it undefined,
`Int.tmod x 0 = x` stands in. -/
def get_subjob_and_state (find_job : String → Option job) (parent : job) (ptbl : ajinfo_t)
    (sjidx : Int) : Option job × Char × job_substate :=
  if sjidx < 0 then (none, JOB_STATE_LTR_UNKNOWN, job_substate.JOB_SUBSTATE_UNKNOWN)
  else if sjidx < ptbl.tkm_start ∨ sjidx > ptbl.tkm_end then
    (none, JOB_STATE_LTR_UNKNOWN, job_substate.JOB_SUBSTATE_UNKNOWN)
  else if Int.tmod (sjidx - ptbl.tkm_start) ptbl.tkm_step ≠ 0 then
    (none, JOB_STATE_LTR_UNKNOWN, job_substate.JOB_SUBSTATE_UNKNOWN)
  else
    match (create_subjob_id parent.ji_jobid sjidx).bind find_job with
    | none =>
      if range_contains ptbl.trm_quelist sjidx then
        (none, JOB_STATE_LTR_QUEUED, job_substate.JOB_SUBSTATE_QUEUED)
      else
        (none,
          if parent.ji_state = JOB_STATE_LTR_FINISHED then JOB_STATE_LTR_FINISHED
          else JOB_STATE_LTR_EXPIRED,
          job_substate.JOB_SUBSTATE_FINISHED)
    | some sj => (some sj, sj.ji_state, sj.ji_substate)

/-- The reference definition of `get_subjob_and_state` in the words of the
specification: nothing and Unknown for an index outside the submitted range,
the live subjob `P[i]` with its own state when there is one, and otherwise
nothing with the pseudo-state (Queued, Queued) for an index in the queued
list, (Finished, Finished) when the parent is Finished, and (Expired,
Finished) else. -/
def get_subjob_and_state_spec (find_job : String → Option job) (parent : job)
    (ptbl : ajinfo_t) (i : Int) : Option job × Char × job_substate :=
  if i < 0 ∨ i < ptbl.tkm_start ∨ i > ptbl.tkm_end
      ∨ (i - ptbl.tkm_start) % ptbl.tkm_step ≠ 0 then
    (none, JOB_STATE_LTR_UNKNOWN, job_substate.JOB_SUBSTATE_UNKNOWN)
  else
    match (create_subjob_id parent.ji_jobid i).bind find_job with
    | some sj => (some sj, sj.ji_state, sj.ji_substate)
    | none =>
      if range_contains ptbl.trm_quelist i then
        (none, JOB_STATE_LTR_QUEUED, job_substate.JOB_SUBSTATE_QUEUED)
      else if parent.ji_state = JOB_STATE_LTR_FINISHED then
        (none, JOB_STATE_LTR_FINISHED, job_substate.JOB_SUBSTATE_FINISHED)
      else (none, JOB_STATE_LTR_EXPIRED, job_substate.JOB_SUBSTATE_FINISHED)

/-! ## subst_array_index -/

/-- Modelled from the spec: the token `PBS_FILE_ARRAY_INDEX_TAG` of path
templates (the header that defines it is not among the sources). -/
def PBS_FILE_ARRAY_INDEX_TAG : String := "^array_index^"

/-- Modelled from the spec: `get_range_from_jid` returns the text between the
brackets of a job id, `7` for `123[7].host`, and `NULL` for an id without
brackets (the function is not among the sources). -/
def get_range_from_jid (jid : String) : Option String :=
  match (cut_at '[' jid.toList).2 with
  | none => none
  | some rest =>
    match cut_at ']' rest with
    | (_, none) => none
    | (idx, some _) => some (String.mk idx)

/-- The C library function `strstr(haystack, needle)`: at the first occurrence
of `needle`, the text before the occurrence and the text after it; nothing
when `needle` does not occur. -/
def strstr : List Char → List Char → Option (List Char × List Char)
  | [], needle => if needle = [] then some ([], []) else none
  | c :: cs, needle =>
    if needle.isPrefixOf (c :: cs) then some ([], (c :: cs).drop needle.length)
    else (strstr cs needle).map fun r => (c :: r.1, r.2)

/-- The function `subst_array_index(pjob, path)`: the path it returns.  The
buffers `trail` and `path` of `MAXPATHLEN + 1` characters are taken to be
long enough. -/
def subst_array_index (pjob : job) (path : String) : String :=
  match pjob.ji_parentaj with
  | none => path
  | some _ =>
    match strstr path.toList PBS_FILE_ARRAY_INDEX_TAG.toList with
    | none => path
    | some (before, trail) =>
      match get_range_from_jid pjob.ji_jobid with
      | none => path
      | some cvt => String.mk (before ++ cvt.toList ++ trail)

/-! ## create_subjob -/

/-- What `create_subjob` takes from outside its arguments: whether `job_alloc`
returns a job, whether `svr_setjobstate` reports this first transition of the
new subjob to its parent, the server attribute `eligible_time_enable`, the
value of the constant `JOB_ELIGIBLE`, the time of day in milliseconds and the
return code of `svr_enquejob`. -/
structure subjob_env where
  job_alloc_ok : Bool
  svr_setjobstate_updates_parent : Bool
  SVR_ATR_EligibleTimeEnable : attr_l
  JOB_ELIGIBLE : Int
  time_msec : Int
  svr_enquejob_rc : Int
  deriving DecidableEq, Repr

/-- Modelled from the spec: `job_alloc()` gives a cleared job structure, in
state Transit, with no attribute set and no tracker (the function is not among
the sources). -/
def job_alloc : job :=
  { ji_jobid := "", ji_svrflags := ⟨false, false, false⟩,
    ji_state := JOB_STATE_LTR_TRANSIT, ji_substate := job_substate.other 0,
    ji_un_type := union_type.other 0,
    ji_momaddr := 0, ji_momport := 0, ji_exitstat := 0, ji_endtime := 0,
    JOB_ATR_exit_status := ⟨false, 0⟩, JOB_ATR_stageout_status := ⟨false, 0⟩,
    JOB_ATR_endtime := ⟨false, 0⟩, JOB_ATR_array := ⟨false, 0⟩, JOB_ATR_depend := false,
    JOB_ATR_array_indices_submitted := none, JOB_ATR_array_indices_remaining := none,
    JOB_ATR_array_state_count := none, ji_ajinfo := none }

/-- One turn of the loop over `attrs_to_copy` for an attribute holding a
`long`: when the attribute of the parent encodes (it is set), the decoded
value is stored in the subjob, and else the attribute of the subjob stays as
it was.  Encoding and then decoding is taken to give the value back. -/
def copy_attr_l (ppar psub : attr_l) : attr_l :=
  if ppar.is_set then ⟨true, ppar.at_long⟩ else psub

/-- One turn of the loop over `attrs_to_copy` for an attribute holding a
string. -/
def copy_attr_str (ppar psub : Option String) : Option String :=
  match ppar with
  | some v => some v
  | none => psub

/-- Modelled from the spec: `svr_setjobstate(pjob, newstate, newsubstate)`
stores the state and the substate in the job (the function is not among the
sources). -/
def svr_setjobstate (pjob : job) (newstate : Char) (newsubstate : job_substate) : job :=
  { pjob with ji_state := newstate, ji_substate := newsubstate }

/-- What `create_subjob` leaves behind: the code stored through `rc`, the job
it returns and the parent after the call. -/
structure create_subjob_result where
  rc : pbs_error
  subj : Option job
  parent : job
  deriving DecidableEq, Repr

/-- The function `create_subjob(parent, newjid, rc)`.

Of `attrs_to_copy` the model carries the attributes it has a field for: the
state, the substate, `Output_Path`, `Error_Path`, `eligible_time` and
`sample_starttime`; the state and the substate of the parent are always set.
The transition to Queued is `svr_setjobstate`; where the specification lets
this transition run `update_sj_parent` on the parent, the call is made with
the state copied from the parent as the old state, and
`svr_setjobstate_updates_parent` tells whether it is made.  `job_purge` after
a failed `svr_enquejob` releases the subjob.  An unset `Output_Path` or
`Error_Path`, which `get_jattr_str` reports as `NULL`, stays unset. -/
def create_subjob (env : subjob_env) (parent : job) (newjid : Option String) :
    create_subjob_result :=
  match newjid with
  | none => ⟨pbs_error.PBSE_IVALREQ, none, parent⟩
  | some jid =>
    if parent.ji_svrflags.JOB_SVFLG_ArrayJob = false then
      ⟨pbs_error.PBSE_IVALREQ, none, parent⟩
    else
      match get_range_from_jid jid with
      | none => ⟨pbs_error.PBSE_IVALREQ, none, parent⟩
      | some index =>
        if env.job_alloc_ok = false then ⟨pbs_error.PBSE_SYSTEM, none, parent⟩
        else
          let s0 : job :=
            { job_alloc with
              ji_jobid := jid,
              ji_svrflags := parent.ji_svrflags,
              ji_un_type := parent.ji_un_type,
              ji_momaddr := parent.ji_momaddr,
              ji_momport := parent.ji_momport,
              ji_exitstat := parent.ji_exitstat,
              ji_endtime := parent.ji_endtime,
              ji_fileprefix := "",
              ji_qhdr := parent.ji_qhdr,
              ji_myResv := parent.ji_myResv,
              ji_parentaj := some parent.ji_jobid }
          let s1 : job :=
            { s0 with
              ji_state := parent.ji_state,
              ji_substate := parent.ji_substate,
              JOB_ATR_errpath := copy_attr_str parent.JOB_ATR_errpath s0.JOB_ATR_errpath,
              JOB_ATR_outpath := copy_attr_str parent.JOB_ATR_outpath s0.JOB_ATR_outpath,
              JOB_ATR_eligible_time :=
                copy_attr_l parent.JOB_ATR_eligible_time s0.JOB_ATR_eligible_time,
              JOB_ATR_sample_starttime :=
                copy_attr_l parent.JOB_ATR_sample_starttime s0.JOB_ATR_sample_starttime }
          let s2 : job :=
            { s1 with
              JOB_ATR_array_id := some parent.ji_jobid,
              JOB_ATR_array_index := some index,
              ji_svrflags := { s1.ji_svrflags with
                JOB_SVFLG_ArrayJob := false, JOB_SVFLG_SubJob := true },
              ji_substate := job_substate.JOB_SUBSTATE_TRANSICM }
          let oldstate := s2.ji_state
          let s3 := svr_setjobstate s2 JOB_STATE_LTR_QUEUED job_substate.JOB_SUBSTATE_QUEUED
          let parent1 :=
            if env.svr_setjobstate_updates_parent then
              update_sj_parent parent (some s3) (some s3.ji_jobid) oldstate JOB_STATE_LTR_QUEUED
            else parent
          let s4 : job :=
            if env.SVR_ATR_EligibleTimeEnable.at_long = 1 then
              let eligibletime := get_jattr_long parent1.JOB_ATR_eligible_time
              let eligibletime :=
                if get_jattr_long parent1.JOB_ATR_accrue_type = env.JOB_ELIGIBLE then
                  eligibletime + (get_jattr_long s3.JOB_ATR_sample_starttime
                    - get_jattr_long parent1.JOB_ATR_sample_starttime)
                else eligibletime
              { s3 with JOB_ATR_eligible_time := set_attr_l eligibletime }
            else s3
          let s5 : job := { s4 with JOB_ATR_qrank := set_attr_l env.time_msec }
          if env.svr_enquejob_rc ≠ 0 then ⟨pbs_error.PBSE_IVALREQ, none, parent1⟩
          else
            let s6 : job :=
              { s5 with JOB_ATR_outpath := s5.JOB_ATR_outpath.map (subst_array_index s5) }
            let s7 : job :=
              { s6 with JOB_ATR_errpath := s6.JOB_ATR_errpath.map (subst_array_index s6) }
            ⟨pbs_error.PBSE_NONE, some s7, parent1⟩

/-! ## Renewal of credentials (`svr_credfunc.c`) -/

/-- The constant `SVR_RENEW_CREDS_TM`: the period of the sweep in seconds and the
lowest value of the two tunables. -/
def SVR_RENEW_CREDS_TM : Int := 300

/-- The constant `SVR_RENEW_PERIOD_DEFAULT`. -/
def SVR_RENEW_PERIOD_DEFAULT : Int := 3600

/-- The constant `SVR_RENEW_CACHE_PERIOD_DEFAULT`. -/
def SVR_RENEW_CACHE_PERIOD_DEFAULT : Int := 7200

/-- The three global variables of `svr_credfunc.c`. -/
structure cred_globals where
  svr_cred_renew_enable : Int
  svr_cred_renew_period : Int
  svr_cred_renew_cache_period : Int
  deriving DecidableEq, Repr

/-- The globals with their initial values. -/
def cred_globals_init : cred_globals :=
  ⟨0, SVR_RENEW_PERIOD_DEFAULT, SVR_RENEW_CACHE_PERIOD_DEFAULT⟩

/-- The functions that `svr_credfunc.c` hands to `set_task`. -/
inductive task_fn where
  | svr_renew_creds
  | svr_renew_job_cred
  deriving DecidableEq, Repr

/-- One call `set_task(WORK_Timed, wt_event, wt_func, wt_parm1)`: the time at
which the task fires, the function it runs and its parameter. -/
structure work_task where
  wt_event : Int
  wt_func : task_fn
  wt_parm1 : Option String
  deriving DecidableEq, Repr

/-- The loop of `svr_renew_creds` over the list of all jobs; `k` counts the calls
of `rand()` made so far and `rand k` is the value of the next one. -/
def svr_renew_creds_loop (g : cred_globals) (time_now : Int) (rand : Nat → Nat) :
    Nat → List job → List work_task
  | _, [] => []
  | k, pjob :: nxpjob =>
    if pjob.JOB_ATR_cred_id.isSome ∧ check_job_state pjob JOB_STATE_LTR_RUNNING = true then
      if pjob.JOB_ATR_cred_validity.is_set = true
          ∧ get_jattr_long pjob.JOB_ATR_cred_validity - g.svr_cred_renew_period ≤ time_now then
        ⟨time_now + ((rand k : Int) % SVR_RENEW_CREDS_TM), task_fn.svr_renew_job_cred,
            some pjob.ji_jobid⟩
          :: svr_renew_creds_loop g time_now rand (k + 1) nxpjob
      else svr_renew_creds_loop g time_now rand k nxpjob
    else svr_renew_creds_loop g time_now rand k nxpjob

/-- The function `svr_renew_creds(pwt)`: the calls of `set_task` it makes, in
order.  `pwt` tells whether the argument is not `NULL`, `svr_alljobs` is the
list of all jobs and `rand` the sequence of values of `rand()`, which are not
negative.  A `set_task` that fails is logged by the function and changes
nothing else. -/
def svr_renew_creds (g : cred_globals) (time_now : Int) (rand : Nat → Nat) (pwt : Bool)
    (svr_alljobs : List job) : List work_task :=
  (if pwt = true ∧ g.svr_cred_renew_enable ≠ 0 then
      [⟨time_now + SVR_RENEW_CREDS_TM, task_fn.svr_renew_creds, none⟩]
    else [])
  ++ svr_renew_creds_loop g time_now rand 0 svr_alljobs

/-- What the two action routines write to the log. -/
inductive cred_log where
  | value_too_low (attr_is_cache : Bool) (current : Int)
  | should_be_lower (period cache_period : Int)
  | should_be_greater (cache_period period : Int)
  | set_to (attr_is_cache : Bool) (val : Int)
  deriving DecidableEq, Repr

/-- The function `set_cred_renew_period(pattr, pobject, actmode)`: the return
code, the globals after the call and the log entries; `at_long` is
`pattr->at_val.at_long`. -/
def set_cred_renew_period (g : cred_globals) (at_long : Int) (mode : actmode) :
    pbs_error × cred_globals × List cred_log :=
  if mode = actmode.ATR_ACTION_ALTER ∨ mode = actmode.ATR_ACTION_RECOV then
    if at_long < SVR_RENEW_CREDS_TM then
      (pbs_error.PBSE_BADATVAL, g, [cred_log.value_too_low false g.svr_cred_renew_period])
    else
      let g1 := { g with svr_cred_renew_period := at_long }
      (pbs_error.PBSE_NONE, g1,
        (if g1.svr_cred_renew_period > g1.svr_cred_renew_cache_period then
          [cred_log.should_be_lower at_long g1.svr_cred_renew_cache_period] else [])
        ++ [cred_log.set_to false g1.svr_cred_renew_period])
  else (pbs_error.PBSE_NONE, g, [])

/-- The function `set_cred_renew_cache_period(pattr, pobject, actmode)`. -/
def set_cred_renew_cache_period (g : cred_globals) (at_long : Int) (mode : actmode) :
    pbs_error × cred_globals × List cred_log :=
  if mode = actmode.ATR_ACTION_ALTER ∨ mode = actmode.ATR_ACTION_RECOV then
    if at_long < SVR_RENEW_CREDS_TM then
      (pbs_error.PBSE_BADATVAL, g, [cred_log.value_too_low true g.svr_cred_renew_cache_period])
    else
      let g1 := { g with svr_cred_renew_cache_period := at_long }
      (pbs_error.PBSE_NONE, g1,
        (if g1.svr_cred_renew_cache_period < g1.svr_cred_renew_period then
          [cred_log.should_be_greater at_long g1.svr_cred_renew_period] else [])
        ++ [cred_log.set_to true g1.svr_cred_renew_cache_period])
  else (pbs_error.PBSE_NONE, g, [])

/-- The condition of the specification under which the sweep renews the
credential of a job: the job is Running, has `cred_id` set, has
`cred_validity` set, and `cred_validity - cred_renew_period <= now`. -/
def needs_renewal (g : cred_globals) (now : Int) (j : job) : Bool :=
  decide (j.ji_state = JOB_STATE_LTR_RUNNING) && j.JOB_ATR_cred_id.isSome
    && j.JOB_ATR_cred_validity.is_set
    && decide (j.JOB_ATR_cred_validity.at_long - g.svr_cred_renew_period ≤ now)

/-! ## Lists of attribute entries (`attr_func.c`) -/

/-- The C library function `strcmp` on two strings: negative, zero or positive
as the first string is below, equal to or above the second in the order of
their characters; the callers test the sign only, which is given as -1, 0
or 1. -/
def strcmp : List Char → List Char → Int
  | [], [] => 0
  | [], _ :: _ => -1
  | _ :: _, [] => 1
  | c :: cs, d :: ds =>
    if c.toNat < d.toNat then -1 else if d.toNat < c.toNat then 1 else strcmp cs ds

/-- Modelled from the spec: the operator `SET` that `attrlist_alloc` stores in
`al_op`, as a number (the header with `enum batch_op` is not among the
sources); the number plays no part in the statements. -/
def SET : Nat := 0

/-- An entry `svrattrl` of an attribute list: the name, the resource name
(`NULL` when there is none), the value, the flags and the operator. -/
structure svrattrl where
  al_name : String
  al_resc : Option String
  al_value : String
  al_flags : Nat
  al_op : Nat
  deriving DecidableEq, Repr

/-- The name `the_str` that `add_to_svrattrl_list` and
`add_to_svrattrl_list_sorted` give the new entry: `name_str`, or
`name_prefix.name_str` when a prefix is given. -/
def the_str ( name_prefix : Option String) (name_str : String) : String :=
  match name_prefix with
  | none => name_str
  | some p => p ++ "." ++ name_str

/-- The function `add_to_svrattrl_list(phead, name_str, resc_str, val_str, flag,
name_prefix)` for a name and a value that are not `NULL`: the list after the
call, or nothing when the call returns -1 because an allocation fails. -/
def add_to_svrattrl_list (malloc_ok : Bool) (phead : List svrattrl) (name_str : String)
    (resc_str : Option String) (val_str : String) (flag : Nat)
    ( name_prefix : Option String) : Option (List svrattrl) :=
  if malloc_ok = false then none
  else some (phead ++ [⟨the_str name_prefix name_str, resc_str, val_str, flag, SET⟩])

/-- The function `copy_svrattrl_list(from_head, to_head)` for two heads that are
not `NULL`: the list `to_head` after a call that returns 0, nothing after a
call that returns -1.  The loop, with the destination built so far. -/
def copy_svrattrl_list_loop (malloc_ok : Bool) :
    List svrattrl → List svrattrl → Option (List svrattrl)
  | [], to_head => some to_head
  | plist :: rest, to_head =>
    match add_to_svrattrl_list malloc_ok to_head plist.al_name plist.al_resc plist.al_value
        plist.al_op none with
    | none => none
    | some to_head2 => copy_svrattrl_list_loop malloc_ok rest to_head2

/-- The function `copy_svrattrl_list`: the destination starts empty. -/
def copy_svrattrl_list (malloc_ok : Bool) (from_head : List svrattrl) :
    Option (List svrattrl) :=
  copy_svrattrl_list_loop malloc_ok from_head []

/-- The inner loop of `compare_svrattrl_list`: `list2` without its first entry
that has the name and the value of `pal1`, or nothing when no entry has
them. -/
def compare_svrattrl_list_match (pal1 : svrattrl) : List svrattrl → Option (List svrattrl)
  | [] => none
  | pal2 :: nxpal2 =>
    if strcmp pal1.al_name.toList pal2.al_name.toList = 0
        ∧ strcmp pal1.al_value.toList pal2.al_value.toList = 0 then some nxpal2
    else (compare_svrattrl_list_match pal1 nxpal2).map fun r => pal2 :: r

/-- The outer loop of `compare_svrattrl_list` and the test after it: every entry
of `list1` is deleted together with its match in `list2`, and the result is 1
when both lists are empty in the end. -/
def compare_svrattrl_list_loop : List svrattrl → List svrattrl → Int
  | [], list2 => if list2 = [] then 1 else 0
  | pal1 :: nxpal1, list2 =>
    match compare_svrattrl_list_match pal1 list2 with
    | none => 0
    | some list2r => compare_svrattrl_list_loop nxpal1 list2r

/-- The function `compare_svrattrl_list(l1, l2)`. -/
def compare_svrattrl_list (malloc_ok : Bool) (l1 l2 : List svrattrl) : Int :=
  match copy_svrattrl_list malloc_ok l1 with
  | none => 0
  | some list1 =>
    match copy_svrattrl_list malloc_ok l2 with
    | none => 0
    | some list2 => compare_svrattrl_list_loop list1 list2

/-- The pair (name, value) of an entry. -/
def svrattrl.pair (e : svrattrl) : String × String :=
  (e.al_name, e.al_value)

/-- The walk of `add_to_svrattrl_list_sorted` down the list and the insertion
of the new entry `psvrat`: before the first entry whose name compares above
the new name, or at the end when there is none. -/
def svrattrl_insert_sorted (psvrat : svrattrl) : List svrattrl → List svrattrl
  | [] => [psvrat]
  | psvr_cur :: rest =>
    if strcmp psvr_cur.al_name.toList psvrat.al_name.toList > 0 then
      psvrat :: psvr_cur :: rest
    else psvr_cur :: svrattrl_insert_sorted psvrat rest

/-- The function `add_to_svrattrl_list_sorted(phead, name_str, resc_str, val_str,
flag, name_prefix)` for a name and a value that are not `NULL`: the list after
the call, or nothing when the call returns -1 because an allocation fails. -/
def add_to_svrattrl_list_sorted (malloc_ok : Bool) (phead : List svrattrl)
    (name_str : String) (resc_str : Option String) (val_str : String) (flag : Nat)
    ( name_prefix : Option String) : Option (List svrattrl) :=
  if malloc_ok = false then none
  else
    some (svrattrl_insert_sorted ⟨the_str name_prefix name_str, resc_str, val_str, flag, SET⟩
      phead)

/-- The names of a list of entries are in ascending order: no entry is followed,
at any distance, by an entry whose name compares below its own. -/
def svrattrl_sorted (l : List svrattrl) : Prop :=
  l.Pairwise fun a b => strcmp a.al_name.toList b.al_name.toList ≤ 0

/-! ## Strings with escapes and quotes (`attr_func.c`)

A C string is the list of its characters before the terminator; the character
at the index of the terminator, the length of the list, reads as `'\0'`. -/

/-- Modelled from the spec: the escape character `ESC_CHAR`, the backslash (the
header that defines it is not among the sources). -/
def ESC_CHAR : Char := '\\'

/-- The character `str[i]` of a C string, the terminator included. -/
def c_at (str : List Char) (i : Nat) : Char :=
  str.getD i '\x00'

/-- The loop of `prune_esc_backslash(str)`: the characters it stores from the
source index `s` on, up to the terminator.  The inner `while` runs at most
once in a row, since after one turn `skip_idx` is `s - 1`.  The destination
index never passes the source index, so no character is read after it was
overwritten. -/
def prune_esc_backslash_loop (str : List Char) : Nat → Nat → Int → List Char
  | 0, _, _ => []
  | fuel + 1, s, skip_idx =>
    if c_at str s = ESC_CHAR ∧ skip_idx ≠ (s : Int) - 1 then
      if c_at str (s + 1) = '\x00' then []
      else c_at str (s + 1) :: prune_esc_backslash_loop str fuel (s + 2) s
    else
      if c_at str s = '\x00' then []
      else c_at str s :: prune_esc_backslash_loop str fuel (s + 1) skip_idx

/-- The function `prune_esc_backslash(str)`: the string after the call. -/
def prune_esc_backslash (str : List Char) : List Char :=
  prune_esc_backslash_loop str (str.length + 1) 0 (-2)

/-- The test of `strtok_quoted` for a delimiter at `pc` that ends the token which
starts at `stok`, index 0 of `s`: the character is the delimiter and it is not
preceded, inside the token, by one escape character that is not itself
preceded by an escape character. -/
def strtok_quoted_delim (s : List Char) (delimiter : Char) (pc : Nat) : Bool :=
  decide (c_at s pc = delimiter)
    && (decide (pc < 1) || decide (c_at s (pc - 1) ≠ ESC_CHAR)
      || decide (pc < 2) || decide (c_at s (pc - 2) = ESC_CHAR))

/-- How the loop of `strtok_quoted` over a quoted value ends: at the closing
quote at `pc`, with the token cut at the delimiter at `pc`, or at the
terminator without a closing quote. -/
inductive quoted_end where
  | closed (pc : Nat)
  | token (pc : Nat)
  | unmatched
  deriving DecidableEq, Repr

/-- The loop `while (*++pc)` of `strtok_quoted` after the opening quote at
`quoted`; `pc` is the index after the increment. -/
def strtok_quoted_quote (s : List Char) (delimiter : Char) (quoted : Nat) :
    Nat → Nat → quoted_end
  | 0, _ => quoted_end.unmatched
  | fuel + 1, pc =>
    if c_at s pc = '\x00' then quoted_end.unmatched
    else if c_at s pc = c_at s quoted then
      if c_at s (pc + 1) = '\x00' ∨ c_at s (pc + 1) = delimiter then quoted_end.closed pc
      else strtok_quoted_quote s delimiter quoted fuel (pc + 1)
    else if strtok_quoted_delim s delimiter pc = true then quoted_end.token pc
    else strtok_quoted_quote s delimiter quoted fuel (pc + 1)

/-- The `for` loop of `strtok_quoted` over the string `s` that starts at `stok`:
the token returned, pruned, and the saved pointer `pc` after the call, as the
string it points to (`none` is `NULL`). -/
def strtok_quoted_for (s : List Char) (delimiter : Char) :
    Nat → Nat → List Char × Option (List Char)
  | 0, pc => (prune_esc_backslash s, some (s.drop pc))
  | fuel + 1, pc =>
    if c_at s pc = '\x00' then (prune_esc_backslash s, some (s.drop pc))
    else if strtok_quoted_delim s delimiter pc = true then
      (prune_esc_backslash (s.take pc), some (s.drop (pc + 1)))
    else if c_at s pc = '\'' ∨ c_at s pc = '"' then
      if c_at s (pc + 1) = '\x00' ∨ c_at s (pc + 1) = delimiter then
        (prune_esc_backslash (s.take (pc + 1)), some (s.drop (pc + 2)))
      else
        match strtok_quoted_quote s delimiter pc s.length (pc + 1) with
        | quoted_end.closed pc2 => strtok_quoted_for s delimiter fuel (pc2 + 1)
        | quoted_end.token pc2 =>
          (prune_esc_backslash (s.take pc2), some (s.drop (pc2 + 1)))
        | quoted_end.unmatched => (prune_esc_backslash s, none)
    else strtok_quoted_for s delimiter fuel (pc + 1)

/-- The function `strtok_quoted(source, delimiter)`: the token it returns and the
static pointer `pc` after the call, given the static pointer before it. -/
def strtok_quoted (pc : Option (List Char)) (source : Option (List Char))
    (delimiter : Char) : Option (List Char) × Option (List Char) :=
  let pc := match source with
    | some s => some s
    | none => pc
  match pc with
  | none => (none, none)
  | some [] => (none, some [])
  | some (c :: cs) =>
    ((strtok_quoted_for (c :: cs) delimiter (cs.length + 2) 0).1,
      (strtok_quoted_for (c :: cs) delimiter (cs.length + 2) 0).2)

/-- The calls `strtok_quoted(NULL, delimiter)` that follow a first call, until one
returns `NULL`: the tokens they return. -/
def strtok_quoted_rest (delimiter : Char) : Nat → Option (List Char) → List (List Char)
  | 0, _ => []
  | fuel + 1, pc =>
    match strtok_quoted pc none delimiter with
    | (none, _) => []
    | (some p, pc2) => p :: strtok_quoted_rest delimiter fuel pc2

/-- The function `str_to_str_array(str, delimiter)` when its allocations succeed:
the entries of the array it returns, before the closing `NULL`. -/
def str_to_str_array (str : List Char) (delimiter : Char) : List (List Char) :=
  match strtok_quoted none (some str) delimiter with
  | (none, _) => []
  | (some p, pc) => p :: strtok_quoted_rest delimiter str.length pc

/-- The first pass of `env_array_to_str` over one entry: the number of delimiter
and escape characters after the first `=`, or the count `escape` of the entry
before when the entry has no `=` (the variable is not reset). -/
def env_array_to_str_escape (delimiter : Char) (escape : Int) (entry : List Char) : Int :=
  match (cut_at '=' entry).2 with
  | none => escape
  | some val => ((val.filter fun c => decide (c = delimiter ∨ c = ESC_CHAR)).length : Int)

/-- The first pass of `env_array_to_str`: `len` after the loop over the entries,
given `len` and `escape` before it. -/
def env_array_to_str_len_loop (delimiter : Char) : List (List Char) → Int → Int → Int
  | [], len, _ => len
  | entry :: rest, len, escape =>
    let escape := env_array_to_str_escape delimiter escape entry
    let len := len + entry.length
    let len := if escape > 0 then len + escape else len
    env_array_to_str_len_loop delimiter rest (len + 1) escape

/-- The size `len` that `env_array_to_str` computes in its first pass and hands to
`malloc`. -/
def env_array_to_str_len (env_array : List (List Char)) (delimiter : Char) : Int :=
  env_array_to_str_len_loop delimiter env_array 0 0 + 1

/-- The value of an entry as the second pass of `env_array_to_str` writes it: an
escape character before every delimiter and every escape character. -/
def env_array_to_str_val (delimiter : Char) : List Char → List Char
  | [] => []
  | c :: val =>
    if c = delimiter ∨ c = ESC_CHAR then ESC_CHAR :: c :: env_array_to_str_val delimiter val
    else c :: env_array_to_str_val delimiter val

/-- The second pass of `env_array_to_str`: the string `ret_string` after the loop
over the entries, given the string written so far; `first` tells whether the
entry is `env_array[0]`. -/
def env_array_to_str_write (delimiter : Char) :
    List (List Char) → Bool → List Char → List Char
  | [], _, ret_string => ret_string
  | entry :: rest, first, ret_string =>
    let var := (cut_at '=' entry).1
    let ret_string := if first then var ++ ['='] else ret_string ++ [delimiter] ++ var ++ ['=']
    let ret_string := match (cut_at '=' entry).2 with
      | none => ret_string
      | some val => ret_string ++ env_array_to_str_val delimiter val
    env_array_to_str_write delimiter rest false ret_string

/-- What a function that fills a buffer from `malloc` leaves: `NULL`, the string
it returns, or a write past the end of the buffer of `size` characters by a
string that needs `needed` characters with its terminator. -/
inductive malloc_str where
  | null
  | str (s : List Char)
  | overflow (size needed : Int)
  deriving DecidableEq, Repr

/-- The function `env_array_to_str(env_array, delimiter)` for an array that is
not `NULL`. -/
def env_array_to_str (malloc_ok : Bool) (env_array : List (List Char)) (delimiter : Char) :
    malloc_str :=
  let len := env_array_to_str_len env_array delimiter
  if len > 1 then
    if malloc_ok = false then malloc_str.null
    else
      let ret_string := env_array_to_str_write delimiter env_array true []
      if (ret_string.length : Int) + 1 ≤ len then malloc_str.str ret_string
      else malloc_str.overflow len (ret_string.length + 1)
  else malloc_str.null

/-- The C library function `isspace` in the "C" locale. -/
def isspace (c : Char) : Bool :=
  decide (c = ' ' ∨ c = '\t' ∨ c = '\n' ∨ c = '\x0b' ∨ c = '\x0c' ∨ c = '\r')

/-- The buffer that `parse_comma_string` works on, its characters before the
terminator (a `'\0'` among them is one the function has written), and the
static pointer `pc` as an index into it. -/
structure comma_state where
  buf : List Char
  pc : Nat
  deriving DecidableEq, Repr

/-- What a call of `parse_comma_string` leaves: an access at a position outside
the buffer (before its first character or after its terminator), or the
value returned, the index at which the token starts or `none` for `NULL`,
with the buffer and the static pointer after the call. -/
inductive comma_result where
  | outside (pos : Int)
  | ret (rv : Option Nat) (st : comma_state)
  deriving DecidableEq, Repr

/-- The loop of `parse_comma_string` that skips leading white space. -/
def parse_comma_string_skip (buf : List Char) : Nat → Nat → Nat
  | 0, pc => pc
  | fuel + 1, pc =>
    if c_at buf pc ≠ '\n' ∧ isspace (c_at buf pc) = true ∧ c_at buf pc ≠ '\x00' then
      parse_comma_string_skip buf fuel (pc + 1)
    else pc

/-- The loop of `parse_comma_string` that finds the comma or the end of the
line; `rv` is the start of the token. -/
def parse_comma_string_find (buf : List Char) (rv : Nat) : Nat → Nat → Nat
  | 0, pc => pc
  | fuel + 1, pc =>
    if c_at buf pc = '\x00' then pc
    else if (c_at buf pc = ',' ∧ (rv = pc ∨ c_at buf (pc - 1) ≠ ESC_CHAR))
        ∨ c_at buf pc = '\n' then pc
    else parse_comma_string_find buf rv fuel (pc + 1)

/-- The loop `while (isspace(*--back)) *back = 0` of `parse_comma_string`; `back`
is the index before the decrement.  The result is the buffer after the loop,
or nothing when the loop reads the position before the first character of
the buffer. -/
def parse_comma_string_strip : Nat → List Char → Nat → Option (List Char)
  | 0, buf, _ => some buf
  | fuel + 1, buf, back =>
    match back with
    | 0 => none
    | back1 + 1 =>
      if isspace (c_at buf back1) = true then
        parse_comma_string_strip fuel (buf.set back1 '\x00') back1
      else some buf

/-- The function `parse_comma_string(start)`, from the static pointer `pc` the
call works with: the start of the buffer `start` on a first call, the saved
pointer on a call with `NULL`. -/
def parse_comma_string (st : comma_state) : comma_result :=
  if c_at st.buf st.pc = '\x00' then comma_result.ret none st
  else
    let pc := parse_comma_string_skip st.buf st.buf.length st.pc
    let rv := pc
    let pc := parse_comma_string_find st.buf rv st.buf.length pc
    match parse_comma_string_strip (st.buf.length + 1) st.buf pc with
    | none => comma_result.outside (-1)
    | some buf =>
      if c_at buf pc ≠ '\x00' then comma_result.ret (some rv) ⟨buf.set pc '\x00', pc + 1⟩
      else comma_result.ret (some rv) ⟨buf, pc⟩

/-- The token that starts at the index `rv` of the buffer: the characters up to
the next `'\0'`. -/
def c_str_at (buf : List Char) (rv : Nat) : List Char :=
  (buf.drop rv).takeWhile fun c => decide (c ≠ '\x00')

/-- The tokens that `parse_comma_string(start)` and the calls
`parse_comma_string(NULL)` after it return until one returns `NULL`; nothing
when a call accesses a position outside the buffer. -/
def parse_comma_string_all : Nat → comma_state → Option (List (List Char))
  | 0, _ => some []
  | fuel + 1, st =>
    match parse_comma_string st with
    | comma_result.outside _ => none
    | comma_result.ret none _ => some []
    | comma_result.ret (some rv) st2 =>
      (parse_comma_string_all fuel st2).map fun l => c_str_at st2.buf rv :: l

/-- The loop of `count_substrings` over the string: `ns` after it. -/
def count_substrings_loop (val : List Char) : Nat → Nat → Int → Int
  | 0, _, ns => ns
  | fuel + 1, pc, ns =>
    if c_at val pc = '\x00' then ns
    else if c_at val pc = ESC_CHAR then
      if c_at val (pc + 1) ≠ '\x00' then count_substrings_loop val fuel (pc + 2) ns
      else count_substrings_loop val fuel (pc + 1) ns
    else if c_at val pc = ',' ∨ c_at val pc = '\n' then
      count_substrings_loop val fuel (pc + 1) (ns + 1)
    else count_substrings_loop val fuel (pc + 1) ns

/-- The function `count_substrings(val, pcnt)` for a string that is not `NULL`:
the count stored through `pcnt` and the string after the call, from which a
trailing comma or new-line that is not escaped has been cut. -/
def count_substrings (val : List Char) : Int × List Char :=
  let ns := count_substrings_loop val (val.length + 1) 0 1
  let pc := val.length - 1
  if (c_at val pc = '\n' ∨ c_at val pc = ',')
      ∧ (pc > 0 ∧ c_at val (pc - 1) ≠ ESC_CHAR) then
    (ns - 1, val.take pc)
  else (ns, val)

/-- The tokens that `parse_comma_string(start)` and the calls with `NULL` after it
return for the buffer `start`. -/
def parse_comma_string_tokens (start : List Char) : Option (List (List Char)) :=
  parse_comma_string_all (start.length + 1) ⟨start, 0⟩

/-! ## Auxiliary definitions used in the statements -/

/-- The entry checks of `update_sj_parent` that do not depend on the parent: the
two state letters differ and are letters of states, and the subjob id is
given, is not empty and carries an index.  A call that fails one of them
returns at once. -/
def passes_entry_checks (c : sj_call) : Bool :=
  decide (c.oldstate ≠ c.newstate)
    && decide (state_char2int c.oldstate ≠ -1) && decide (state_char2int c.newstate ≠ -1)
    && (match c.sjid with
        | some id => decide (id ≠ "") && decide (get_index_from_jid id ≠ -1)
        | none => false)

/-- The call is made with a subjob whose `exit_status` is set and with a new
state other than Queued. -/
def reports_exit_status (c : sj_call) : Bool :=
  match c.sj with
  | some s => s.JOB_ATR_exit_status.is_set && decide (c.newstate ≠ JOB_STATE_LTR_QUEUED)
  | none => false

/-- The call is made with a subjob whose `exit_status` is negative. -/
def exits_negative (c : sj_call) : Bool :=
  match c.sj with
  | some s => decide (get_jattr_long s.JOB_ATR_exit_status < 0)
  | none => false

/-- The call is made with a subjob whose `exit_status` is negative and inside
the range of `int`. -/
def exits_negative_int (c : sj_call) : Bool :=
  match c.sj with
  | some s => decide (-2147483648 ≤ get_jattr_long s.JOB_ATR_exit_status
      ∧ get_jattr_long s.JOB_ATR_exit_status < 0)
  | none => false

/-- The tracker that `setup_ajinfo` builds in NEW mode from a parsed range. -/
def new_tracker (start r_end step count : Int) : ajinfo_t :=
  { tkm_ct := count, tkm_start := start, tkm_end := r_end, tkm_step := step,
    tkm_flags := ⟨false, false⟩,
    tkm_subjsct := subjsct.zero.set JOB_STATE_QUEUED count, tkm_dsubjsct := 0,
    trm_quelist := new_range start r_end step count [] }

/-- The tracker that `setup_ajinfo` builds in RECOV mode from a parsed range. -/
def recov_tracker (start r_end step count : Int) : ajinfo_t :=
  { tkm_ct := count, tkm_start := start, tkm_end := r_end, tkm_step := step,
    tkm_flags := ⟨false, false⟩, tkm_subjsct := subjsct.zero, tkm_dsubjsct := 0,
    trm_quelist := [] }

/-- The limit that `setup_ajinfo` compares the count with: the variable
`int limit`, which holds `max_array_size` converted to `int` when the attribute
is set and 10000 otherwise. -/
def array_size_limit (srv : server) : Int :=
  if srv.SVR_ATR_maxarraysize.is_set then long_to_int srv.SVR_ATR_maxarraysize.at_long
  else PBS_MAX_ARRAY_JOB_DFL

/-- A call agrees with the queued list of the parent it is made on: when it
changes the state of the subjob away from Queued the index of the subjob is in
`trm_quelist`, and when it changes the state to Queued the index is not in
it.  Calls with equal state letters, without a subjob id, or on a parent
without tracker agree with every list. -/
def queue_consistent (parent : job) (c : sj_call) : Bool :=
  match parent.ji_ajinfo, c.sjid with
  | some t, some id =>
    decide (c.oldstate = c.newstate)
      || ((decide (c.oldstate ≠ JOB_STATE_LTR_QUEUED)
            || range_contains t.trm_quelist (get_index_from_jid id))
          && (decide (c.newstate ≠ JOB_STATE_LTR_QUEUED)
            || !range_contains t.trm_quelist (get_index_from_jid id)))
  | _, _ => true

/-- Every call of a sequence agrees with the queued list the parent has when
the call is made. -/
def queue_consistent_seq : job → List sj_call → Bool
  | _, [] => true
  | p, c :: cs =>
    queue_consistent p c
      && queue_consistent_seq (update_sj_parent p c.sj c.sjid c.oldstate c.newstate) cs

/-- What a claim on the counters reads off the tracker of a job: the counters
of Queued and of Expired, the sum of the ten counters, the total `tkm_ct` and
the queued list. -/
def tracker_counts (p : job) : Option (Int × Int × Int × Int × List range) :=
  p.ji_ajinfo.map fun t =>
    (t.tkm_subjsct.get JOB_STATE_QUEUED, t.tkm_subjsct.get JOB_STATE_EXPIRED,
      t.tkm_subjsct.sum, t.tkm_ct, t.trm_quelist)

/-! ## Sample inputs

A server without `max_array_size`, a job `123[].host` submitted with the
indices `0-3`, and the same job after `setup_arrayjob_attrs` in NEW mode. -/

/-- A server whose attribute `max_array_size` is not set. -/
def sample_server : server :=
  ⟨⟨false, 0⟩⟩

/-- Both allocations of `setup_ajinfo` succeed. -/
def sample_heap : heap :=
  ⟨true, true⟩

/-- The array job `123[].host`, created here, state Queued, submitted with the
indices `0-3`, before the action routine of `array_indices_submitted` ran. -/
def sample_job : job :=
  { ji_jobid := "123[].host", ji_svrflags := ⟨false, false, true⟩, ji_state := 'Q',
    ji_substate := job_substate.JOB_SUBSTATE_QUEUED, ji_un_type := union_type.other 0,
    ji_momaddr := 0, ji_momport := 0, ji_exitstat := 0, ji_endtime := 0,
    JOB_ATR_exit_status := ⟨false, 0⟩, JOB_ATR_stageout_status := ⟨false, 0⟩,
    JOB_ATR_endtime := ⟨false, 0⟩, JOB_ATR_array := ⟨false, 0⟩, JOB_ATR_depend := false,
    JOB_ATR_array_indices_submitted := some "0-3", JOB_ATR_array_indices_remaining := none,
    JOB_ATR_array_state_count := none, ji_ajinfo := none }

/-- The tracker of `sample_job` after installation in NEW mode: four indices,
all Queued. -/
def sample_tracker : ajinfo_t :=
  { tkm_ct := 4, tkm_start := 0, tkm_end := 3, tkm_step := 1,
    tkm_flags := ⟨false, false⟩,
    tkm_subjsct := ⟨0, 4, 0, 0, 0, 0, 0, 0, 0, 0⟩, tkm_dsubjsct := 0,
    trm_quelist := [⟨0, 3, 1, 4⟩] }

/-- The job `sample_job` after `setup_arrayjob_attrs` in NEW mode. -/
def sample_parent : job :=
  { sample_job with
    ji_svrflags := ⟨true, false, true⟩,
    JOB_ATR_array := ⟨true, 1⟩,
    JOB_ATR_array_indices_remaining := some "0-3",
    JOB_ATR_array_state_count := some "Queued:4 Running:0 Exiting:0 Expired:0",
    ji_ajinfo := some sample_tracker }

/-- A subjob of `sample_parent` with a given id and exit status. -/
def sample_subjob (id : String) (exit_status : attr_l) : job :=
  { sample_job with
    ji_jobid := id, ji_svrflags := ⟨false, true, true⟩, ji_state := 'R',
    JOB_ATR_exit_status := exit_status,
    JOB_ATR_array_indices_submitted := none }

/-- An array job of ten indices `0-9` as it is read back at recovery, of which
the indices 2, 3 and 7 remain queued, before its action routines ran. -/
def sample_recov_job : job :=
  { sample_job with
    JOB_ATR_array_indices_submitted := some "0-9",
    JOB_ATR_array_indices_remaining := some "2-3,7" }

/-- The job `sample_recov_job` after `setup_arrayjob_attrs` in RECOV mode. -/
def sample_recov_parent : job :=
  { sample_recov_job with
    ji_svrflags := ⟨true, false, true⟩,
    JOB_ATR_array := ⟨true, 1⟩,
    ji_ajinfo := some
      ⟨10, 0, 9, 1, ⟨false, false⟩, ⟨0, 0, 0, 0, 0, 0, 0, 0, 0, 0⟩, 0, []⟩ }

/-- The parent `sample_parent` once it has begun and all its four subjobs have
expired. -/
def sample_drained_parent : job :=
  { sample_parent with
    ji_state := 'B',
    JOB_ATR_array_indices_remaining := some "-",
    JOB_ATR_array_state_count := some "Queued:0 Running:0 Exiting:0 Expired:4",
    ji_ajinfo := some
      ⟨4, 0, 3, 1, ⟨false, false⟩, ⟨0, 0, 0, 0, 0, 0, 4, 0, 0, 0⟩, 4, []⟩ }

/-- A subjob of `sample_parent` with a given id and stage-out status. -/
def sample_stageout_subjob (id : String) (stageout_status : attr_l) : job :=
  { sample_job with
    ji_jobid := id, ji_svrflags := ⟨false, true, true⟩, ji_state := 'E',
    JOB_ATR_stageout_status := stageout_status,
    JOB_ATR_array_indices_submitted := none }

/-- A job table in which the subjob `123[1].host` of `sample_parent` is
running and no other subjob is instantiated. -/
def sample_find_job (jid : String) : Option job :=
  if jid = "123[1].host" then some (sample_subjob "123[1].host" ⟨false, 0⟩) else none

/-- The subjob `123[5].host` of an array job `123[].host`, with its pointer to
the parent set. -/
def sample_indexed_subjob : job :=
  { sample_subjob "123[5].host" ⟨false, 0⟩ with ji_parentaj := some "123[].host" }

/-- An environment in which `create_subjob` meets no failure: the allocation
and the enqueueing succeed and eligible time is not enabled; the argument
tells whether the first transition is reported to the parent. -/
def sample_env (updates_parent : Bool) : subjob_env :=
  { job_alloc_ok := true, svr_setjobstate_updates_parent := updates_parent,
    SVR_ATR_EligibleTimeEnable := ⟨false, 0⟩, JOB_ELIGIBLE := 2, time_msec := 1000,
    svr_enquejob_rc := 0 }

/-- The parent `sample_parent` with the output and error path templates of a
submission. -/
def sample_path_parent : job :=
  { sample_parent with
    JOB_ATR_outpath := some "/tmp/job^array_index^.out",
    JOB_ATR_errpath := some "/tmp/job^array_index^.err" }

/-- The subjob that `create_subjob` makes of `sample_path_parent` for the id
`123[1].host` in the environment `sample_env`. -/
def sample_created_subjob : job :=
  { job_alloc with
    ji_jobid := "123[1].host", ji_svrflags := ⟨false, true, true⟩, ji_state := 'Q',
    ji_substate := job_substate.JOB_SUBSTATE_QUEUED,
    ji_parentaj := some "123[].host",
    JOB_ATR_array_id := some "123[].host", JOB_ATR_array_index := some "1",
    JOB_ATR_outpath := some "/tmp/job1.out", JOB_ATR_errpath := some "/tmp/job1.err",
    JOB_ATR_qrank := ⟨true, 1000⟩ }

/-- The parent `sample_path_parent` once it has begun: the subjob 0 is running,
the indices 1 to 3 are queued. -/
def sample_begun_parent : job :=
  { sample_path_parent with
    ji_state := 'B',
    JOB_ATR_array_indices_remaining := some "1-3",
    JOB_ATR_array_state_count := some "Queued:3 Running:1 Exiting:0 Expired:0",
    ji_ajinfo := some
      ⟨4, 0, 3, 1, ⟨false, false⟩, ⟨0, 3, 0, 0, 1, 0, 0, 0, 0, 0⟩, 0, [⟨1, 3, 1, 3⟩]⟩ }

/-- A running job with a credential that is valid until the given time. -/
def sample_cred_job (id : String) (validity : Int) : job :=
  { sample_subjob id ⟨false, 0⟩ with
    JOB_ATR_cred_id := some "user@REALM", JOB_ATR_cred_validity := ⟨true, validity⟩ }

/-! # Theorems -/

/-! ## Lemmas on the counters -/

theorem state_char2int_range (c : Char) :
    state_char2int c = -1 ∨ (0 ≤ state_char2int c ∧ state_char2int c ≤ 9) := by
  unfold state_char2int
  by_cases h0 : c = JOB_STATE_LTR_TRANSIT
  · rw [if_pos h0]; decide
  rw [if_neg h0]
  by_cases h1 : c = JOB_STATE_LTR_QUEUED
  · rw [if_pos h1]; decide
  rw [if_neg h1]
  by_cases h2 : c = JOB_STATE_LTR_HELD
  · rw [if_pos h2]; decide
  rw [if_neg h2]
  by_cases h3 : c = JOB_STATE_LTR_WAITING
  · rw [if_pos h3]; decide
  rw [if_neg h3]
  by_cases h4 : c = JOB_STATE_LTR_RUNNING
  · rw [if_pos h4]; decide
  rw [if_neg h4]
  by_cases h5 : c = JOB_STATE_LTR_EXITING
  · rw [if_pos h5]; decide
  rw [if_neg h5]
  by_cases h6 : c = JOB_STATE_LTR_EXPIRED
  · rw [if_pos h6]; decide
  rw [if_neg h6]
  by_cases h7 : c = JOB_STATE_LTR_BEGUN
  · rw [if_pos h7]; decide
  rw [if_neg h7]
  by_cases h8 : c = JOB_STATE_LTR_MOVED
  · rw [if_pos h8]; decide
  rw [if_neg h8]
  by_cases h9 : c = JOB_STATE_LTR_FINISHED
  · rw [if_pos h9]; decide
  rw [if_neg h9]
  decide

theorem subjsct.sum_set (c : subjsct) (i v : Int) (h0 : 0 ≤ i) (h9 : i ≤ 9) :
    (c.set i v).sum = c.sum - c.get i + v := by
  obtain ⟨a0, a1, a2, a3, a4, a5, a6, a7, a8, a9⟩ := c
  interval_cases i <;> simp only [subjsct.set, subjsct.get, subjsct.sum] <;> norm_num <;> omega

theorem subjsct.sum_move (c : subjsct) (i j : Int) (hi : 0 ≤ i ∧ i ≤ 9) (hj : 0 ≤ j ∧ j ≤ 9) :
    ((c.set i (c.get i - 1)).set j ((c.set i (c.get i - 1)).get j + 1)).sum = c.sum := by
  rw [subjsct.sum_set _ _ _ hj.1 hj.2, subjsct.sum_set _ _ _ hi.1 hi.2]
  omega

/-! ## What the helpers of update_sj_parent leave alone -/

@[simp] theorem update_array_indices_remaining_attr_ajinfo (p : job) (t : ajinfo_t) :
    (update_array_indices_remaining_attr p t).ji_ajinfo = p.ji_ajinfo := rfl

@[simp] theorem update_array_indices_remaining_attr_exit (p : job) (t : ajinfo_t) :
    (update_array_indices_remaining_attr p t).JOB_ATR_exit_status = p.JOB_ATR_exit_status := rfl

@[simp] theorem join_exit_status_ajinfo (p s : job) :
    (join_exit_status p s).ji_ajinfo = p.ji_ajinfo := by
  unfold join_exit_status
  split <;> rfl

@[simp] theorem join_stageout_status_ajinfo (p s : job) :
    (join_stageout_status p s).ji_ajinfo = p.ji_ajinfo := by
  simp only [join_stageout_status]
  split_ifs <;> rfl

@[simp] theorem join_stageout_status_exit (p s : job) :
    (join_stageout_status p s).JOB_ATR_exit_status = p.JOB_ATR_exit_status := by
  simp only [join_stageout_status]
  split_ifs <;> rfl

/-- The tracker after a call of `update_sj_parent`, in terms of the tracker
before it: either the call returned early and the parent is unchanged, or the
two counters and the queued list were updated. -/
theorem update_sj_parent_ajinfo (p : job) (sj : Option job) (sjid : Option String)
    (o n : Char) (t : ajinfo_t) (h : p.ji_ajinfo = some t) :
    update_sj_parent p sj sjid o n = p ∨
    ∃ id, sjid = some id ∧ o ≠ n ∧ get_index_from_jid id ≠ -1
      ∧ (0 ≤ state_char2int o ∧ state_char2int o ≤ 9)
      ∧ (0 ≤ state_char2int n ∧ state_char2int n ≤ 9)
      ∧ (update_sj_parent p sj sjid o n).ji_ajinfo = some
        { t with
          tkm_subjsct :=
            (t.tkm_subjsct.set (state_char2int o)
              (t.tkm_subjsct.get (state_char2int o) - 1)).set (state_char2int n)
              ((t.tkm_subjsct.set (state_char2int o)
                (t.tkm_subjsct.get (state_char2int o) - 1)).get (state_char2int n) + 1),
          trm_quelist :=
            if n = JOB_STATE_LTR_QUEUED then
              range_add_value
                (if o = JOB_STATE_LTR_QUEUED then
                  range_remove_value t.trm_quelist (get_index_from_jid id) else t.trm_quelist)
                (get_index_from_jid id) t.tkm_step
            else if o = JOB_STATE_LTR_QUEUED then
              range_remove_value t.trm_quelist (get_index_from_jid id) else t.trm_quelist } := by
  unfold update_sj_parent
  by_cases hon : o = n
  · left; simp [hon]
  · cases sjid with
    | none => left; simp [hon]
    | some id =>
      by_cases hid : id = "" ∨ get_index_from_jid id = -1
      · left; simp [hon, hid]
      · by_cases hst : state_char2int o = -1 ∨ state_char2int n = -1
        · left; simp [hon, hid, hst, h]
        · right
          push_neg at hid hst
          refine ⟨id, rfl, hon, hid.2, ?_, ?_, ?_⟩
          · rcases state_char2int_range o with h1 | h1
            · exact absurd h1 hst.1
            · exact h1
          · rcases state_char2int_range n with h1 | h1
            · exact absurd h1 hst.2
            · exact h1
          · simp only [hon, if_false, h, hid.1, hid.2, hst.1, hst.2, false_or]
            cases sj with
            | none => simp
            | some s => by_cases hq : n = JOB_STATE_LTR_QUEUED <;> simp [hq]

/-! ## Installation in NEW mode -/

/-- Every successful `setup_arrayjob_attrs` in NEW mode parsed the submitted
range, found its count within the limit and installed `new_tracker`. -/
theorem setup_arrayjob_attrs_NEW_success (srv : server) (mem : heap) (pjob p0 : job)
    (h : setup_arrayjob_attrs srv mem pjob actmode.ATR_ACTION_NEW
      = some (pbs_error.PBSE_NONE, p0)) :
    ∃ range start r_end step count,
      pjob.JOB_ATR_array_indices_submitted = some range
      ∧ parse_subjob_index range = some (start, r_end, step, count)
      ∧ count ≤ array_size_limit srv
      ∧ is_job_array pjob.ji_jobid = array_kind.IS_ARRAY_ArrayJob
      ∧ p0 = update_array_indices_remaining_attr
          { pjob with
            ji_svrflags := { pjob.ji_svrflags with JOB_SVFLG_ArrayJob := true },
            JOB_ATR_array := set_attr_l 1,
            JOB_ATR_array_state_count := none,
            ji_ajinfo := some (new_tracker start r_end step count) }
          (new_tracker start r_end step count) := by
  unfold setup_arrayjob_attrs at h
  by_cases hid : is_job_array pjob.ji_jobid = array_kind.IS_ARRAY_ArrayJob
  swap
  · simp [hid] at h
  · simp only [hid, ne_eq, not_true_eq_false, if_false, reduceCtorEq, not_false_eq_true,
      and_false, and_true, false_and, or_false, or_true, true_or, if_true] at h
    unfold setup_ajinfo at h
    cases hattr : pjob.JOB_ATR_array_indices_submitted with
    | none => simp [hattr] at h
    | some range =>
      cases hparse : parse_subjob_index range with
      | none => simp [hattr, hparse] at h
      | some q =>
        obtain ⟨start, r_end, step, count⟩ := q
        simp only [hattr, hparse] at h
        by_cases hc : count > array_size_limit srv
        · simp [array_size_limit] at hc
          simp [hc] at h
        · have hc2 : ¬ (count > if srv.SVR_ATR_maxarraysize.is_set = true then
              long_to_int srv.SVR_ATR_maxarraysize.at_long else PBS_MAX_ARRAY_JOB_DFL) := hc
          cases hm : mem.malloc_ok <;> cases hr : mem.new_range_ok <;>
            simp [hc2, hm, hr] at h
          refine ⟨range, start, r_end, step, count, rfl, hparse, not_lt.mp hc, hid, ?_⟩
          rw [← h]
          rfl

/-! ## The counters sum to the total -/

theorem setup_arrayjob_attrs_NEW_sum (srv : server) (mem : heap) (pjob p0 : job)
    (h : setup_arrayjob_attrs srv mem pjob actmode.ATR_ACTION_NEW
      = some (pbs_error.PBSE_NONE, p0)) :
    ∃ t, p0.ji_ajinfo = some t ∧ t.tkm_subjsct.sum = t.tkm_ct
      ∧ t.tkm_subjsct.queued = range_count t.trm_quelist := by
  obtain ⟨range, start, r_end, step, count, -, -, -, -, hp⟩ :=
    setup_arrayjob_attrs_NEW_success srv mem pjob p0 h
  refine ⟨new_tracker start r_end step count, by rw [hp]; rfl, ?_, ?_⟩
  · simp [new_tracker, subjsct.zero, subjsct.set, subjsct.sum, JOB_STATE_QUEUED]
  · simp [new_tracker, subjsct.zero, subjsct.set, JOB_STATE_QUEUED, new_range, range_count]

theorem update_sj_parent_sum (p : job) (sj : Option job) (sjid : Option String)
    (o n : Char) (t : ajinfo_t) (h : p.ji_ajinfo = some t) :
    ∃ t2, (update_sj_parent p sj sjid o n).ji_ajinfo = some t2
      ∧ t2.tkm_subjsct.sum = t.tkm_subjsct.sum ∧ t2.tkm_ct = t.tkm_ct := by
  rcases update_sj_parent_ajinfo p sj sjid o n t h with h1 | ⟨id, -, -, -, ho, hn, h1⟩
  · exact ⟨t, by rw [h1, h], rfl, rfl⟩
  · exact ⟨_, h1, subjsct.sum_move _ _ _ ho hn, rfl⟩

theorem update_sj_parent_seq_sum (calls : List sj_call) :
    ∀ (p : job) (t : ajinfo_t), p.ji_ajinfo = some t →
      ∃ t2, (update_sj_parent_seq p calls).ji_ajinfo = some t2
        ∧ t2.tkm_subjsct.sum = t.tkm_subjsct.sum ∧ t2.tkm_ct = t.tkm_ct := by
  induction calls with
  | nil => intro p t h; exact ⟨t, h, rfl, rfl⟩
  | cons c cs ih =>
    intro p t h
    obtain ⟨t1, h1, hs1, hc1⟩ := update_sj_parent_sum p c.sj c.sjid c.oldstate c.newstate t h
    obtain ⟨t2, h2, hs2, hc2⟩ := ih _ t1 h1
    exact ⟨t2, h2, hs2.trans hs1, hc2.trans hc1⟩

/-- Claim C1.  For an array parent whose tracker was installed by
`setup_arrayjob_attrs` in NEW mode, after every sequence of `update_sj_parent`
calls (any subjobs, subjob ids and state letters) the parent still has its
tracker and the ten counters of `tkm_subjsct` sum to the total `tkm_ct`; and a
single `update_sj_parent` call on any parent with a tracker leaves both the
sum of the counters and the total as they were. -/
theorem update_sj_parent_sum_eq_total (srv : server) (mem : heap) (pjob p0 : job)
    (calls : List sj_call)
    (h : setup_arrayjob_attrs srv mem pjob actmode.ATR_ACTION_NEW
      = some (pbs_error.PBSE_NONE, p0)) :
    (∃ t, (update_sj_parent_seq p0 calls).ji_ajinfo = some t
      ∧ t.tkm_subjsct.sum = t.tkm_ct)
    ∧ ∀ (p : job) (sj : Option job) (sjid : Option String) (o n : Char) (t : ajinfo_t),
        p.ji_ajinfo = some t →
        ∃ t2, (update_sj_parent p sj sjid o n).ji_ajinfo = some t2
          ∧ t2.tkm_subjsct.sum = t.tkm_subjsct.sum ∧ t2.tkm_ct = t.tkm_ct := by
  constructor
  · obtain ⟨t, ht, hsum, -⟩ := setup_arrayjob_attrs_NEW_sum srv mem pjob p0 h
    obtain ⟨t2, h2, hs2, hc2⟩ := update_sj_parent_seq_sum calls p0 t ht
    exact ⟨t2, h2, by rw [hs2, hc2, hsum]⟩
  · intro p sj sjid o n t ht
    exact update_sj_parent_sum p sj sjid o n t ht

/-- Witness of C1: `sample_job` is installed in NEW mode and index 0 is taken
through Queued, Running, Exiting and Expired. -/
theorem update_sj_parent_sum_eq_total_witness :
    setup_arrayjob_attrs sample_server sample_heap sample_job actmode.ATR_ACTION_NEW
      = some (pbs_error.PBSE_NONE, sample_parent)
    ∧ ((∃ t, (update_sj_parent_seq sample_parent
          [⟨none, some "123[0].host", 'Q', 'R'⟩,
           ⟨some (sample_subjob "123[0].host" ⟨false, 0⟩), some "123[0].host", 'R', 'E'⟩,
           ⟨some (sample_subjob "123[0].host" ⟨true, 0⟩), some "123[0].host", 'E', 'X'⟩]).ji_ajinfo
          = some t ∧ t.tkm_subjsct.sum = t.tkm_ct)
      ∧ ∀ (p : job) (sj : Option job) (sjid : Option String) (o n : Char) (t : ajinfo_t),
          p.ji_ajinfo = some t →
          ∃ t2, (update_sj_parent p sj sjid o n).ji_ajinfo = some t2
            ∧ t2.tkm_subjsct.sum = t.tkm_subjsct.sum ∧ t2.tkm_ct = t.tkm_ct) :=
  ⟨by decide, update_sj_parent_sum_eq_total sample_server sample_heap sample_job sample_parent _
    (by decide)⟩

/-! ## The Queued counter and the queued list -/

theorem range_count_append (a b : List range) :
    range_count (a ++ b) = range_count a + range_count b := by
  induction a with
  | nil => simp [range_count]
  | cons r rest ih => simp [range_count, ih]; omega

theorem range_count_remove_single (cur : range) (val : Int) :
    range_count (range_remove_single cur val) = cur.count - 1 := by
  unfold range_remove_single
  split_ifs with h1 h2 h3 <;> simp [range_count] <;> omega

theorem range_count_remove_value (l : List range) (val : Int) :
    range_count (range_remove_value l val)
      = range_count l - (if range_contains l val then 1 else 0) := by
  induction l with
  | nil => simp [range_remove_value, range_count, range_contains]
  | cons cur rest ih =>
    by_cases hc : range_contains_single cur val = true
    · simp [range_remove_value, range_contains, hc, range_count_append,
        range_count_remove_single, range_count]
      omega
    · simp only [Bool.not_eq_true] at hc
      simp only [range_contains] at ih
      simp [range_remove_value, range_contains, hc, range_count, ih]
      omega

theorem range_count_insert (l : List range) (val step : Int) :
    range_count (range_insert l val step) = range_count l + 1 := by
  induction l with
  | nil => simp [range_insert, range_count]
  | cons cur rest ih =>
    unfold range_insert
    split_ifs <;> simp [range_count, ih] <;> omega

theorem range_count_add_value (l : List range) (val step : Int) :
    range_count (range_add_value l val step)
      = range_count l + (if range_contains l val then 0 else 1) := by
  unfold range_add_value
  split_ifs <;> simp [range_count_insert]

theorem state_char2int_eq_queued (c : Char) :
    state_char2int c = 1 ↔ c = JOB_STATE_LTR_QUEUED := by
  constructor
  · intro h
    by_contra hq
    unfold state_char2int at h
    rw [if_neg hq] at h
    by_cases h0 : c = JOB_STATE_LTR_TRANSIT
    · rw [if_pos h0] at h; exact absurd h (by decide)
    rw [if_neg h0] at h
    by_cases h2 : c = JOB_STATE_LTR_HELD
    · rw [if_pos h2] at h; exact absurd h (by decide)
    rw [if_neg h2] at h
    by_cases h3 : c = JOB_STATE_LTR_WAITING
    · rw [if_pos h3] at h; exact absurd h (by decide)
    rw [if_neg h3] at h
    by_cases h4 : c = JOB_STATE_LTR_RUNNING
    · rw [if_pos h4] at h; exact absurd h (by decide)
    rw [if_neg h4] at h
    by_cases h5 : c = JOB_STATE_LTR_EXITING
    · rw [if_pos h5] at h; exact absurd h (by decide)
    rw [if_neg h5] at h
    by_cases h6 : c = JOB_STATE_LTR_EXPIRED
    · rw [if_pos h6] at h; exact absurd h (by decide)
    rw [if_neg h6] at h
    by_cases h7 : c = JOB_STATE_LTR_BEGUN
    · rw [if_pos h7] at h; exact absurd h (by decide)
    rw [if_neg h7] at h
    by_cases h8 : c = JOB_STATE_LTR_MOVED
    · rw [if_pos h8] at h; exact absurd h (by decide)
    rw [if_neg h8] at h
    by_cases h9 : c = JOB_STATE_LTR_FINISHED
    · rw [if_pos h9] at h; exact absurd h (by decide)
    rw [if_neg h9] at h
    exact absurd h (by decide)
  · intro h
    subst h
    decide
theorem subjsct.get_queued_set (c : subjsct) (i v : Int) :
    (c.set i v).get 1 = if i = 1 then v else c.get 1 := by
  have hq : ∀ d : subjsct, d.get 1 = d.queued := fun d => by
    simp [subjsct.get]
  rw [hq, hq]
  by_cases h : i = 1
  · subst h
    simp [subjsct.set]
  · rw [if_neg h]
    unfold subjsct.set
    split_ifs <;> rfl

theorem update_sj_parent_queued (p : job) (sj : Option job) (sjid : Option String)
    (o n : Char) (t : ajinfo_t) (h : p.ji_ajinfo = some t)
    (hq : t.tkm_subjsct.get JOB_STATE_QUEUED = range_count t.trm_quelist)
    (hc : queue_consistent p ⟨sj, sjid, o, n⟩ = true) :
    ∃ t2, (update_sj_parent p sj sjid o n).ji_ajinfo = some t2
      ∧ t2.tkm_subjsct.get JOB_STATE_QUEUED = range_count t2.trm_quelist := by
  rcases update_sj_parent_ajinfo p sj sjid o n t h with h1 | ⟨id, hid, hon, -, -, -, h1⟩
  · exact ⟨t, by rw [h1, h], hq⟩
  · refine ⟨_, h1, ?_⟩
    subst hid
    simp only [queue_consistent, h, hon, decide_False, Bool.false_or, Bool.and_eq_true,
      Bool.or_eq_true, decide_eq_true_eq, Bool.not_eq_true', ne_eq] at hc
    simp only [JOB_STATE_QUEUED] at hq ⊢
    by_cases hnq : n = JOB_STATE_LTR_QUEUED
    · have hoq : o ≠ JOB_STATE_LTR_QUEUED := fun e => hon (e.trans hnq.symm)
      have hn1 : state_char2int n = 1 := (state_char2int_eq_queued n).mpr hnq
      have ho1 : state_char2int o ≠ 1 := fun e => hoq ((state_char2int_eq_queued o).mp e)
      have hnc : range_contains t.trm_quelist (get_index_from_jid id) = false := by
        rcases hc.2 with h2 | h2
        · exact absurd hnq h2
        · exact h2
      simp only [hn1, subjsct.get_queued_set, ho1, if_false, if_true]
      rw [if_pos hnq, if_neg hoq, range_count_add_value, hnc, hq]
      simp
    · have hn1 : state_char2int n ≠ 1 := fun e => hnq ((state_char2int_eq_queued n).mp e)
      by_cases hoq : o = JOB_STATE_LTR_QUEUED
      · have ho1 : state_char2int o = 1 := (state_char2int_eq_queued o).mpr hoq
        have hnc : range_contains t.trm_quelist (get_index_from_jid id) = true := by
          rcases hc.1 with h2 | h2
          · exact absurd hoq h2
          · exact h2
        simp only [subjsct.get_queued_set, hn1, ho1, if_false, if_true]
        rw [if_neg hnq, if_pos hoq, range_count_remove_value, hnc, hq]
        simp
      · have ho1 : state_char2int o ≠ 1 := fun e => hoq ((state_char2int_eq_queued o).mp e)
        simp only [subjsct.get_queued_set, hn1, ho1, if_false]
        rw [if_neg hnq, if_neg hoq, hq]

theorem update_sj_parent_seq_queued (calls : List sj_call) :
    ∀ (p : job) (t : ajinfo_t), p.ji_ajinfo = some t →
      t.tkm_subjsct.get JOB_STATE_QUEUED = range_count t.trm_quelist →
      queue_consistent_seq p calls = true →
      ∃ t2, (update_sj_parent_seq p calls).ji_ajinfo = some t2
        ∧ t2.tkm_subjsct.get JOB_STATE_QUEUED = range_count t2.trm_quelist := by
  induction calls with
  | nil => intro p t h hq _; exact ⟨t, h, hq⟩
  | cons c cs ih =>
    intro p t h hq hc
    simp only [queue_consistent_seq, Bool.and_eq_true] at hc
    obtain ⟨t1, h1, hq1⟩ :=
      update_sj_parent_queued p c.sj c.sjid c.oldstate c.newstate t h hq hc.1
    exact ih _ t1 h1 hq1 hc.2

/-- Claim C2, as stated, fails: after installation of `sample_job` in NEW mode,
the transition of subjob 0 from Queued to Running is delivered twice.  The
second call decrements the Queued counter again although index 0 is no longer
in the queued list: the counter is 2 and the list holds the 3 indices 1-3.
Likewise a call that moves subjob 1 from Running to Queued while index 1 is
still in the list raises the counter to 5 and leaves the 4 indices 0-3. -/
theorem update_sj_parent_queued_counterexample :
    setup_arrayjob_attrs sample_server sample_heap sample_job actmode.ATR_ACTION_NEW
      = some (pbs_error.PBSE_NONE, sample_parent)
    ∧ (update_sj_parent_seq sample_parent
        [⟨none, some "123[0].host", 'Q', 'R'⟩,
         ⟨none, some "123[0].host", 'Q', 'R'⟩]).ji_ajinfo.map
        (fun t => (t.tkm_subjsct.get JOB_STATE_QUEUED, range_count t.trm_quelist,
          range_to_str t.trm_quelist))
      = some (2, 3, "1-3")
    ∧ (update_sj_parent_seq sample_parent
        [⟨none, some "123[1].host", 'R', 'Q'⟩]).ji_ajinfo.map
        (fun t => (t.tkm_subjsct.get JOB_STATE_QUEUED, range_count t.trm_quelist,
          range_to_str t.trm_quelist))
      = some (5, 4, "0-3") := by
  decide

/-- Claim C2, amended.  For an array parent whose tracker was installed by
`setup_arrayjob_attrs` in NEW mode, after every sequence of `update_sj_parent`
calls in which each call that moves a subjob out of state Queued names an
index that is in the queued list when the call is made, and each call that
moves a subjob into state Queued names an index that is not in it, the
counter `tkm_subjsct[JOB_STATE_QUEUED]` equals the number of indices in
`trm_quelist`. -/
theorem update_sj_parent_queued_eq_count (srv : server) (mem : heap) (pjob p0 : job)
    (calls : List sj_call)
    (h : setup_arrayjob_attrs srv mem pjob actmode.ATR_ACTION_NEW
      = some (pbs_error.PBSE_NONE, p0))
    (hc : queue_consistent_seq p0 calls = true) :
    ∃ t, (update_sj_parent_seq p0 calls).ji_ajinfo = some t
      ∧ t.tkm_subjsct.get JOB_STATE_QUEUED = range_count t.trm_quelist := by
  obtain ⟨t, ht, -, hq⟩ := setup_arrayjob_attrs_NEW_sum srv mem pjob p0 h
  have hq2 : t.tkm_subjsct.get JOB_STATE_QUEUED = range_count t.trm_quelist := by
    rw [← hq]
    simp [subjsct.get, JOB_STATE_QUEUED]
  exact update_sj_parent_seq_queued calls p0 t ht hq2 hc

/-- Witness of C2 amended: subjob 0 runs and is requeued, subjob 1 runs and
expires. -/
theorem update_sj_parent_queued_eq_count_witness :
    setup_arrayjob_attrs sample_server sample_heap sample_job actmode.ATR_ACTION_NEW
      = some (pbs_error.PBSE_NONE, sample_parent)
    ∧ queue_consistent_seq sample_parent
        [⟨none, some "123[0].host", 'Q', 'R'⟩,
         ⟨none, some "123[0].host", 'R', 'Q'⟩,
         ⟨none, some "123[1].host", 'Q', 'R'⟩,
         ⟨none, some "123[1].host", 'R', 'X'⟩] = true
    ∧ ∃ t, (update_sj_parent_seq sample_parent
        [⟨none, some "123[0].host", 'Q', 'R'⟩,
         ⟨none, some "123[0].host", 'R', 'Q'⟩,
         ⟨none, some "123[1].host", 'Q', 'R'⟩,
         ⟨none, some "123[1].host", 'R', 'X'⟩]).ji_ajinfo = some t
      ∧ t.tkm_subjsct.get JOB_STATE_QUEUED = range_count t.trm_quelist :=
  ⟨by decide, by decide,
    update_sj_parent_queued_eq_count sample_server sample_heap sample_job sample_parent _
      (by decide) (by decide)⟩

/-! ## The exit status of the parent -/

theorem long_to_int_of_range (x : Int) (h1 : -2147483648 ≤ x) (h2 : x < 2147483648) :
    long_to_int x = x := by
  unfold long_to_int
  omega

theorem long_to_int_two : long_to_int 2 = 2 := by
  decide

theorem join_exit_status_exit (p s : job) :
    (join_exit_status p s).JOB_ATR_exit_status =
      if s.JOB_ATR_exit_status.is_set then
        (if p.JOB_ATR_exit_status.is_set ∧ long_to_int p.JOB_ATR_exit_status.at_long = 2
         then ⟨true, 2⟩
         else if long_to_int s.JOB_ATR_exit_status.at_long > 0 then ⟨true, 1⟩
         else if long_to_int s.JOB_ATR_exit_status.at_long < 0 then ⟨true, 2⟩
         else ⟨true, 0⟩)
      else p.JOB_ATR_exit_status := by
  simp only [join_exit_status, get_jattr_long, set_attr_l]
  by_cases hs : s.JOB_ATR_exit_status.is_set = true
  · simp only [hs, if_true]
    by_cases hp : p.JOB_ATR_exit_status.is_set = true
    · simp only [hp, if_true, true_and]
      by_cases h2 : long_to_int p.JOB_ATR_exit_status.at_long = 2
      · simp [h2]
      · simp only [ne_eq, h2, not_false_eq_true, if_true, if_false]
        split_ifs <;> rfl
    · simp only [hp, if_false, false_and]
      have h02 : (0 : Int) ≠ 2 := by decide
      simp only [ne_eq, h02, not_false_eq_true, if_true, Bool.false_eq_true, if_false,
        false_and]
      split_ifs <;> rfl
  · simp only [hs, if_false, Bool.false_eq_true]

/-- The exit status of the parent after a call of `update_sj_parent`: unchanged,
or joined with the exit status of the subjob. -/
theorem update_sj_parent_exit_cases (p : job) (sj : Option job) (sjid : Option String)
    (o n : Char) :
    (update_sj_parent p sj sjid o n).JOB_ATR_exit_status = p.JOB_ATR_exit_status
    ∨ ∃ s, sj = some s
      ∧ (update_sj_parent p sj sjid o n).JOB_ATR_exit_status
        = (join_exit_status p s).JOB_ATR_exit_status := by
  unfold update_sj_parent
  by_cases hon : o = n
  · left; simp [hon]
  · cases sjid with
    | none => left; simp [hon]
    | some id =>
      by_cases hid : id = "" ∨ get_index_from_jid id = -1
      · left; simp [hon, hid]
      · cases ht : p.ji_ajinfo with
        | none => left; simp [hon, hid, ht]
        | some t =>
          by_cases hst : state_char2int o = -1 ∨ state_char2int n = -1
          · left; simp [hon, hid, hst, ht]
          · push_neg at hid hst
            simp only [hon, if_false, ht, hid.1, hid.2, hst.1, hst.2, false_or]
            cases sj with
            | none => left; simp
            | some s =>
              by_cases hq : n = JOB_STATE_LTR_QUEUED
              · left; simp [hq]
              · right
                refine ⟨s, rfl, ?_⟩
                simp only [ne_eq, hq, not_false_eq_true, if_true, join_stageout_status_exit]
                rw [join_exit_status_exit, join_exit_status_exit]
                rfl

/-- A call that passes the entry checks, on a parent with a tracker, with a
subjob and a new state other than Queued joins the exit status of the subjob
into the parent. -/
theorem update_sj_parent_exit_joined (p : job) (c : sj_call) (s : job) (t : ajinfo_t)
    (ht : p.ji_ajinfo = some t) (hc : passes_entry_checks c = true) (hs : c.sj = some s)
    (hn : c.newstate ≠ JOB_STATE_LTR_QUEUED) :
    (update_sj_parent p c.sj c.sjid c.oldstate c.newstate).JOB_ATR_exit_status
      = (join_exit_status p s).JOB_ATR_exit_status := by
  obtain ⟨sj, sjid, o, n⟩ := c
  simp only at hs hn
  subst hs
  cases sjid with
  | none => simp [passes_entry_checks] at hc
  | some id =>
    simp only [passes_entry_checks, Bool.and_eq_true, decide_eq_true_eq, ne_eq] at hc
    obtain ⟨⟨⟨hon, ho⟩, hn1⟩, hid1, hid2⟩ := hc
    unfold update_sj_parent
    simp only [hon, if_false, ht, hid1, hid2, ho, hn1, false_or, ne_eq, hn, not_false_eq_true,
      if_true, join_stageout_status_exit]
    rw [join_exit_status_exit, join_exit_status_exit]
    rfl

theorem update_sj_parent_exit_two (p : job) (sj : Option job) (sjid : Option String)
    (o n : Char) (h : p.JOB_ATR_exit_status = ⟨true, 2⟩) :
    (update_sj_parent p sj sjid o n).JOB_ATR_exit_status = ⟨true, 2⟩ := by
  rcases update_sj_parent_exit_cases p sj sjid o n with h1 | ⟨s, -, h1⟩
  · rw [h1, h]
  · rw [h1, join_exit_status_exit, h]
    simp [long_to_int_two]

theorem update_sj_parent_keeps_tracker (p : job) (sj : Option job) (sjid : Option String)
    (o n : Char) (h : p.ji_ajinfo.isSome = true) :
    (update_sj_parent p sj sjid o n).ji_ajinfo.isSome = true := by
  obtain ⟨t, ht⟩ := Option.isSome_iff_exists.mp h
  obtain ⟨t2, h2, -⟩ := update_sj_parent_sum p sj sjid o n t ht
  rw [h2]
  rfl

theorem update_sj_parent_seq_exit_two (calls : List sj_call) :
    ∀ p : job, p.JOB_ATR_exit_status = ⟨true, 2⟩ →
      (update_sj_parent_seq p calls).JOB_ATR_exit_status = ⟨true, 2⟩ := by
  induction calls with
  | nil => intro p h; exact h
  | cons c cs ih =>
    intro p h
    exact ih _ (update_sj_parent_exit_two p c.sj c.sjid c.oldstate c.newstate h)

theorem update_sj_parent_seq_negative (calls : List sj_call) :
    ∀ p : job, p.ji_ajinfo.isSome = true →
      (∃ c ∈ calls, reports_exit_status c = true ∧ passes_entry_checks c = true
        ∧ exits_negative_int c = true) →
      (update_sj_parent_seq p calls).JOB_ATR_exit_status = ⟨true, 2⟩ := by
  induction calls with
  | nil => intro p _ h; simp at h
  | cons c cs ih =>
    intro p ht hneg
    show (update_sj_parent_seq (update_sj_parent p c.sj c.sjid c.oldstate c.newstate)
      cs).JOB_ATR_exit_status = _
    by_cases hn : reports_exit_status c = true ∧ passes_entry_checks c = true
        ∧ exits_negative_int c = true
    · apply update_sj_parent_seq_exit_two
      obtain ⟨t, ht2⟩ := Option.isSome_iff_exists.mp ht
      obtain ⟨hr, hc, hng⟩ := hn
      cases hs : c.sj with
      | none => simp [reports_exit_status, hs] at hr
      | some s =>
        simp only [reports_exit_status, hs, Bool.and_eq_true, decide_eq_true_eq] at hr
        simp only [exits_negative_int, hs, decide_eq_true_eq, get_jattr_long] at hng
        have hj := update_sj_parent_exit_joined p c s t ht2 hc hs hr.2
        rw [hs] at hj
        rw [hj, join_exit_status_exit, if_pos hr.1]
        have hl : long_to_int s.JOB_ATR_exit_status.at_long = s.JOB_ATR_exit_status.at_long :=
          long_to_int_of_range _ hng.1 (by omega)
        rw [hl]
        have h0 : ¬ s.JOB_ATR_exit_status.at_long > 0 := by omega
        have h1 : s.JOB_ATR_exit_status.at_long < 0 := hng.2
        split_ifs <;> rfl
    · apply ih _ (update_sj_parent_keeps_tracker p c.sj c.sjid c.oldstate c.newstate ht)
      obtain ⟨d, hd, hdn⟩ := hneg
      rcases List.mem_cons.mp hd with rfl | hd2
      · exact absurd hdn hn
      · exact ⟨d, hd2, hdn⟩

/-- Claim C3, as stated, fails in its second half: a parent whose exit status is 1
receives the transition of a subjob to Expired with exit status 0, and its
exit status becomes 0. -/
theorem update_sj_parent_exit_status_counterexample :
    (update_sj_parent { sample_parent with JOB_ATR_exit_status := ⟨true, 1⟩ }
      (some (sample_subjob "123[0].host" ⟨true, 0⟩)) (some "123[0].host") 'R' 'X'
      ).JOB_ATR_exit_status = ⟨true, 0⟩ := by
  decide

/-- Claim C3, amended.  For every parent, subjob, subjob id and pair of state
letters, a call of `update_sj_parent` on a parent whose `exit_status` is set to
2 leaves it set to 2: it never changes it from 2 to 0 or to 1. -/
theorem update_sj_parent_exit_status_two (p : job) (sj : Option job)
    (sjid : Option String) (o n : Char) (h : p.JOB_ATR_exit_status = ⟨true, 2⟩) :
    (update_sj_parent p sj sjid o n).JOB_ATR_exit_status = ⟨true, 2⟩ :=
  update_sj_parent_exit_two p sj sjid o n h

/-- Witness of C3 amended: a parent with exit status 2 receives a subjob that
exited with status 0. -/
theorem update_sj_parent_exit_status_two_witness :
    (update_sj_parent { sample_parent with JOB_ATR_exit_status := ⟨true, 2⟩ }
      (some (sample_subjob "123[0].host" ⟨true, 0⟩)) (some "123[0].host") 'R' 'X'
      ).JOB_ATR_exit_status = ⟨true, 2⟩ :=
  update_sj_parent_exit_status_two _ _ _ _ _ rfl

/-- Claim C4, as stated, fails: the call is made with a subjob whose exit status
is set to -5 and with the new state Expired, but the old state is Expired as
well, so `update_sj_parent` returns at its first test and the exit status of
the parent stays unset.  The same happens at each of the other entry checks:
with a subjob id that carries no index, with an old state letter that is not
the letter of a state, and on a parent without tracker. -/
theorem update_sj_parent_negative_counterexample :
    (∀ c ∈ [sj_call.mk (some (sample_subjob "123[1].host" ⟨true, -5⟩))
        (some "123[1].host") 'X' 'X'], reports_exit_status c = true)
    ∧ (∃ c ∈ [sj_call.mk (some (sample_subjob "123[1].host" ⟨true, -5⟩))
        (some "123[1].host") 'X' 'X'], exits_negative c = true)
    ∧ (update_sj_parent_seq sample_parent
        [sj_call.mk (some (sample_subjob "123[1].host" ⟨true, -5⟩))
          (some "123[1].host") 'X' 'X']).JOB_ATR_exit_status = ⟨false, 0⟩
    ∧ (update_sj_parent_seq sample_parent
        [sj_call.mk (some (sample_subjob "123[].host" ⟨true, -5⟩))
          (some "123[].host") 'E' 'X']).JOB_ATR_exit_status = ⟨false, 0⟩
    ∧ (update_sj_parent_seq sample_parent
        [sj_call.mk (some (sample_subjob "123[1].host" ⟨true, -5⟩))
          (some "123[1].host") '0' 'X']).JOB_ATR_exit_status = ⟨false, 0⟩
    ∧ (update_sj_parent_seq { sample_parent with ji_ajinfo := none }
        [sj_call.mk (some (sample_subjob "123[1].host" ⟨true, -5⟩))
          (some "123[1].host") 'E' 'X']).JOB_ATR_exit_status = ⟨false, 0⟩ := by
  decide

/-- Claim C4, amended.  For every sequence of `update_sj_parent` calls on one
parent with a tracker: if at least one call of the sequence is made with a
subjob whose `exit_status` is set to a negative value within the range of
`int` and with a new state other than Queued, and passes the entry checks of
`update_sj_parent` (different old and new state letters, both letters of job
states, a subjob id that carries an index), then the `exit_status` of the
parent after the whole sequence is set to 2, whatever the other calls of the
sequence are and whatever the order of the calls. -/
theorem update_sj_parent_negative_gives_two (p : job) (calls : List sj_call)
    (ht : p.ji_ajinfo.isSome = true)
    (hneg : ∃ c ∈ calls, reports_exit_status c = true ∧ passes_entry_checks c = true
      ∧ exits_negative_int c = true) :
    (update_sj_parent_seq p calls).JOB_ATR_exit_status = ⟨true, 2⟩ :=
  update_sj_parent_seq_negative calls p ht hneg

/-- Witness of C4 amended: the children 0, 1 and 2 of `sample_parent` exit with
+1, -5 and 0, and a call before them names no subjob id at all. -/
theorem update_sj_parent_negative_gives_two_witness :
    sample_parent.ji_ajinfo.isSome = true
    ∧ (∃ c ∈ [sj_call.mk none none 'E' 'X',
              sj_call.mk (some (sample_subjob "123[0].host" ⟨true, 1⟩))
                (some "123[0].host") 'E' 'X',
              sj_call.mk (some (sample_subjob "123[1].host" ⟨true, -5⟩))
                (some "123[1].host") 'E' 'X',
              sj_call.mk (some (sample_subjob "123[2].host" ⟨true, 0⟩))
                (some "123[2].host") 'E' 'X'],
        reports_exit_status c = true ∧ passes_entry_checks c = true
          ∧ exits_negative_int c = true)
    ∧ (update_sj_parent_seq sample_parent
        [sj_call.mk none none 'E' 'X',
         sj_call.mk (some (sample_subjob "123[0].host" ⟨true, 1⟩))
           (some "123[0].host") 'E' 'X',
         sj_call.mk (some (sample_subjob "123[1].host" ⟨true, -5⟩))
           (some "123[1].host") 'E' 'X',
         sj_call.mk (some (sample_subjob "123[2].host" ⟨true, 0⟩))
           (some "123[2].host") 'E' 'X']).JOB_ATR_exit_status = ⟨true, 2⟩ :=
  ⟨by decide,
    ⟨sj_call.mk (some (sample_subjob "123[1].host" ⟨true, -5⟩)) (some "123[1].host") 'E' 'X',
      by decide, by decide, by decide, by decide⟩,
    update_sj_parent_negative_gives_two sample_parent _ (by decide)
      ⟨sj_call.mk (some (sample_subjob "123[1].host" ⟨true, -5⟩)) (some "123[1].host") 'E' 'X',
        by decide, by decide, by decide, by decide⟩⟩

/-! ## The action routine of array_indices_submitted -/

theorem setup_arrayjob_attrs_ALTER_queued (srv : server) (mem : heap) (pjob : job)
    (t : ajinfo_t)
    (hid : is_job_array pjob.ji_jobid = array_kind.IS_ARRAY_ArrayJob)
    (hq : pjob.ji_state = JOB_STATE_LTR_QUEUED) (ht : pjob.ji_ajinfo = some t) :
    setup_arrayjob_attrs srv mem pjob actmode.ATR_ACTION_ALTER
      = some (pbs_error.PBSE_NONE,
          update_array_indices_remaining_attr
            { pjob with
              ji_svrflags := { pjob.ji_svrflags with JOB_SVFLG_ArrayJob := true },
              JOB_ATR_array := set_attr_l 1,
              JOB_ATR_array_state_count := none } t) := by
  unfold setup_arrayjob_attrs
  simp [hid, check_job_state, hq, ht]

theorem setup_ajinfo_error (srv : server) (mem : heap) (pjob : job) (mode : actmode)
    (range : String) (start r_end step count : Int)
    (hattr : pjob.JOB_ATR_array_indices_submitted = some range)
    (hparse : parse_subjob_index range = some (start, r_end, step, count)) :
    (setup_ajinfo srv mem pjob mode).1 =
      if (mode = actmode.ATR_ACTION_NEW ∨ mode = actmode.ATR_ACTION_ALTER)
          ∧ count > array_size_limit srv then
        pbs_error.PBSE_MaxArraySize
      else if mem.malloc_ok = false then pbs_error.PBSE_SYSTEM
      else if mode = actmode.ATR_ACTION_RECOV ∨ mode = actmode.ATR_ACTION_ALTER then
        pbs_error.PBSE_NONE
      else if mem.new_range_ok = false then pbs_error.PBSE_SYSTEM
      else pbs_error.PBSE_NONE := by
  unfold setup_ajinfo
  simp only [hattr, hparse, array_size_limit]
  split_ifs <;> rfl

theorem setup_arrayjob_attrs_RECOV_success (srv : server) (mem : heap) (pjob p0 : job)
    (h : setup_arrayjob_attrs srv mem pjob actmode.ATR_ACTION_RECOV
      = some (pbs_error.PBSE_NONE, p0)) :
    ∃ range start r_end step count,
      pjob.JOB_ATR_array_indices_submitted = some range
      ∧ parse_subjob_index range = some (start, r_end, step, count)
      ∧ p0 = { pjob with
            ji_svrflags := { pjob.ji_svrflags with JOB_SVFLG_ArrayJob := true },
            JOB_ATR_array := set_attr_l 1,
            JOB_ATR_array_state_count := none,
            ji_ajinfo := some (recov_tracker start r_end step count) } := by
  unfold setup_arrayjob_attrs at h
  by_cases hid : is_job_array pjob.ji_jobid = array_kind.IS_ARRAY_ArrayJob
  swap
  · simp [hid] at h
  · simp only [hid, ne_eq, not_true_eq_false, if_false, reduceCtorEq, not_false_eq_true,
      and_false, and_true, false_and, or_false, or_true, true_or, if_true] at h
    unfold setup_ajinfo at h
    cases hattr : pjob.JOB_ATR_array_indices_submitted with
    | none => simp [hattr] at h
    | some range =>
      cases hparse : parse_subjob_index range with
      | none => simp [hattr, hparse] at h
      | some q =>
        obtain ⟨start, r_end, step, count⟩ := q
        simp only [hattr, hparse] at h
        cases hm : mem.malloc_ok <;> simp [hm] at h
        refine ⟨range, start, r_end, step, count, rfl, hparse, ?_⟩
        rw [← h]
        rfl


theorem setup_arrayjob_attrs_NEW_ok (srv : server) (mem : heap) (pjob : job)
    (range : String) (start r_end step count : Int)
    (hid : is_job_array pjob.ji_jobid = array_kind.IS_ARRAY_ArrayJob)
    (hattr : pjob.JOB_ATR_array_indices_submitted = some range)
    (hparse : parse_subjob_index range = some (start, r_end, step, count))
    (hcount : count ≤ array_size_limit srv)
    (hm : mem.malloc_ok = true) (hr : mem.new_range_ok = true) :
    setup_arrayjob_attrs srv mem pjob actmode.ATR_ACTION_NEW
      = some (pbs_error.PBSE_NONE, update_array_indices_remaining_attr
          { pjob with
            ji_svrflags := { pjob.ji_svrflags with JOB_SVFLG_ArrayJob := true },
            JOB_ATR_array := set_attr_l 1,
            JOB_ATR_array_state_count := none,
            ji_ajinfo := some (new_tracker start r_end step count) }
          (new_tracker start r_end step count)) := by
  have hc : ¬ (count > if srv.SVR_ATR_maxarraysize.is_set = true then
      long_to_int srv.SVR_ATR_maxarraysize.at_long else PBS_MAX_ARRAY_JOB_DFL) :=
    not_lt.mpr hcount
  unfold setup_arrayjob_attrs setup_ajinfo
  simp only [hid, ne_eq, not_true_eq_false, if_false, reduceCtorEq, not_false_eq_true,
    and_false, and_true, false_and, or_false, or_true, true_or, if_true, hattr, hparse, hc, hm,
    hr, Bool.true_eq_false]
  rfl

/-- Claim C5, as stated, fails: `sample_parent` is Queued and has the tracker of
the range `0-3`; its `array_indices_submitted` is changed to `0-9:2`, which
parses to start 0, end 9, step 2, count 5, and the action routine runs in
ALTER mode.  It returns success, but the tracker still has total 4, start 0,
end 3 and step 1. -/
theorem setup_arrayjob_attrs_ALTER_counterexample :
    parse_subjob_index "0-9:2" = some (0, 9, 2, 5)
    ∧ (setup_arrayjob_attrs sample_server sample_heap
        { sample_parent with JOB_ATR_array_indices_submitted := some "0-9:2" }
        actmode.ATR_ACTION_ALTER).map
        (fun r => (r.1, r.2.ji_ajinfo.map
          (fun t => (t.tkm_ct, t.tkm_start, t.tkm_end, t.tkm_step))))
      = some (pbs_error.PBSE_NONE, some (4, 0, 3, 1)) := by
  decide

/-- Claim C5, amended.  For an array parent (an id of the form of an array job)
in state Queued that already has a tracker, `setup_arrayjob_attrs` in ALTER
mode, with any value of `array_indices_submitted` and so with a new valid one,
returns success and keeps the tracker it found: total, start, end, step,
counters and queued list are unchanged.  It sets the flag `JOB_SVFLG_ArrayJob`
and the attribute `array`, and leaves `array_indices_submitted` as it is. -/
theorem setup_arrayjob_attrs_ALTER_keeps_tracker (srv : server) (mem : heap) (pjob : job)
    (t : ajinfo_t)
    (hid : is_job_array pjob.ji_jobid = array_kind.IS_ARRAY_ArrayJob)
    (hq : pjob.ji_state = JOB_STATE_LTR_QUEUED) (ht : pjob.ji_ajinfo = some t) :
    ∃ p, setup_arrayjob_attrs srv mem pjob actmode.ATR_ACTION_ALTER
        = some (pbs_error.PBSE_NONE, p)
      ∧ p.ji_ajinfo = some t
      ∧ p.ji_svrflags.JOB_SVFLG_ArrayJob = true
      ∧ p.JOB_ATR_array = ⟨true, 1⟩
      ∧ p.JOB_ATR_array_indices_submitted = pjob.JOB_ATR_array_indices_submitted :=
  ⟨_, setup_arrayjob_attrs_ALTER_queued srv mem pjob t hid hq ht, ht, rfl, rfl, rfl⟩

/-- Witness of C5 amended: `sample_parent` with the new value `0-9:2`. -/
theorem setup_arrayjob_attrs_ALTER_keeps_tracker_witness :
    ∃ p, setup_arrayjob_attrs sample_server sample_heap
          { sample_parent with JOB_ATR_array_indices_submitted := some "0-9:2" }
          actmode.ATR_ACTION_ALTER
        = some (pbs_error.PBSE_NONE, p)
      ∧ p.ji_ajinfo = some sample_tracker
      ∧ p.ji_svrflags.JOB_SVFLG_ArrayJob = true
      ∧ p.JOB_ATR_array = ⟨true, 1⟩
      ∧ p.JOB_ATR_array_indices_submitted = some "0-9:2" :=
  setup_arrayjob_attrs_ALTER_keeps_tracker sample_server sample_heap
    { sample_parent with JOB_ATR_array_indices_submitted := some "0-9:2" } sample_tracker
    (by decide) (by decide) rfl

theorem setup_arrayjob_attrs_NEW_error (srv : server) (mem : heap) (pjob : job)
    (e : pbs_error) (he : e ≠ pbs_error.PBSE_NONE)
    (hid : is_job_array pjob.ji_jobid = array_kind.IS_ARRAY_ArrayJob) :
    (∃ p, setup_arrayjob_attrs srv mem pjob actmode.ATR_ACTION_NEW = some (e, p))
      ↔ (setup_ajinfo srv mem
          { pjob with
            ji_svrflags := { pjob.ji_svrflags with JOB_SVFLG_ArrayJob := true },
            JOB_ATR_array := set_attr_l 1,
            JOB_ATR_array_state_count := none } actmode.ATR_ACTION_NEW).1 = e := by
  unfold setup_arrayjob_attrs
  simp only [hid, ne_eq, not_true_eq_false, if_false, reduceCtorEq, not_false_eq_true,
    and_false, and_true, false_and, or_false, or_true, true_or, if_true]
  generalize setup_ajinfo srv mem _ actmode.ATR_ACTION_NEW = r
  obtain ⟨r1, r2⟩ := r
  by_cases h : r1 = pbs_error.PBSE_NONE
  · subst h
    simp only [not_true_eq_false, if_false]
    constructor
    · rintro ⟨p, hp⟩
      split at hp
      · cases hp
      · simp only [Option.some.injEq, Prod.mk.injEq] at hp
        exact absurd hp.1.symm he
    · intro h2
      exact absurd h2.symm he
  · simp only [h, not_false_eq_true, if_true, Option.some.injEq, Prod.mk.injEq]
    constructor
    · rintro ⟨p, hp, -⟩
      exact hp
    · intro h2
      exact ⟨r2, h2, rfl⟩

/-- In NEW mode, for a job whose `array_indices_submitted` parses to `count`
indices, `setup_ajinfo` fails with `PBSE_MaxArraySize` if and only if `count` is
greater than the variable `int limit`; a count equal to it is not rejected
(and the tracker is installed when the allocations succeed), a count one
above it is rejected.  The action routine `setup_arrayjob_attrs` returns the
same error under the same condition for a job with the id of an array job. -/
theorem setup_ajinfo_MaxArraySize_limit (srv : server) (mem : heap) (pjob : job)
    (range : String) (start r_end step count : Int)
    (hattr : pjob.JOB_ATR_array_indices_submitted = some range)
    (hparse : parse_subjob_index range = some (start, r_end, step, count)) :
    ((setup_ajinfo srv mem pjob actmode.ATR_ACTION_NEW).1 = pbs_error.PBSE_MaxArraySize
        ↔ count > array_size_limit srv)
    ∧ (count = array_size_limit srv →
        (setup_ajinfo srv mem pjob actmode.ATR_ACTION_NEW).1 ≠ pbs_error.PBSE_MaxArraySize
        ∧ (mem.malloc_ok = true → mem.new_range_ok = true →
          (setup_ajinfo srv mem pjob actmode.ATR_ACTION_NEW).1 = pbs_error.PBSE_NONE))
    ∧ (count = array_size_limit srv + 1 →
        (setup_ajinfo srv mem pjob actmode.ATR_ACTION_NEW).1 = pbs_error.PBSE_MaxArraySize)
    ∧ (is_job_array pjob.ji_jobid = array_kind.IS_ARRAY_ArrayJob →
        ((∃ p, setup_arrayjob_attrs srv mem pjob actmode.ATR_ACTION_NEW
            = some (pbs_error.PBSE_MaxArraySize, p))
          ↔ count > array_size_limit srv)) := by
  have herr := setup_ajinfo_error srv mem
  generalize array_size_limit srv = limit at herr ⊢
  have hnew := herr pjob actmode.ATR_ACTION_NEW range start r_end step count hattr hparse
  simp only [true_or, true_and, reduceCtorEq, or_self, if_false] at hnew
  have hiff : (setup_ajinfo srv mem pjob actmode.ATR_ACTION_NEW).1 = pbs_error.PBSE_MaxArraySize
      ↔ count > limit := by
    rw [hnew]
    by_cases hgt : count > limit
    · simp [hgt]
    · simp only [hgt, if_false, iff_false]
      split_ifs <;> simp
  refine ⟨hiff, ?_, ?_, ?_⟩
  · intro hc
    refine ⟨fun h => ?_, fun hm hr => ?_⟩
    · have := hiff.mp h
      omega
    · rw [hnew]
      have hn : ¬ count > limit := by omega
      simp [hn, hm, hr]
  · intro hc
    exact hiff.mpr (by omega)
  · intro hid
    rw [setup_arrayjob_attrs_NEW_error srv mem pjob pbs_error.PBSE_MaxArraySize (by decide) hid]
    have herr2 := herr { pjob with
        ji_svrflags := { pjob.ji_svrflags with JOB_SVFLG_ArrayJob := true },
        JOB_ATR_array := set_attr_l 1,
        JOB_ATR_array_state_count := none } actmode.ATR_ACTION_NEW range start r_end step count
      hattr hparse
    simp only [true_or, true_and, reduceCtorEq, or_self, if_false] at herr2
    rw [herr2]
    by_cases hgt : count > limit
    · simp [hgt]
    · simp only [hgt, if_false, iff_false]
      split_ifs <;> simp

/-- The variable `int limit` is the server attribute `max_array_size` when that
attribute is set to a value inside the range of `int`, and 10000 when it is
not set. -/
theorem array_size_limit_of_range (srv : server)
    (h : srv.SVR_ATR_maxarraysize.is_set = true →
      -2147483648 ≤ srv.SVR_ATR_maxarraysize.at_long
        ∧ srv.SVR_ATR_maxarraysize.at_long < 2147483648) :
    array_size_limit srv = (if srv.SVR_ATR_maxarraysize.is_set then
      srv.SVR_ATR_maxarraysize.at_long else 10000) := by
  unfold array_size_limit
  by_cases hs : srv.SVR_ATR_maxarraysize.is_set = true
  · rw [if_pos hs, if_pos hs]
    exact long_to_int_of_range _ (h hs).1 (h hs).2
  · rw [if_neg hs, if_neg hs]
    rfl

/-- Claim C6, the code at the failing input: the server attribute
`max_array_size` is set to 4294967297, the job is submitted with the range
`0-3`, which parses to 4 indices, and the mode is NEW.  The count 4 is not
greater than the limit 4294967297, but the variable `int limit` of
`setup_ajinfo` receives 1, the test `count > limit` holds, and `setup_ajinfo`
and the action routine `setup_arrayjob_attrs` return `PBSE_MaxArraySize`
without installing a tracker. -/
theorem setup_ajinfo_MaxArraySize_int_limit :
    sample_job.JOB_ATR_array_indices_submitted = some "0-3"
    ∧ parse_subjob_index "0-3" = some (0, 3, 1, 4)
    ∧ ¬ ((4 : Int) > (if (server.mk ⟨true, 4294967297⟩).SVR_ATR_maxarraysize.is_set then
          (server.mk ⟨true, 4294967297⟩).SVR_ATR_maxarraysize.at_long else 10000))
    ∧ array_size_limit ⟨⟨true, 4294967297⟩⟩ = 1
    ∧ (setup_ajinfo ⟨⟨true, 4294967297⟩⟩ sample_heap sample_job actmode.ATR_ACTION_NEW).1
        = pbs_error.PBSE_MaxArraySize
    ∧ (setup_ajinfo ⟨⟨true, 4294967297⟩⟩ sample_heap sample_job
        actmode.ATR_ACTION_NEW).2.ji_ajinfo = none
    ∧ (setup_arrayjob_attrs ⟨⟨true, 4294967297⟩⟩ sample_heap sample_job
        actmode.ATR_ACTION_NEW).map (fun r => (r.1, r.2.ji_ajinfo))
        = some (pbs_error.PBSE_MaxArraySize, none) := by
  decide

/-- Claim C7.  For a job whose id has the form of an array parent and whose
`array_indices_submitted` parses to `(start, end, step, count)` with `count`
within the limit, `setup_arrayjob_attrs` in NEW mode succeeds when the two
allocations succeed and `max_array_size`, if it is set, lies inside the range
of `int`, and every successful call leaves a tracker with total `count`, the
parsed `start`, `end` and `step`, the counter of Queued equal to `count` and
every other counter 0, `tkm_dsubjsct` 0, no flag set and the parsed range as
queued list, and leaves the job with the flag `JOB_SVFLG_ArrayJob` set and the
attribute `array` set to true. -/
theorem setup_arrayjob_attrs_NEW_tracker (srv : server) (mem : heap) (pjob : job)
    (range : String) (start r_end step count : Int)
    (hid : is_job_array pjob.ji_jobid = array_kind.IS_ARRAY_ArrayJob)
    (hattr : pjob.JOB_ATR_array_indices_submitted = some range)
    (hparse : parse_subjob_index range = some (start, r_end, step, count))
    (hcount : count ≤ (if srv.SVR_ATR_maxarraysize.is_set then
      srv.SVR_ATR_maxarraysize.at_long else 10000)) :
    (mem.malloc_ok = true → mem.new_range_ok = true →
      (srv.SVR_ATR_maxarraysize.is_set = true →
        -2147483648 ≤ srv.SVR_ATR_maxarraysize.at_long
          ∧ srv.SVR_ATR_maxarraysize.at_long < 2147483648) →
      ∃ p0, setup_arrayjob_attrs srv mem pjob actmode.ATR_ACTION_NEW
        = some (pbs_error.PBSE_NONE, p0))
    ∧ ∀ p0, setup_arrayjob_attrs srv mem pjob actmode.ATR_ACTION_NEW
        = some (pbs_error.PBSE_NONE, p0) →
      p0.ji_ajinfo = some
          { tkm_ct := count, tkm_start := start, tkm_end := r_end, tkm_step := step,
            tkm_flags := ⟨false, false⟩,
            tkm_subjsct := ⟨0, count, 0, 0, 0, 0, 0, 0, 0, 0⟩, tkm_dsubjsct := 0,
            trm_quelist := [⟨start, r_end, step, count⟩] }
        ∧ p0.ji_svrflags.JOB_SVFLG_ArrayJob = true
        ∧ p0.JOB_ATR_array = ⟨true, 1⟩ := by
  constructor
  · intro hm hr hint
    have hlim := array_size_limit_of_range srv hint
    exact ⟨_, setup_arrayjob_attrs_NEW_ok srv mem pjob range start r_end step count hid hattr
      hparse (by rw [hlim]; exact hcount) hm hr⟩
  · intro p0 h
    obtain ⟨range2, start2, r_end2, step2, count2, hattr2, hparse2, -, -, hp⟩ :=
      setup_arrayjob_attrs_NEW_success srv mem pjob p0 h
    rw [hattr] at hattr2
    cases hattr2
    rw [hparse] at hparse2
    cases hparse2
    subst hp
    refine ⟨?_, rfl, rfl⟩
    simp [new_tracker, subjsct.zero, subjsct.set, JOB_STATE_QUEUED, new_range]

/-- Witness of C7: `sample_job`, submitted with `0-3`, on `sample_server`. -/
theorem setup_arrayjob_attrs_NEW_tracker_witness :
    is_job_array sample_job.ji_jobid = array_kind.IS_ARRAY_ArrayJob
    ∧ parse_subjob_index "0-3" = some (0, 3, 1, 4)
    ∧ (∃ p0, setup_arrayjob_attrs sample_server sample_heap sample_job actmode.ATR_ACTION_NEW
        = some (pbs_error.PBSE_NONE, p0))
    ∧ sample_parent.ji_ajinfo = some
          { tkm_ct := 4, tkm_start := 0, tkm_end := 3, tkm_step := 1,
            tkm_flags := ⟨false, false⟩,
            tkm_subjsct := ⟨0, 4, 0, 0, 0, 0, 0, 0, 0, 0⟩, tkm_dsubjsct := 0,
            trm_quelist := [⟨0, 3, 1, 4⟩] } :=
  ⟨by decide, by decide,
    (setup_arrayjob_attrs_NEW_tracker sample_server sample_heap sample_job "0-3" 0 3 1 4
      (by decide) rfl (by decide) (by decide)).1 rfl rfl (by decide),
    ((setup_arrayjob_attrs_NEW_tracker sample_server sample_heap sample_job "0-3" 0 3 1 4
      (by decide) rfl (by decide) (by decide)).2 sample_parent (by decide)).1⟩

/-! ## The action routine of array_indices_remaining -/

theorem fixup_arrayindicies_recov_tracker (p0 : job) (start r_end step count : Int)
    (mode : actmode)
    (hf : p0.ji_svrflags.JOB_SVFLG_ArrayJob = true)
    (hm : ¬ (mode = actmode.ATR_ACTION_NEW ∧ p0.ji_svrflags.JOB_SVFLG_HERE = true))
    (ht : p0.ji_ajinfo = some (recov_tracker start r_end step count)) :
    (p0.JOB_ATR_array_indices_remaining = some "-" →
      (fixup_arrayindicies p0 mode).1 = pbs_error.PBSE_NONE
      ∧ tracker_counts (fixup_arrayindicies p0 mode).2 = some (0, count, count, count, []))
    ∧ (range_parse p0.JOB_ATR_array_indices_remaining ≠ [] →
      (fixup_arrayindicies p0 mode).1 = pbs_error.PBSE_NONE
      ∧ tracker_counts (fixup_arrayindicies p0 mode).2
        = some (range_count (range_parse p0.JOB_ATR_array_indices_remaining),
            count - range_count (range_parse p0.JOB_ATR_array_indices_remaining),
            count, count, range_parse p0.JOB_ATR_array_indices_remaining)) := by
  have hdash : range_parse (some "-") = [] := by decide
  have hhead : ("-" : String).toList.head? = some '-' := by decide
  constructor
  · intro hr
    unfold fixup_arrayindicies
    simp only [ht, hf, hm, hr, hdash, hhead, recov_tracker, Bool.true_eq_false, if_false,
      ne_eq, not_true_eq_false, if_true, Option.map_some']
    simp [tracker_counts, update_subjob_state_ct, subjsct.zero, subjsct.set, subjsct.get,
      subjsct.sum, JOB_STATE_QUEUED, JOB_STATE_EXPIRED]
  · intro hr
    unfold fixup_arrayindicies
    simp only [ht, hf, hm, hr, recov_tracker, Bool.true_eq_false, if_false,
      ne_eq, not_true_eq_false, if_true, not_false_eq_true]
    simp [tracker_counts, update_subjob_state_ct, subjsct.zero, subjsct.set, subjsct.get,
      subjsct.sum, JOB_STATE_QUEUED, JOB_STATE_EXPIRED]

/-- Claim C8.  For an array parent whose tracker was installed by
`setup_arrayjob_attrs` in RECOV mode (so with an empty queued list and total
`T`), `fixup_arrayindicies`, run at recovery, succeeds in the two cases of the
claim.  When `array_indices_remaining` is "-" it sets the counter of Queued to
0 and that of Expired to `T`.  When the value parses to a range set of `q`
indices it adopts the set as queued list and sets the counter of Queued to
`q` and that of Expired to `T - q`.  In both cases the ten counters sum to
`T`, the total, afterwards.  (`tracker_counts` lists Queued, Expired, the
sum, the total and the queued list.) -/
theorem fixup_arrayindicies_recovery (srv : server) (mem : heap) (pjob p0 : job)
    (h : setup_arrayjob_attrs srv mem pjob actmode.ATR_ACTION_RECOV
      = some (pbs_error.PBSE_NONE, p0)) :
    ∃ T, p0.ji_ajinfo.map (fun t => (t.tkm_ct, t.trm_quelist)) = some (T, [])
      ∧ (p0.JOB_ATR_array_indices_remaining = some "-" →
          (fixup_arrayindicies p0 actmode.ATR_ACTION_RECOV).1 = pbs_error.PBSE_NONE
          ∧ tracker_counts (fixup_arrayindicies p0 actmode.ATR_ACTION_RECOV).2
            = some (0, T, T, T, []))
      ∧ (range_parse p0.JOB_ATR_array_indices_remaining ≠ [] →
          (fixup_arrayindicies p0 actmode.ATR_ACTION_RECOV).1 = pbs_error.PBSE_NONE
          ∧ tracker_counts (fixup_arrayindicies p0 actmode.ATR_ACTION_RECOV).2
            = some (range_count (range_parse p0.JOB_ATR_array_indices_remaining),
                T - range_count (range_parse p0.JOB_ATR_array_indices_remaining),
                T, T, range_parse p0.JOB_ATR_array_indices_remaining)) := by
  obtain ⟨range, start, r_end, step, count, -, -, hp⟩ :=
    setup_arrayjob_attrs_RECOV_success srv mem pjob p0 h
  have ht : p0.ji_ajinfo = some (recov_tracker start r_end step count) := by rw [hp]
  have hf : p0.ji_svrflags.JOB_SVFLG_ArrayJob = true := by rw [hp]
  have hm : ¬ (actmode.ATR_ACTION_RECOV = actmode.ATR_ACTION_NEW
      ∧ p0.ji_svrflags.JOB_SVFLG_HERE = true) := by simp
  refine ⟨count, by rw [ht]; rfl, ?_⟩
  exact fixup_arrayindicies_recov_tracker p0 start r_end step count actmode.ATR_ACTION_RECOV
    hf hm ht

/-- Witness of C8: `sample_recov_job` has ten indices, of which "2-3,7" remain;
after recovery the counter of Queued is 3 and that of Expired is 7, and with
"-" in place of "2-3,7" they are 0 and 10. -/
theorem fixup_arrayindicies_recovery_witness :
    setup_arrayjob_attrs sample_server sample_heap sample_recov_job actmode.ATR_ACTION_RECOV
      = some (pbs_error.PBSE_NONE, sample_recov_parent)
    ∧ tracker_counts (fixup_arrayindicies sample_recov_parent actmode.ATR_ACTION_RECOV).2
      = some (3, 7, 10, 10, [⟨2, 3, 1, 2⟩, ⟨7, 7, 1, 1⟩])
    ∧ tracker_counts (fixup_arrayindicies
        { sample_recov_parent with JOB_ATR_array_indices_remaining := some "-" }
        actmode.ATR_ACTION_RECOV).2
      = some (0, 10, 10, 10, [])
    ∧ ∃ T, sample_recov_parent.ji_ajinfo.map (fun t => (t.tkm_ct, t.trm_quelist))
        = some (T, [])
      ∧ (sample_recov_parent.JOB_ATR_array_indices_remaining = some "-" →
          (fixup_arrayindicies sample_recov_parent actmode.ATR_ACTION_RECOV).1
            = pbs_error.PBSE_NONE
          ∧ tracker_counts (fixup_arrayindicies sample_recov_parent actmode.ATR_ACTION_RECOV).2
            = some (0, T, T, T, []))
      ∧ (range_parse sample_recov_parent.JOB_ATR_array_indices_remaining ≠ [] →
          (fixup_arrayindicies sample_recov_parent actmode.ATR_ACTION_RECOV).1
            = pbs_error.PBSE_NONE
          ∧ tracker_counts (fixup_arrayindicies sample_recov_parent actmode.ATR_ACTION_RECOV).2
            = some (range_count (range_parse sample_recov_parent.JOB_ATR_array_indices_remaining),
                T - range_count
                  (range_parse sample_recov_parent.JOB_ATR_array_indices_remaining),
                T, T, range_parse sample_recov_parent.JOB_ATR_array_indices_remaining)) :=
  ⟨by decide, by decide, by decide,
    fixup_arrayindicies_recovery sample_server sample_heap sample_recov_job sample_recov_parent
      (by decide)⟩

/-! ## chk_array_doneness -/

theorem chk_array_doneness_guarded (now : Int) (ok : Bool) (p : job) (t : ajinfo_t)
    (ht : p.ji_ajinfo = some t)
    (hg : t.tkm_flags.TKMFLG_NO_DELETE = true ∨ t.tkm_flags.TKMFLG_CHK_ARRAY = true
      ∨ t.tkm_subjsct.get JOB_STATE_QUEUED + t.tkm_subjsct.get JOB_STATE_RUNNING
        + t.tkm_subjsct.get JOB_STATE_HELD + t.tkm_subjsct.get JOB_STATE_EXITING ≠ 0) :
    chk_array_doneness now ok p = (p, []) := by
  unfold chk_array_doneness
  simp only [ht]
  by_cases hf : t.tkm_flags.TKMFLG_NO_DELETE = true ∨ t.tkm_flags.TKMFLG_CHK_ARRAY = true
  · rw [if_pos hf]
  · rw [if_neg hf]
    have hs : t.tkm_subjsct.get JOB_STATE_QUEUED + t.tkm_subjsct.get JOB_STATE_RUNNING
        + t.tkm_subjsct.get JOB_STATE_HELD + t.tkm_subjsct.get JOB_STATE_EXITING ≠ 0 := by
      rcases hg with h1 | h1 | h1
      · exact absurd (Or.inl h1) hf
      · exact absurd (Or.inr h1) hf
      · exact h1
    rw [if_neg hs]

theorem chk_array_doneness_sets_flag (now : Int) (ok : Bool) (p : job) (t : ajinfo_t)
    (ht : p.ji_ajinfo = some t)
    (hf : ¬ (t.tkm_flags.TKMFLG_NO_DELETE = true ∨ t.tkm_flags.TKMFLG_CHK_ARRAY = true))
    (hs : t.tkm_subjsct.get JOB_STATE_QUEUED + t.tkm_subjsct.get JOB_STATE_RUNNING
        + t.tkm_subjsct.get JOB_STATE_HELD + t.tkm_subjsct.get JOB_STATE_EXITING = 0) :
    (chk_array_doneness now ok p).1.ji_ajinfo
      = some { t with tkm_flags := { t.tkm_flags with TKMFLG_CHK_ARRAY := true } } := by
  unfold chk_array_doneness
  simp only [ht]
  rw [if_neg hf, if_pos hs]

/-- Claim C9.  `chk_array_doneness` is idempotent: for every parent, a second call
right after a first one returns the parent that the first call left, with
its state, attributes and tracker, and makes no external call at all (no
change of state, no hook, no accounting record, no mail), whatever the clock
and the outcome of `alloc_br` at either call. -/
theorem chk_array_doneness_idempotent (now1 now2 : Int) (ok1 ok2 : Bool) (p : job) :
    chk_array_doneness now2 ok2 (chk_array_doneness now1 ok1 p).1
      = ((chk_array_doneness now1 ok1 p).1, []) := by
  cases ht : p.ji_ajinfo with
  | none =>
    have h1 : chk_array_doneness now1 ok1 p = (p, []) := by
      unfold chk_array_doneness
      simp only [ht]
    rw [h1]
    unfold chk_array_doneness
    simp only [ht]
  | some t =>
    by_cases hg : t.tkm_flags.TKMFLG_NO_DELETE = true ∨ t.tkm_flags.TKMFLG_CHK_ARRAY = true
        ∨ t.tkm_subjsct.get JOB_STATE_QUEUED + t.tkm_subjsct.get JOB_STATE_RUNNING
          + t.tkm_subjsct.get JOB_STATE_HELD + t.tkm_subjsct.get JOB_STATE_EXITING ≠ 0
    · rw [chk_array_doneness_guarded now1 ok1 p t ht hg]
      exact chk_array_doneness_guarded now2 ok2 p t ht hg
    · push_neg at hg
      have hf : ¬ (t.tkm_flags.TKMFLG_NO_DELETE = true ∨ t.tkm_flags.TKMFLG_CHK_ARRAY = true) := by
        rintro (h1 | h1)
        · exact hg.1 h1
        · exact hg.2.1 h1
      exact chk_array_doneness_guarded now2 ok2 _ _
        (chk_array_doneness_sets_flag now1 ok1 p t ht hf hg.2.2) (Or.inr (Or.inl rfl))

/-- Claim C10.  For a parent with a tracker, `chk_array_doneness` returns the
parent as it is and makes no external call whenever the tracker has
`TKMFLG_NO_DELETE` or `TKMFLG_CHK_ARRAY` set or the counters of Queued,
Running, Held and Exiting sum to more than zero; and when a call leaves a
parent in state Finished that was not in that state before, those four
counters sum to zero (and neither flag was set). -/
theorem chk_array_doneness_only_when_drained (now : Int) (ok : Bool) (p : job)
    (t : ajinfo_t) (ht : p.ji_ajinfo = some t) :
    (t.tkm_flags.TKMFLG_NO_DELETE = true ∨ t.tkm_flags.TKMFLG_CHK_ARRAY = true
        ∨ t.tkm_subjsct.get JOB_STATE_QUEUED + t.tkm_subjsct.get JOB_STATE_RUNNING
          + t.tkm_subjsct.get JOB_STATE_HELD + t.tkm_subjsct.get JOB_STATE_EXITING > 0 →
      chk_array_doneness now ok p = (p, []))
    ∧ ((chk_array_doneness now ok p).1.ji_state = JOB_STATE_LTR_FINISHED →
        p.ji_state ≠ JOB_STATE_LTR_FINISHED →
        t.tkm_subjsct.get JOB_STATE_QUEUED + t.tkm_subjsct.get JOB_STATE_RUNNING
          + t.tkm_subjsct.get JOB_STATE_HELD + t.tkm_subjsct.get JOB_STATE_EXITING = 0
        ∧ t.tkm_flags.TKMFLG_NO_DELETE = false ∧ t.tkm_flags.TKMFLG_CHK_ARRAY = false) := by
  constructor
  · intro hg
    apply chk_array_doneness_guarded now ok p t ht
    rcases hg with h1 | h1 | h1
    · exact Or.inl h1
    · exact Or.inr (Or.inl h1)
    · exact Or.inr (Or.inr (by omega))
  · intro hF hnF
    by_contra hcon
    apply hnF
    have hg : t.tkm_flags.TKMFLG_NO_DELETE = true ∨ t.tkm_flags.TKMFLG_CHK_ARRAY = true
        ∨ t.tkm_subjsct.get JOB_STATE_QUEUED + t.tkm_subjsct.get JOB_STATE_RUNNING
          + t.tkm_subjsct.get JOB_STATE_HELD + t.tkm_subjsct.get JOB_STATE_EXITING ≠ 0 := by
      by_contra hno
      push_neg at hno
      exact hcon ⟨hno.2.2, by simpa using hno.1, by simpa using hno.2.1⟩
    rw [chk_array_doneness_guarded now ok p t ht hg] at hF
    exact hF

/-- Witness of C10: `sample_parent` has four queued subjobs and is left alone;
`sample_drained_parent`, begun and with all four subjobs expired, is moved to
Finished. -/
theorem chk_array_doneness_only_when_drained_witness :
    (chk_array_doneness 1000 true sample_drained_parent).1.ji_state = JOB_STATE_LTR_FINISHED
    ∧ ((sample_tracker.tkm_flags.TKMFLG_NO_DELETE = true
          ∨ sample_tracker.tkm_flags.TKMFLG_CHK_ARRAY = true
          ∨ sample_tracker.tkm_subjsct.get JOB_STATE_QUEUED
            + sample_tracker.tkm_subjsct.get JOB_STATE_RUNNING
            + sample_tracker.tkm_subjsct.get JOB_STATE_HELD
            + sample_tracker.tkm_subjsct.get JOB_STATE_EXITING > 0 →
        chk_array_doneness 1000 true sample_parent = (sample_parent, []))
      ∧ ((chk_array_doneness 1000 true sample_parent).1.ji_state = JOB_STATE_LTR_FINISHED →
          sample_parent.ji_state ≠ JOB_STATE_LTR_FINISHED →
          sample_tracker.tkm_subjsct.get JOB_STATE_QUEUED
            + sample_tracker.tkm_subjsct.get JOB_STATE_RUNNING
            + sample_tracker.tkm_subjsct.get JOB_STATE_HELD
            + sample_tracker.tkm_subjsct.get JOB_STATE_EXITING = 0
          ∧ sample_tracker.tkm_flags.TKMFLG_NO_DELETE = false
          ∧ sample_tracker.tkm_flags.TKMFLG_CHK_ARRAY = false)) :=
  ⟨by decide, chk_array_doneness_only_when_drained 1000 true sample_parent sample_tracker rfl⟩

/-! ## Re-entry into chk_array_doneness -/

theorem chk_array_doneness_begun_fn (now : Int) (ok : Bool) (q : job) (c : ext_call)
    (hc : c ∈ (chk_array_doneness_begun now ok q).2) :
    c.fn ≠ ext_fn.svr_saveorpurge_finjobhist ∧ c.fn ≠ ext_fn.check_block
      ∧ c.fn ≠ ext_fn.depend_on_term := by
  unfold chk_array_doneness_begun at hc
  cases ok
  · simp only [Bool.false_eq_true, if_false, List.nil_append, List.mem_cons, List.mem_singleton,
      List.not_mem_nil, or_false] at hc
    rcases hc with hc | hc | hc <;> subst hc <;> simp
  · simp only [if_true, List.cons_append, List.nil_append, List.mem_cons, List.mem_singleton,
      List.not_mem_nil, or_false] at hc
    rcases hc with hc | hc | hc | hc | hc <;> subst hc <;> simp

theorem mem_ite_singleton {α : Type} (b : Prop) [Decidable b] (x c : α)
    (h : c ∈ (if b then [x] else [])) : c = x := by
  by_cases hb : b
  · rw [if_pos hb] at h
    exact List.mem_singleton.mp h
  · rw [if_neg hb] at h
    exact absurd h (List.not_mem_nil c)

theorem mem_ite_snd_nil {α β : Type} (b : Prop) [Decidable b] (x : β × List α) (y : β)
    (c : α) (h : c ∈ (if b then x else (y, [])).2) : c ∈ x.2 := by
  by_cases hb : b
  · rw [if_pos hb] at h
    exact h
  · rw [if_neg hb] at h
    exact absurd h (List.not_mem_nil c)

theorem chk_array_doneness_saveorpurge_arg (now : Int) (ok : Bool) (p : job) (c : ext_call)
    (hc : c ∈ (chk_array_doneness now ok p).2)
    (hf : c.fn = ext_fn.svr_saveorpurge_finjobhist) :
    ∃ t, c.arg.ji_ajinfo = some t ∧ t.tkm_flags.TKMFLG_CHK_ARRAY = true := by
  cases ht : p.ji_ajinfo with
  | none =>
    unfold chk_array_doneness at hc
    simp [ht] at hc
  | some t =>
    by_cases hg : t.tkm_flags.TKMFLG_NO_DELETE = true ∨ t.tkm_flags.TKMFLG_CHK_ARRAY = true
        ∨ t.tkm_subjsct.get JOB_STATE_QUEUED + t.tkm_subjsct.get JOB_STATE_RUNNING
          + t.tkm_subjsct.get JOB_STATE_HELD + t.tkm_subjsct.get JOB_STATE_EXITING ≠ 0
    · rw [chk_array_doneness_guarded now ok p t ht hg] at hc
      simp at hc
    · push_neg at hg
      have h1 : ¬ (t.tkm_flags.TKMFLG_NO_DELETE = true ∨ t.tkm_flags.TKMFLG_CHK_ARRAY = true) := by
        rintro (h | h)
        · exact hg.1 h
        · exact hg.2.1 h
      unfold chk_array_doneness at hc
      simp only [ht] at hc
      rw [if_neg h1, if_pos hg.2.2] at hc
      simp only [List.mem_append, List.mem_singleton] at hc
      rcases hc with ((hc | hc) | hc) | hc
      · subst hc
        simp at hf
      · exact absurd hf (chk_array_doneness_begun_fn now ok _ c (mem_ite_snd_nil _ _ _ c hc)).1
      · have h3 := mem_ite_singleton _ _ c hc
        subst h3
        simp at hf
      · subst hc
        exact ⟨_, rfl, rfl⟩


/-- Claim C11, as stated, fails: `sample_drained_parent` has begun and all its
subjobs have expired.  In the trace of `chk_array_doneness` the entry of
`process_hooks` carries a parent whose tracker has `TKMFLG_CHK_ARRAY` clear,
and a `chk_array_doneness` call on that parent runs the end-of-job block
again: it calls `check_block` and `svr_saveorpurge_finjobhist`. -/
theorem chk_array_doneness_hooks_counterexample :
    ((chk_array_doneness 1000 true sample_drained_parent).2.filter
        (fun c => decide (c.fn = ext_fn.process_hooks))).map
      (fun c => (c.arg.ji_ajinfo.map (fun t => t.tkm_flags.TKMFLG_CHK_ARRAY),
        (chk_array_doneness 1001 true c.arg).2.map (fun d => d.fn)))
      = [(some false, [ext_fn.check_block, ext_fn.svr_saveorpurge_finjobhist])] := by
  decide

/-- Claim C11, amended.  `chk_array_doneness` guards against re-entry from the
history-or-purge decision with the flag `TKMFLG_CHK_ARRAY`: whenever
`svr_saveorpurge_finjobhist` is called inside `chk_array_doneness`, the flag is
already set on the tracker of the parent, so a nested `chk_array_doneness`
call on that parent returns it unchanged and makes no external call. -/
theorem chk_array_doneness_guards_saveorpurge (now now2 : Int) (ok ok2 : Bool) (p : job)
    (c : ext_call) (hc : c ∈ (chk_array_doneness now ok p).2)
    (hf : c.fn = ext_fn.svr_saveorpurge_finjobhist) :
    (∃ t, c.arg.ji_ajinfo = some t ∧ t.tkm_flags.TKMFLG_CHK_ARRAY = true)
    ∧ chk_array_doneness now2 ok2 c.arg = (c.arg, []) := by
  obtain ⟨t, ht, hflag⟩ := chk_array_doneness_saveorpurge_arg now ok p c hc hf
  exact ⟨⟨t, ht, hflag⟩,
    chk_array_doneness_guarded now2 ok2 c.arg t ht (Or.inr (Or.inl hflag))⟩

/-- Witness of C11 amended: the last external call of `chk_array_doneness` on
`sample_drained_parent`. -/
theorem chk_array_doneness_guards_saveorpurge_witness :
    (∃ t, ((chk_array_doneness 1000 true sample_drained_parent).2.getLast
          (by decide)).arg.ji_ajinfo = some t
        ∧ t.tkm_flags.TKMFLG_CHK_ARRAY = true)
    ∧ chk_array_doneness 1001 true
        ((chk_array_doneness 1000 true sample_drained_parent).2.getLast (by decide)).arg
      = (((chk_array_doneness 1000 true sample_drained_parent).2.getLast (by decide)).arg, []) :=
  chk_array_doneness_guards_saveorpurge 1000 1001 true true sample_drained_parent
    ((chk_array_doneness 1000 true sample_drained_parent).2.getLast (by decide))
    (List.getLast_mem _) (by decide)

/-! ## The stage-out status of the parent -/

@[simp] theorem update_array_indices_remaining_attr_stageout (p : job) (t : ajinfo_t) :
    (update_array_indices_remaining_attr p t).JOB_ATR_stageout_status
      = p.JOB_ATR_stageout_status := rfl

@[simp] theorem join_exit_status_stageout (p s : job) :
    (join_exit_status p s).JOB_ATR_stageout_status = p.JOB_ATR_stageout_status := by
  unfold join_exit_status
  split <;> rfl

theorem join_stageout_status_stageout (p s : job) :
    (join_stageout_status p s).JOB_ATR_stageout_status =
      if s.JOB_ATR_stageout_status.is_set = true
          ∧ long_to_int s.JOB_ATR_stageout_status.at_long > 0
          ∧ (if p.JOB_ATR_stageout_status.is_set then
              long_to_int p.JOB_ATR_stageout_status.at_long else -1) ≠ 0 then
        ⟨true, long_to_int s.JOB_ATR_stageout_status.at_long⟩
      else p.JOB_ATR_stageout_status := by
  simp only [join_stageout_status, get_jattr_long, set_attr_l]
  by_cases hs : s.JOB_ATR_stageout_status.is_set = true
  · simp only [hs, if_true, true_and]
    split_ifs <;> rfl
  · simp only [hs, if_false, false_and, Bool.false_eq_true]

/-- A call that passes the entry checks, on a parent with a tracker, with a
subjob and a new state other than Queued joins the stage-out status of the
subjob into the parent. -/
theorem update_sj_parent_stageout_joined (p : job) (c : sj_call) (s : job) (t : ajinfo_t)
    (ht : p.ji_ajinfo = some t) (hc : passes_entry_checks c = true) (hs : c.sj = some s)
    (hn : c.newstate ≠ JOB_STATE_LTR_QUEUED) :
    (update_sj_parent p c.sj c.sjid c.oldstate c.newstate).JOB_ATR_stageout_status
      = (join_stageout_status p s).JOB_ATR_stageout_status := by
  obtain ⟨sj, sjid, o, n⟩ := c
  simp only at hs hn
  subst hs
  cases sjid with
  | none => simp [passes_entry_checks] at hc
  | some id =>
    simp only [passes_entry_checks, Bool.and_eq_true, decide_eq_true_eq, ne_eq] at hc
    obtain ⟨⟨⟨hon, ho⟩, hn1⟩, hid1, hid2⟩ := hc
    unfold update_sj_parent
    simp only [hon, if_false, ht, hid1, hid2, ho, hn1, false_or, ne_eq, hn, not_false_eq_true,
      if_true]
    rw [join_stageout_status_stageout, join_stageout_status_stageout]
    simp only [join_exit_status_stageout, update_array_indices_remaining_attr_stageout]


/-- Claim C12, as stated, fails: a parent whose stage-out status is 0 receives
the transition of a subjob to Expired with stage-out status 1 and keeps 0,
where the maximum is 1; and a parent whose stage-out status is 2 receives a
subjob with stage-out status 1 and ends with 1, where the maximum is 2. -/
theorem update_sj_parent_stageout_counterexample :
    (update_sj_parent { sample_parent with JOB_ATR_stageout_status := ⟨true, 0⟩ }
        (some (sample_stageout_subjob "123[0].host" ⟨true, 1⟩)) (some "123[0].host") 'E' 'X'
        ).JOB_ATR_stageout_status = ⟨true, 0⟩
    ∧ max (0 : Int) 1 = 1
    ∧ (update_sj_parent { sample_parent with JOB_ATR_stageout_status := ⟨true, 2⟩ }
        (some (sample_stageout_subjob "123[0].host" ⟨true, 1⟩)) (some "123[0].host") 'E' 'X'
        ).JOB_ATR_stageout_status = ⟨true, 1⟩
    ∧ max (2 : Int) 1 = 2 := by
  decide

/-- Claim C12, amended.  For every `update_sj_parent` call that passes the entry
checks, on a parent with a tracker, made with a subjob whose `stageout_status`
is set and with a new state other than Queued, the stage-out status of the
subjob, and that of the parent when it is set, lying inside the range of
`int`: when the stage-out status of the subjob is positive and that of the
parent is unset or different from 0, the parent's `stageout_status`
afterwards is the one of the subjob; in every other case it is unchanged. -/
theorem update_sj_parent_stageout (p : job) (c : sj_call) (s : job) (t : ajinfo_t)
    (ht : p.ji_ajinfo = some t) (hc : passes_entry_checks c = true) (hs : c.sj = some s)
    (hset : s.JOB_ATR_stageout_status.is_set = true)
    (hn : c.newstate ≠ JOB_STATE_LTR_QUEUED)
    (hsi : -2147483648 ≤ s.JOB_ATR_stageout_status.at_long
      ∧ s.JOB_ATR_stageout_status.at_long < 2147483648)
    (hpi : p.JOB_ATR_stageout_status.is_set = true →
      -2147483648 ≤ p.JOB_ATR_stageout_status.at_long
        ∧ p.JOB_ATR_stageout_status.at_long < 2147483648) :
    (update_sj_parent p c.sj c.sjid c.oldstate c.newstate).JOB_ATR_stageout_status
      = if s.JOB_ATR_stageout_status.at_long > 0
            ∧ (p.JOB_ATR_stageout_status.is_set = false
              ∨ p.JOB_ATR_stageout_status.at_long ≠ 0) then
          ⟨true, s.JOB_ATR_stageout_status.at_long⟩
        else p.JOB_ATR_stageout_status := by
  rw [update_sj_parent_stageout_joined p c s t ht hc hs hn, join_stageout_status_stageout,
    long_to_int_of_range _ hsi.1 hsi.2]
  cases hp : p.JOB_ATR_stageout_status.is_set
  · simp [hset]
  · rw [long_to_int_of_range _ (hpi hp).1 (hpi hp).2]
    simp [hset]

/-- Witness of C12 amended: a parent without stage-out status receives a subjob
whose stage-out status is 1. -/
theorem update_sj_parent_stageout_witness :
    (update_sj_parent sample_parent
        (sj_call.mk (some (sample_stageout_subjob "123[0].host" ⟨true, 1⟩))
          (some "123[0].host") 'E' 'X').sj
        (sj_call.mk (some (sample_stageout_subjob "123[0].host" ⟨true, 1⟩))
          (some "123[0].host") 'E' 'X').sjid 'E' 'X').JOB_ATR_stageout_status
      = if (sample_stageout_subjob "123[0].host" ⟨true, 1⟩).JOB_ATR_stageout_status.at_long > 0
            ∧ (sample_parent.JOB_ATR_stageout_status.is_set = false
              ∨ sample_parent.JOB_ATR_stageout_status.at_long ≠ 0) then
          ⟨true, (sample_stageout_subjob "123[0].host" ⟨true, 1⟩).JOB_ATR_stageout_status.at_long⟩
        else sample_parent.JOB_ATR_stageout_status :=
  update_sj_parent_stageout sample_parent
    (sj_call.mk (some (sample_stageout_subjob "123[0].host" ⟨true, 1⟩))
      (some "123[0].host") 'E' 'X')
    (sample_stageout_subjob "123[0].host" ⟨true, 1⟩) sample_tracker rfl (by decide) rfl
    (by decide) (by decide) (by decide) (by decide)

/-! ## The text of array_state_count -/

/-- Claim C14.  For every job and tracker, `update_subjob_state_ct` sets the
attribute `array_state_count` to exactly the text
"Queued:q Running:r Exiting:e Expired:x", with the decimal numbers of the
counters of Queued, Running, Exiting and Expired, single spaces and that
order, whatever the other six counters are; with the counters 3, 1, 0 and 2
the text is "Queued:3 Running:1 Exiting:0 Expired:2". -/
theorem update_subjob_state_ct_text (pjob : job) (ptbl : ajinfo_t)
    (q r e x tr h w b m f : Int) :
    (update_subjob_state_ct pjob
        { ptbl with tkm_subjsct := ⟨tr, q, h, w, r, e, x, b, m, f⟩ }).JOB_ATR_array_state_count
      = some ("Queued:" ++ toString q ++ " Running:" ++ toString r
          ++ " Exiting:" ++ toString e ++ " Expired:" ++ toString x)
    ∧ (update_subjob_state_ct pjob ptbl).JOB_ATR_array_state_count
      = some ("Queued:" ++ toString ptbl.tkm_subjsct.queued
          ++ " Running:" ++ toString ptbl.tkm_subjsct.running
          ++ " Exiting:" ++ toString ptbl.tkm_subjsct.exiting
          ++ " Expired:" ++ toString ptbl.tkm_subjsct.expired)
    ∧ (update_subjob_state_ct sample_parent
        { sample_tracker with
          tkm_subjsct := ⟨9, 3, 8, 7, 1, 0, 2, 6, 5, 4⟩ }).JOB_ATR_array_state_count
      = some "Queued:3 Running:1 Exiting:0 Expired:2" := by
  refine ⟨?_, ?_, by decide⟩
  · simp [update_subjob_state_ct, array_state_count_str, subjsct.get, JOB_STATE_QUEUED,
      JOB_STATE_RUNNING, JOB_STATE_EXITING, JOB_STATE_EXPIRED]
  · simp [update_subjob_state_ct, array_state_count_str, subjsct.get, JOB_STATE_QUEUED,
      JOB_STATE_RUNNING, JOB_STATE_EXITING, JOB_STATE_EXPIRED]

/-! ## ALTER on a parent that has begun -/

theorem setup_arrayjob_attrs_ALTER_not_queued (srv : server) (mem : heap) (pjob : job)
    (hid : is_job_array pjob.ji_jobid = array_kind.IS_ARRAY_ArrayJob)
    (hq : pjob.ji_state ≠ JOB_STATE_LTR_QUEUED) :
    setup_arrayjob_attrs srv mem pjob actmode.ATR_ACTION_ALTER
      = some (pbs_error.PBSE_MODATRRUN, pjob) := by
  unfold setup_arrayjob_attrs
  simp [hid, check_job_state, hq]

/-- Claim C15.  For every array parent (a job with the id of an array job) whose
state is not Queued, `setup_arrayjob_attrs` in ALTER mode returns
`PBSE_MODATRRUN` and leaves the job, with its flags, attributes and tracker,
as it was. -/
theorem setup_arrayjob_attrs_ALTER_begun (srv : server) (mem : heap) (pjob : job)
    (hid : is_job_array pjob.ji_jobid = array_kind.IS_ARRAY_ArrayJob)
    (hq : pjob.ji_state ≠ JOB_STATE_LTR_QUEUED) :
    setup_arrayjob_attrs srv mem pjob actmode.ATR_ACTION_ALTER
      = some (pbs_error.PBSE_MODATRRUN, pjob) :=
  setup_arrayjob_attrs_ALTER_not_queued srv mem pjob hid hq

/-- Witness of C15: `sample_parent` in state Running, with the new value
`0-9:2`. -/
theorem setup_arrayjob_attrs_ALTER_begun_witness :
    setup_arrayjob_attrs sample_server sample_heap
        { sample_parent with ji_state := 'R', JOB_ATR_array_indices_submitted := some "0-9:2" }
        actmode.ATR_ACTION_ALTER
      = some (pbs_error.PBSE_MODATRRUN,
          { sample_parent with
            ji_state := 'R', JOB_ATR_array_indices_submitted := some "0-9:2" }) :=
  setup_arrayjob_attrs_ALTER_begun sample_server sample_heap
    { sample_parent with ji_state := 'R', JOB_ATR_array_indices_submitted := some "0-9:2" }
    (by decide) (by decide)

/-! ## The text of array_indices_remaining -/

theorem toDigitsCore_head (fuel : Nat) :
    ∀ (n : Nat) (ds : List Char),
      ∃ d r, d < 10 ∧ Nat.toDigitsCore 10 (fuel + 1) n ds = Nat.digitChar d :: r := by
  induction fuel with
  | zero =>
    intro n ds
    refine ⟨n % 10, ds, Nat.mod_lt n (by decide), ?_⟩
    simp [Nat.toDigitsCore]
  | succ k ih =>
    intro n ds
    by_cases h : n / 10 = 0
    · refine ⟨n % 10, ds, Nat.mod_lt n (by decide), ?_⟩
      rw [Nat.toDigitsCore]
      simp [h]
    · obtain ⟨d, r, hd, hr⟩ := ih (n / 10) (Nat.digitChar (n % 10) :: ds)
      refine ⟨d, r, hd, ?_⟩
      rw [Nat.toDigitsCore]
      simp only [h, if_false]
      exact hr

theorem digitChar_ne_minus (d : Nat) (h : d < 10) : Nat.digitChar d ≠ '-' := by
  interval_cases d <;> decide

theorem toString_int_data (i : Int) :
    ∃ c r, (toString i).data = c :: r ∧ (c ≠ '-' ∨ r ≠ []) := by
  cases i with
  | ofNat m =>
    obtain ⟨d, r, hd, hr⟩ := toDigitsCore_head m m []
    refine ⟨Nat.digitChar d, r, ?_, Or.inl (digitChar_ne_minus d hd)⟩
    show (Nat.repr m).data = _
    simp only [Nat.repr, Nat.toDigits, List.asString]
    exact hr
  | negSucc m =>
    obtain ⟨d, r, hd, hr⟩ := toDigitsCore_head (m + 1) (m + 1) []
    refine ⟨'-', Nat.digitChar d :: r, ?_, Or.inr (by simp)⟩
    show ("-" ++ Nat.repr (Nat.succ m)).data = _
    simp only [Nat.repr, Nat.toDigits, List.asString, String.data_append]
    rw [hr]
    rfl

theorem intercalate_go_data (s : String) (l : List String) :
    ∀ acc : String, ∃ x, (String.intercalate.go acc s l).data = acc.data ++ x := by
  induction l with
  | nil => intro acc; exact ⟨[], by simp [String.intercalate.go]⟩
  | cons a as ih =>
    intro acc
    obtain ⟨x, hx⟩ := ih (acc ++ s ++ a)
    refine ⟨s.data ++ a.data ++ x, ?_⟩
    rw [String.intercalate.go, hx]
    simp [String.data_append, List.append_assoc]

theorem range_item_to_str_data (r : range) :
    ∃ x, (range_item_to_str r).data = (toString r.start).data ++ x := by
  unfold range_item_to_str
  split_ifs
  · exact ⟨[], by simp⟩
  · exact ⟨_, by simp only [String.data_append, List.append_assoc]; rfl⟩
  · exact ⟨_, by simp only [String.data_append, List.append_assoc]; rfl⟩

theorem range_to_str_ne_dash (l : List range) : range_to_str l ≠ "-" := by
  intro h
  cases l with
  | nil => exact absurd h (by decide)
  | cons r rs =>
    have hd : (range_to_str (r :: rs)).data = ['-'] := by rw [h]
    unfold range_to_str at hd
    simp only [List.map_cons, String.intercalate] at hd
    obtain ⟨x, hx⟩ := intercalate_go_data "," (rs.map range_item_to_str) (range_item_to_str r)
    obtain ⟨y, hy⟩ := range_item_to_str_data r
    obtain ⟨c, t, hc, hct⟩ := toString_int_data r.start
    rw [hx, hy, hc] at hd
    simp only [List.cons_append, List.cons.injEq, List.append_eq_nil, List.nil_append] at hd
    rcases hct with h1 | h1
    · exact h1 hd.1
    · exact h1 hd.2.1.1

theorem range_to_str_nil : range_to_str [] = "" := by decide


@[simp] theorem join_exit_status_remaining (p s : job) :
    (join_exit_status p s).JOB_ATR_array_indices_remaining
      = p.JOB_ATR_array_indices_remaining := by
  unfold join_exit_status
  split <;> rfl

@[simp] theorem join_stageout_status_remaining (p s : job) :
    (join_stageout_status p s).JOB_ATR_array_indices_remaining
      = p.JOB_ATR_array_indices_remaining := by
  simp only [join_stageout_status]
  split_ifs <;> rfl

theorem update_array_indices_remaining_attr_remaining (p : job) (t : ajinfo_t) :
    (update_array_indices_remaining_attr p t).JOB_ATR_array_indices_remaining
      = some (if range_to_str t.trm_quelist = "" then "-" else range_to_str t.trm_quelist) :=
  rfl

/-- A call of `update_sj_parent` that passes the entry checks, on a parent with a
tracker, ends with the attribute `array_indices_remaining` published from the
tracker it leaves. -/
theorem update_sj_parent_remaining (p : job) (c : sj_call) (t : ajinfo_t)
    (ht : p.ji_ajinfo = some t) (hc : passes_entry_checks c = true) :
    ∃ t2, (update_sj_parent p c.sj c.sjid c.oldstate c.newstate).ji_ajinfo = some t2
      ∧ (update_sj_parent p c.sj c.sjid c.oldstate c.newstate).JOB_ATR_array_indices_remaining
        = some (if range_to_str t2.trm_quelist = "" then "-"
            else range_to_str t2.trm_quelist) := by
  obtain ⟨sj, sjid, o, n⟩ := c
  cases sjid with
  | none => simp [passes_entry_checks] at hc
  | some id =>
    simp only [passes_entry_checks, Bool.and_eq_true, decide_eq_true_eq, ne_eq] at hc
    obtain ⟨⟨⟨hon, ho⟩, hn1⟩, hid1, hid2⟩ := hc
    unfold update_sj_parent
    simp only [hon, if_false, ht, hid1, hid2, ho, hn1, false_or]
    cases sj with
    | none => exact ⟨_, rfl, rfl⟩
    | some s =>
      by_cases hq : n = JOB_STATE_LTR_QUEUED
      · simp only [hq, ne_eq, not_true_eq_false, if_false]
        exact ⟨_, rfl, rfl⟩
      · simp only [ne_eq, hq, not_false_eq_true, if_true, join_stageout_status_ajinfo,
          join_exit_status_ajinfo, join_stageout_status_remaining, join_exit_status_remaining]
        exact ⟨_, rfl, rfl⟩

theorem setup_arrayjob_attrs_ALTER_success (srv : server) (mem : heap) (pjob p0 : job)
    (h : setup_arrayjob_attrs srv mem pjob actmode.ATR_ACTION_ALTER
      = some (pbs_error.PBSE_NONE, p0)) :
    ∃ t, pjob.ji_ajinfo = some t
      ∧ p0 = update_array_indices_remaining_attr
          { pjob with
            ji_svrflags := { pjob.ji_svrflags with JOB_SVFLG_ArrayJob := true },
            JOB_ATR_array := set_attr_l 1,
            JOB_ATR_array_state_count := none } t := by
  unfold setup_arrayjob_attrs at h
  by_cases hid : is_job_array pjob.ji_jobid = array_kind.IS_ARRAY_ArrayJob
  swap
  · simp [hid] at h
  · by_cases hq : check_job_state pjob JOB_STATE_LTR_QUEUED = false
    · simp [hid, hq] at h
    · simp only [hid, ne_eq, not_true_eq_false, if_false, reduceCtorEq, not_false_eq_true,
        and_false, and_true, false_and, or_false, or_true, true_or, if_true, hq, or_self] at h
      cases ht : pjob.ji_ajinfo with
      | none => simp [ht] at h
      | some t =>
        simp only [ht, Option.some.injEq, Prod.mk.injEq, true_and] at h
        exact ⟨t, rfl, h.symm⟩


/-- Claim C13.  Every time the queued set is published,
`update_array_indices_remaining_attr` sets the attribute
`array_indices_remaining` to the serialization of `trm_quelist`, and to the
literal "-" exactly when the list is absent or serializes to the empty
string.  The attribute has that value, for the tracker the call leaves, after
every `update_sj_parent` call that passes the entry checks and after every
successful `setup_arrayjob_attrs` in NEW or in ALTER mode; with the range
`0-3`, it reads "1-3" once subjob 0 runs and "-" once all four run. -/
theorem update_array_indices_remaining_attr_serializes (parent : job) (ptbl : ajinfo_t) :
    (update_array_indices_remaining_attr parent ptbl).JOB_ATR_array_indices_remaining
      = some (if range_to_str ptbl.trm_quelist = "" then "-"
          else range_to_str ptbl.trm_quelist)
    ∧ ((update_array_indices_remaining_attr parent ptbl).JOB_ATR_array_indices_remaining
          = some "-"
        ↔ (ptbl.trm_quelist = [] ∨ range_to_str ptbl.trm_quelist = ""))
    ∧ (∀ c : sj_call, parent.ji_ajinfo = some ptbl → passes_entry_checks c = true →
        ∃ t2, (update_sj_parent parent c.sj c.sjid c.oldstate c.newstate).ji_ajinfo = some t2
          ∧ (update_sj_parent parent c.sj c.sjid c.oldstate
              c.newstate).JOB_ATR_array_indices_remaining
            = some (if range_to_str t2.trm_quelist = "" then "-"
                else range_to_str t2.trm_quelist))
    ∧ (∀ (srv : server) (mem : heap) (mode : actmode) (p0 : job),
        mode = actmode.ATR_ACTION_NEW ∨ mode = actmode.ATR_ACTION_ALTER →
        setup_arrayjob_attrs srv mem parent mode = some (pbs_error.PBSE_NONE, p0) →
        ∃ t, p0.ji_ajinfo = some t
          ∧ p0.JOB_ATR_array_indices_remaining
            = some (if range_to_str t.trm_quelist = "" then "-"
                else range_to_str t.trm_quelist))
    ∧ (update_sj_parent_seq sample_parent
        [⟨none, some "123[0].host", 'Q', 'R'⟩]).JOB_ATR_array_indices_remaining = some "1-3"
    ∧ (update_sj_parent_seq sample_parent
        [⟨none, some "123[0].host", 'Q', 'R'⟩, ⟨none, some "123[1].host", 'Q', 'R'⟩,
         ⟨none, some "123[2].host", 'Q', 'R'⟩,
         ⟨none, some "123[3].host", 'Q', 'R'⟩]).JOB_ATR_array_indices_remaining = some "-" := by
  refine ⟨rfl, ?_, ?_, ?_, by decide, by decide⟩
  · rw [update_array_indices_remaining_attr_remaining]
    constructor
    · intro h
      right
      by_contra hne
      rw [if_neg hne, Option.some.injEq] at h
      exact range_to_str_ne_dash _ h
    · rintro (h | h)
      · rw [h, range_to_str_nil, if_pos rfl]
      · rw [if_pos h]
  · intro c ht hc
    exact update_sj_parent_remaining parent c ptbl ht hc
  · intro srv mem mode p0 hmode h
    rcases hmode with hm | hm
    · subst hm
      obtain ⟨range, start, r_end, step, count, -, -, -, -, hp⟩ :=
        setup_arrayjob_attrs_NEW_success srv mem parent p0 h
      exact ⟨new_tracker start r_end step count, by rw [hp]; rfl, by rw [hp]; rfl⟩
    · subst hm
      obtain ⟨t, ht, hp⟩ := setup_arrayjob_attrs_ALTER_success srv mem parent p0 h
      exact ⟨t, by rw [hp]; exact ht, by rw [hp]; rfl⟩

/-! ## get_subjob_and_state -/

theorem tmod_eq_emod_of_nonneg (a b : Int) (ha : 0 ≤ a) : Int.tmod a b = a % b := by
  rcases le_total 0 b with hb | hb
  · exact Int.tmod_eq_emod ha hb
  · have h1 : Int.tmod a b = Int.tmod a (-b) := by rw [Int.tmod_neg]
    have h2 : a % b = a % (-b) := by rw [Int.emod_neg]
    rw [h1, h2]
    exact Int.tmod_eq_emod ha (by omega)

theorem get_subjob_and_state_eq_spec (find_job : String → Option job) (parent : job)
    (ptbl : ajinfo_t) (i : Int) :
    get_subjob_and_state find_job parent ptbl i
      = get_subjob_and_state_spec find_job parent ptbl i := by
  unfold get_subjob_and_state get_subjob_and_state_spec
  by_cases h0 : i < 0
  · rw [if_pos h0, if_pos (Or.inl h0)]
  by_cases h1 : i < ptbl.tkm_start ∨ i > ptbl.tkm_end
  · have h3 : i < 0 ∨ i < ptbl.tkm_start ∨ i > ptbl.tkm_end
        ∨ (i - ptbl.tkm_start) % ptbl.tkm_step ≠ 0 := by tauto
    rw [if_neg h0, if_pos h1, if_pos h3]
  have hnn : 0 ≤ i - ptbl.tkm_start := by
    have : ¬ i < ptbl.tkm_start := fun h => h1 (Or.inl h)
    omega
  have hm := tmod_eq_emod_of_nonneg (i - ptbl.tkm_start) ptbl.tkm_step hnn
  by_cases h2 : (i - ptbl.tkm_start) % ptbl.tkm_step ≠ 0
  · have h3 : i < 0 ∨ i < ptbl.tkm_start ∨ i > ptbl.tkm_end
        ∨ (i - ptbl.tkm_start) % ptbl.tkm_step ≠ 0 := Or.inr (Or.inr (Or.inr h2))
    rw [if_neg h0, if_neg h1, hm, if_pos h2, if_pos h3]
  have h3 : ¬ (i < 0 ∨ i < ptbl.tkm_start ∨ i > ptbl.tkm_end
      ∨ (i - ptbl.tkm_start) % ptbl.tkm_step ≠ 0) := by tauto
  rw [if_neg h0, if_neg h1, hm, if_neg h2, if_neg h3]
  cases (create_subjob_id parent.ji_jobid i).bind find_job with
  | some sj => rfl
  | none =>
    by_cases hq : range_contains ptbl.trm_quelist i = true
    · simp only [hq, if_true]
    · by_cases hf : parent.ji_state = JOB_STATE_LTR_FINISHED
      · simp only [hq, hf, if_true]
      · simp only [hq, hf, if_false]

/-- Claim C16.  For every job table, every parent, every tracker and every index,
`get_subjob_and_state` returns and reports what the reference definition of
the specification says: nothing and (Unknown, Unknown) for an index that is
negative, below the start, above the end or off the step; the live subjob
with its own state and substate when the job table holds one under the id
`P[i]`; and otherwise nothing with (Queued, Queued) for an index of the queued
list, (Finished, Finished) under a Finished parent, (Expired, Finished) else.
For the parent `123[].host` with the indices 0-3 and a running subjob
`123[1].host`: index 1 gives that subjob and Running, index 2 gives (Queued,
Queued), index 4 is Unknown. -/
theorem get_subjob_and_state_refines :
    (∀ (find_job : String → Option job) (parent : job) (ptbl : ajinfo_t) (i : Int),
      get_subjob_and_state find_job parent ptbl i
        = get_subjob_and_state_spec find_job parent ptbl i)
    ∧ create_subjob_id sample_parent.ji_jobid 1 = some "123[1].host"
    ∧ get_subjob_and_state sample_find_job sample_parent sample_tracker 1
        = (some (sample_subjob "123[1].host" ⟨false, 0⟩), JOB_STATE_LTR_RUNNING,
            job_substate.JOB_SUBSTATE_QUEUED)
    ∧ get_subjob_and_state sample_find_job sample_parent sample_tracker 2
        = (none, JOB_STATE_LTR_QUEUED, job_substate.JOB_SUBSTATE_QUEUED)
    ∧ get_subjob_and_state sample_find_job sample_parent sample_tracker 4
        = (none, JOB_STATE_LTR_UNKNOWN, job_substate.JOB_SUBSTATE_UNKNOWN)
    ∧ get_subjob_and_state sample_find_job sample_drained_parent
          ⟨4, 0, 3, 1, ⟨false, false⟩, ⟨0, 0, 0, 0, 0, 0, 4, 0, 0, 0⟩, 4, []⟩ 2
        = (none, JOB_STATE_LTR_EXPIRED, job_substate.JOB_SUBSTATE_FINISHED) :=
  ⟨get_subjob_and_state_eq_spec, by decide, by decide, by decide, by decide, by decide⟩

/-! ## subst_array_index -/

theorem cut_at_append (d : Char) (a r : List Char) (h : d ∉ a) :
    cut_at d (a ++ d :: r) = (a, some r) := by
  induction a with
  | nil => simp [cut_at]
  | cons c cs ih =>
    have hc : c ≠ d := fun e => h (by rw [e]; exact List.mem_cons_self _ _)
    have hcs : d ∉ cs := fun e => h (List.mem_cons_of_mem _ e)
    have e := ih hcs
    simp only [List.cons_append, cut_at, if_neg hc, List.append_eq, e]

theorem get_range_from_jid_brackets (base idx suffix : List Char) (hb : '[' ∉ base)
    (hi : ']' ∉ idx) :
    get_range_from_jid (String.mk (base ++ '[' :: (idx ++ ']' :: suffix)))
      = some (String.mk idx) := by
  unfold get_range_from_jid
  simp only [String.toList]
  rw [cut_at_append '[' base _ hb]
  simp only
  rw [cut_at_append ']' idx _ hi]

theorem strstr_some (needle : List Char) :
    ∀ (hay b t : List Char), strstr hay needle = some (b, t) →
      hay = b ++ needle ++ t
        ∧ ∀ b2 t2 : List Char, hay = b2 ++ needle ++ t2 → b.length ≤ b2.length := by
  intro hay
  induction hay with
  | nil =>
    intro b t h
    unfold strstr at h
    by_cases hn : needle = []
    · rw [if_pos hn] at h
      cases h
      subst hn
      exact ⟨rfl, fun _ _ _ => Nat.zero_le _⟩
    · rw [if_neg hn] at h
      cases h
  | cons c cs ih =>
    intro b t h
    unfold strstr at h
    by_cases hp : needle.isPrefixOf (c :: cs) = true
    · rw [if_pos hp] at h
      cases h
      refine ⟨?_, fun _ _ _ => Nat.zero_le _⟩
      have hpre : needle <+: c :: cs := List.isPrefixOf_iff_prefix.mp hp
      obtain ⟨r, hr⟩ := hpre
      rw [← hr]
      simp
    · rw [if_neg hp] at h
      cases hs : strstr cs needle with
      | none => rw [hs] at h; cases h
      | some r =>
        rw [hs] at h
        simp only [Option.map_some', Option.some.injEq, Prod.mk.injEq] at h
        obtain ⟨h1, h2⟩ := h
        have hr := ih r.1 r.2 hs
        subst h1 h2
        refine ⟨by rw [hr.1]; simp, ?_⟩
        intro b2 t2 he
        cases b2 with
        | nil =>
          exfalso
          apply hp
          apply List.isPrefixOf_iff_prefix.mpr
          exact ⟨t2, by rw [he]; simp⟩
        | cons x xs =>
          simp only [List.cons_append, List.cons.injEq] at he
          have := hr.2 xs t2 he.2
          simp only [List.length_cons]
          omega

theorem strstr_none (needle : List Char) :
    ∀ (hay : List Char), strstr hay needle = none →
      ∀ b2 t2 : List Char, hay ≠ b2 ++ needle ++ t2 := by
  intro hay
  induction hay with
  | nil =>
    intro h b2 t2 he
    unfold strstr at h
    by_cases hn : needle = []
    · rw [if_pos hn] at h; cases h
    · apply hn
      have := congrArg List.length he
      simp only [List.length_nil, List.length_append] at this
      exact List.eq_nil_of_length_eq_zero (by omega)
  | cons c cs ih =>
    intro h b2 t2 he
    unfold strstr at h
    by_cases hp : needle.isPrefixOf (c :: cs) = true
    · rw [if_pos hp] at h; cases h
    · rw [if_neg hp] at h
      cases hs : strstr cs needle with
      | some r => rw [hs] at h; cases h
      | none =>
        cases b2 with
        | nil =>
          apply hp
          apply List.isPrefixOf_iff_prefix.mpr
          exact ⟨t2, by rw [he]; simp⟩
        | cons x xs =>
          simp only [List.cons_append, List.cons.injEq] at he
          exact ih hs xs t2 he.2

theorem strstr_first (needle hay pre post : List Char) (he : hay = pre ++ needle ++ post)
    (hmin : ∀ b2 t2 : List Char, hay = b2 ++ needle ++ t2 → pre.length ≤ b2.length) :
    strstr hay needle = some (pre, post) := by
  cases hs : strstr hay needle with
  | none => exact absurd he (strstr_none needle hay hs pre post)
  | some r =>
    obtain ⟨b, t⟩ := r
    have h := strstr_some needle hay b t hs
    have hl : b.length = pre.length := le_antisymm (h.2 pre post he) (hmin b t h.1)
    have e : b ++ (needle ++ t) = pre ++ (needle ++ post) := by
      rw [← List.append_assoc, ← List.append_assoc, ← h.1, ← he]
    have e1 := List.append_inj e hl
    have e2 := List.append_cancel_left e1.2
    rw [e1.1, e2]

theorem subst_array_index_no_tag (pjob : job) (path : String)
    (hn : ∀ b t : List Char, path.toList ≠ b ++ PBS_FILE_ARRAY_INDEX_TAG.toList ++ t) :
    subst_array_index pjob path = path := by
  have hs : strstr path.toList PBS_FILE_ARRAY_INDEX_TAG.toList = none := by
    cases h : strstr path.toList PBS_FILE_ARRAY_INDEX_TAG.toList with
    | none => rfl
    | some r =>
      exact absurd (strstr_some _ _ r.1 r.2 h).1 (hn r.1 r.2)
  unfold subst_array_index
  cases pjob.ji_parentaj with
  | none => rfl
  | some p => simp only [hs]

theorem subst_array_index_first (pjob : job) (path p : String) (idx pre post : List Char)
    (hp : pjob.ji_parentaj = some p)
    (hi : get_range_from_jid pjob.ji_jobid = some (String.mk idx))
    (he : path.toList = pre ++ PBS_FILE_ARRAY_INDEX_TAG.toList ++ post)
    (hmin : ∀ b t : List Char, path.toList = b ++ PBS_FILE_ARRAY_INDEX_TAG.toList ++ t →
      pre.length ≤ b.length) :
    subst_array_index pjob path = String.mk (pre ++ idx ++ post) := by
  have hs := strstr_first _ _ pre post he hmin
  unfold subst_array_index
  simp only [hp, hs, hi]
  rfl

/-- Claim C17.  For a subjob (a job whose pointer to the parent is set) with the id
`base[idx]suffix` and every path: when the token `^array_index^` does not
occur in the path, `subst_array_index` returns the path unchanged; when the
path is `pre ^array_index^ post` and this occurrence is the first one, it
returns `pre idx post`, the rest of the path, later occurrences of the token
included, as it was.  For the subjob `123[5].host`, `/tmp/job^array_index^.out`
becomes `/tmp/job5.out` and of two tokens only the first is replaced. -/
theorem subst_array_index_expands (pjob : job) (path : String) (base idx suffix : List Char)
    (hp : pjob.ji_parentaj ≠ none)
    (hid : pjob.ji_jobid = String.mk (base ++ '[' :: (idx ++ ']' :: suffix)))
    (hb : '[' ∉ base) (hi : ']' ∉ idx) :
    ((∀ b t : List Char, path.toList ≠ b ++ PBS_FILE_ARRAY_INDEX_TAG.toList ++ t) →
      subst_array_index pjob path = path)
    ∧ (∀ pre post : List Char,
        path.toList = pre ++ PBS_FILE_ARRAY_INDEX_TAG.toList ++ post →
        (∀ b t : List Char, path.toList = b ++ PBS_FILE_ARRAY_INDEX_TAG.toList ++ t →
          pre.length ≤ b.length) →
        subst_array_index pjob path = String.mk (pre ++ idx ++ post))
    ∧ subst_array_index sample_indexed_subjob "/tmp/job^array_index^.out" = "/tmp/job5.out"
    ∧ subst_array_index sample_indexed_subjob "/tmp/^array_index^/^array_index^.out"
        = "/tmp/5/^array_index^.out"
    ∧ subst_array_index sample_indexed_subjob "/tmp/job.out" = "/tmp/job.out" := by
  refine ⟨subst_array_index_no_tag pjob path, ?_, by decide, by decide, by decide⟩
  intro pre post he hmin
  cases hq : pjob.ji_parentaj with
  | none => exact absurd hq hp
  | some p =>
    refine subst_array_index_first pjob path p idx pre post hq ?_ he hmin
    rw [hid]
    exact get_range_from_jid_brackets base idx suffix hb hi

/-- Witness of C17: the subjob `123[5].host` and the path
`/tmp/job^array_index^.out`, whose first occurrence of the token follows
`/tmp/job`. -/
theorem subst_array_index_expands_witness :
    sample_indexed_subjob.ji_parentaj ≠ none
    ∧ sample_indexed_subjob.ji_jobid
        = String.mk ("123".toList ++ '[' :: ("5".toList ++ ']' :: ".host".toList))
    ∧ '[' ∉ "123".toList ∧ ']' ∉ "5".toList
    ∧ subst_array_index sample_indexed_subjob "/tmp/job^array_index^.out"
        = String.mk ("/tmp/job".toList ++ "5".toList ++ ".out".toList) :=
  ⟨by decide, by decide, by decide, by decide,
    (subst_array_index_expands sample_indexed_subjob "/tmp/job^array_index^.out"
      "123".toList "5".toList ".host".toList (by decide) (by decide) (by decide)
      (by decide)).2.1 "/tmp/job".toList ".out".toList (by decide)
      (strstr_some PBS_FILE_ARRAY_INDEX_TAG.toList "/tmp/job^array_index^.out".toList
        "/tmp/job".toList ".out".toList (by decide)).2⟩

/-! ## create_subjob -/

theorem update_sj_parent_to_queued (parent : job) (sj : Option job) (sjid : Option String)
    (oldstate : Char) :
    update_sj_parent parent sj sjid oldstate JOB_STATE_LTR_QUEUED
      = update_sj_parent parent none sjid oldstate JOB_STATE_LTR_QUEUED := by
  unfold update_sj_parent
  cases sj with
  | none => rfl
  | some s => simp only [ne_eq, not_true_eq_false, if_false]

theorem create_subjob_success (env : subjob_env) (parent : job) (newjid : Option String)
    (s : job) (h : (create_subjob env parent newjid).subj = some s) :
    ∃ jid index, newjid = some jid ∧ get_range_from_jid jid = some index
      ∧ parent.ji_svrflags.JOB_SVFLG_ArrayJob = true
      ∧ env.job_alloc_ok = true ∧ env.svr_enquejob_rc = 0
      ∧ (create_subjob env parent newjid).rc = pbs_error.PBSE_NONE
      ∧ (create_subjob env parent newjid).parent
          = (if env.svr_setjobstate_updates_parent = true then
              update_sj_parent parent none (some jid) parent.ji_state JOB_STATE_LTR_QUEUED
            else parent)
      ∧ s.ji_jobid = jid ∧ job.ji_fileprefix s = "" ∧ s.ji_parentaj = some parent.ji_jobid
      ∧ s.JOB_ATR_array_id = some parent.ji_jobid ∧ s.JOB_ATR_array_index = some index
      ∧ s.ji_svrflags = ⟨false, true, parent.ji_svrflags.JOB_SVFLG_HERE⟩
      ∧ s.ji_un_type = parent.ji_un_type ∧ s.ji_momaddr = parent.ji_momaddr
      ∧ s.ji_momport = parent.ji_momport ∧ s.ji_exitstat = parent.ji_exitstat
      ∧ s.ji_endtime = parent.ji_endtime
      ∧ s.ji_qhdr = parent.ji_qhdr ∧ s.ji_myResv = parent.ji_myResv
      ∧ s.ji_state = JOB_STATE_LTR_QUEUED
      ∧ s.ji_substate = job_substate.JOB_SUBSTATE_QUEUED := by
  cases newjid with
  | none => simp [create_subjob] at h
  | some jid =>
    by_cases hf : parent.ji_svrflags.JOB_SVFLG_ArrayJob = false
    · simp [create_subjob, hf] at h
    cases hr : get_range_from_jid jid with
    | none => simp [create_subjob, hf, hr] at h
    | some index =>
      by_cases ha : env.job_alloc_ok = false
      · simp [create_subjob, hf, hr, ha] at h
      by_cases he : env.svr_enquejob_rc = 0
      · have hf2 : parent.ji_svrflags.JOB_SVFLG_ArrayJob = true := by
          cases hx : parent.ji_svrflags.JOB_SVFLG_ArrayJob
          · exact absurd hx hf
          · rfl
        have ha2 : env.job_alloc_ok = true := by
          cases hx : env.job_alloc_ok
          · exact absurd hx ha
          · rfl
        refine ⟨jid, index, rfl, hr, hf2, ha2, he, ?_⟩
        unfold create_subjob at h ⊢
        simp only [hr, hf2, ha2, he, if_false, ne_eq, not_true_eq_false, Option.some.injEq,
          reduceCtorEq] at h ⊢
        subst h
        rw [update_sj_parent_to_queued]
        by_cases hel : env.SVR_ATR_EligibleTimeEnable.at_long = 1
        · simp only [hel, if_true, svr_setjobstate]
          repeat' apply And.intro
          all_goals first | rfl | trivial
        · simp only [hel, if_false, svr_setjobstate]
          repeat' apply And.intro
          all_goals first | rfl | trivial
      · simp [create_subjob, hf, hr, ha, he] at h

theorem update_sj_parent_to_queued_keeps (parent : job) (ptbl : ajinfo_t) (jid : String)
    (oldstate : Char) (hp : parent.ji_ajinfo = some ptbl)
    (hq : range_contains ptbl.trm_quelist (get_index_from_jid jid) = true) :
    ∃ ptbl2,
      (update_sj_parent parent none (some jid) oldstate JOB_STATE_LTR_QUEUED).ji_ajinfo
        = some ptbl2
      ∧ ptbl2.trm_quelist = ptbl.trm_quelist := by
  unfold update_sj_parent
  by_cases h1 : oldstate = JOB_STATE_LTR_QUEUED
  · rw [if_pos h1]; exact ⟨ptbl, hp, rfl⟩
  rw [if_neg h1]
  simp only
  by_cases h2 : jid = "" ∨ get_index_from_jid jid = -1
  · rw [if_pos h2]; exact ⟨ptbl, hp, rfl⟩
  rw [if_neg h2, hp]
  simp only
  by_cases h3 : state_char2int oldstate = -1 ∨ state_char2int JOB_STATE_LTR_QUEUED = -1
  · rw [if_pos h3]; exact ⟨ptbl, hp, rfl⟩
  rw [if_neg h3]
  simp only [if_neg h1, if_true, range_add_value, hq, update_array_indices_remaining_attr_ajinfo]
  exact ⟨_, rfl, rfl⟩


/-- Claim C19, as stated, fails: for the parent `123[].host` with the indices 0-3
queued, and for the same parent once begun with the indices 1-3 queued,
`create_subjob` with the id `123[1].host` succeeds and returns the subjob
`123[1].host`, and the index 1 is still in the queued list of the parent
after the call, whether or not the transition is reported to the parent. -/
theorem create_subjob_queued_counterexample :
    get_index_from_jid "123[1].host" = 1
    ∧ (sample_path_parent.ji_ajinfo.map fun t => range_contains t.trm_quelist 1) = some true
    ∧ (sample_begun_parent.ji_ajinfo.map fun t => range_contains t.trm_quelist 1) = some true
    ∧ ∀ b : Bool,
        ((create_subjob (sample_env b) sample_path_parent (some "123[1].host")).subj.map
            fun s => s.ji_jobid) = some "123[1].host"
        ∧ ((create_subjob (sample_env b) sample_path_parent
              (some "123[1].host")).parent.ji_ajinfo.map
            fun t => range_contains t.trm_quelist 1) = some true
        ∧ ((create_subjob (sample_env b) sample_begun_parent (some "123[1].host")).subj.map
            fun s => s.ji_jobid) = some "123[1].host"
        ∧ ((create_subjob (sample_env b) sample_begun_parent
              (some "123[1].host")).parent.ji_ajinfo.map
            fun t => range_contains t.trm_quelist 1) = some true := by
  decide

/-- Claim C19, amended.  After `create_subjob(P, P[i])` succeeds for an index `i`
that was in the queued list of `P`, the queued list of `P` is what it was, so
`i` is still in it, and the returned subjob carries the id `P[i]`. -/
theorem create_subjob_keeps_queued (env : subjob_env) (parent : job) (ptbl : ajinfo_t)
    (jid : String) (i : Int) (s : job)
    (hp : parent.ji_ajinfo = some ptbl)
    (hi : get_index_from_jid jid = i)
    (hq : range_contains ptbl.trm_quelist i = true)
    (h : (create_subjob env parent (some jid)).subj = some s) :
    ∃ ptbl2, (create_subjob env parent (some jid)).parent.ji_ajinfo = some ptbl2
      ∧ ptbl2.trm_quelist = ptbl.trm_quelist
      ∧ range_contains ptbl2.trm_quelist i = true
      ∧ s.ji_jobid = jid := by
  obtain ⟨jid2, index, h1, _, _, _, _, _, h7, h8, _⟩ :=
    create_subjob_success env parent (some jid) s h
  cases h1
  rw [h7]
  by_cases hn : env.svr_setjobstate_updates_parent = true
  · rw [if_pos hn]
    obtain ⟨t, ht1, ht2⟩ :=
      update_sj_parent_to_queued_keeps parent ptbl jid parent.ji_state hp (by rw [hi]; exact hq)
    exact ⟨t, ht1, ht2, by rw [ht2]; exact hq, h8⟩
  · rw [if_neg hn]
    exact ⟨ptbl, hp, rfl, hq, h8⟩

/-- Witness of C19 amended: the subjob `123[1].host` made of the begun parent
`sample_begun_parent`, with the transition reported to the parent. -/
theorem create_subjob_keeps_queued_witness :
    sample_begun_parent.ji_ajinfo
      = some ⟨4, 0, 3, 1, ⟨false, false⟩, ⟨0, 3, 0, 0, 1, 0, 0, 0, 0, 0⟩, 0, [⟨1, 3, 1, 3⟩]⟩
    ∧ get_index_from_jid "123[1].host" = 1
    ∧ (create_subjob (sample_env true) sample_begun_parent (some "123[1].host")).subj
        = some sample_created_subjob
    ∧ ∃ ptbl2,
        (create_subjob (sample_env true) sample_begun_parent
          (some "123[1].host")).parent.ji_ajinfo = some ptbl2
        ∧ ptbl2.trm_quelist = [⟨1, 3, 1, 3⟩]
        ∧ range_contains ptbl2.trm_quelist 1 = true
        ∧ sample_created_subjob.ji_jobid = "123[1].host" :=
  ⟨by decide, by decide, by decide,
    create_subjob_keeps_queued (sample_env true) sample_begun_parent
      ⟨4, 0, 3, 1, ⟨false, false⟩, ⟨0, 3, 0, 0, 1, 0, 0, 0, 0, 0⟩, 0, [⟨1, 3, 1, 3⟩]⟩
      "123[1].host" 1 sample_created_subjob (by decide) (by decide) (by decide) (by decide)⟩

theorem create_subjob_error (env : subjob_env) (parent : job) (jid : String) :
    ((create_subjob env parent none).rc = pbs_error.PBSE_IVALREQ
      ∧ (create_subjob env parent none).subj = none)
    ∧ (parent.ji_svrflags.JOB_SVFLG_ArrayJob = false →
        (create_subjob env parent (some jid)).rc = pbs_error.PBSE_IVALREQ
        ∧ (create_subjob env parent (some jid)).subj = none)
    ∧ (get_range_from_jid jid = none →
        (create_subjob env parent (some jid)).rc = pbs_error.PBSE_IVALREQ
        ∧ (create_subjob env parent (some jid)).subj = none)
    ∧ (parent.ji_svrflags.JOB_SVFLG_ArrayJob = true → get_range_from_jid jid ≠ none →
        env.job_alloc_ok = true → env.svr_enquejob_rc ≠ 0 →
        (create_subjob env parent (some jid)).rc = pbs_error.PBSE_IVALREQ
        ∧ (create_subjob env parent (some jid)).subj = none)
    ∧ (parent.ji_svrflags.JOB_SVFLG_ArrayJob = true → get_range_from_jid jid ≠ none →
        env.job_alloc_ok = true → env.svr_enquejob_rc = 0 →
        (create_subjob env parent (some jid)).rc = pbs_error.PBSE_NONE
        ∧ (create_subjob env parent (some jid)).subj ≠ none) := by
  refine ⟨⟨rfl, rfl⟩, ?_, ?_, ?_, ?_⟩
  · intro hf
    simp [create_subjob, hf]
  · intro hr
    by_cases hf : parent.ji_svrflags.JOB_SVFLG_ArrayJob = false
    · simp [create_subjob, hf]
    · simp [create_subjob, hf, hr]
  · intro hf hr ha he
    cases hx : get_range_from_jid jid with
    | none => exact absurd hx hr
    | some index => simp [create_subjob, hf, hx, ha, he]
  · intro hf hr ha he
    cases hx : get_range_from_jid jid with
    | none => exact absurd hx hr
    | some index => simp [create_subjob, hf, hx, ha, he]

theorem cut_at_snd_of_append (d : Char) (l : List Char) :
    ∀ a : List Char, ∃ r, (cut_at d (a ++ d :: l)).2 = some r ∧ ∀ x ∈ l, x ∈ r := by
  intro a
  induction a with
  | nil => exact ⟨l, by simp [cut_at], fun x hx => hx⟩
  | cons c cs ih =>
    by_cases hc : c = d
    · refine ⟨cs ++ d :: l, by simp [cut_at, hc], fun x hx => ?_⟩
      exact List.mem_append_right _ (List.mem_cons_of_mem _ hx)
    · obtain ⟨r, hr, hx⟩ := ih
      exact ⟨r, by simp only [List.cons_append, cut_at, if_neg hc]; exact hr, hx⟩

theorem cut_at_eq_some (d : Char) :
    ∀ (l a r : List Char), cut_at d l = (a, some r) → l = a ++ d :: r := by
  intro l
  induction l with
  | nil => intro a r h; simp [cut_at] at h
  | cons c cs ih =>
    intro a r h
    unfold cut_at at h
    by_cases hc : c = d
    · rw [if_pos hc] at h
      simp only [Prod.mk.injEq, Option.some.injEq] at h
      rw [← h.1, ← h.2, hc]
      rfl
    · rw [if_neg hc] at h
      simp only [Prod.mk.injEq] at h
      rw [← h.1]
      have := ih (cut_at d cs).1 r (by rw [← h.2])
      simp only [List.cons_append]
      rw [← this]

/-- The id has a pair of brackets, a `[` and a `]` somewhere after it, exactly
when `get_range_from_jid` gives a text. -/
theorem get_range_from_jid_ne_none_iff (jid : String) :
    get_range_from_jid jid ≠ none
      ↔ ∃ a b c : List Char, jid.toList = a ++ '[' :: (b ++ ']' :: c) := by
  constructor
  · intro h
    unfold get_range_from_jid at h
    cases h1 : cut_at '[' jid.toList with
    | mk a r1 =>
      rw [h1] at h
      cases r1 with
      | none => simp at h
      | some rest =>
        simp only at h
        cases h2 : cut_at ']' rest with
        | mk b r2 =>
          rw [h2] at h
          cases r2 with
          | none => simp at h
          | some c =>
            refine ⟨a, b, c, ?_⟩
            rw [cut_at_eq_some '[' _ _ _ h1, cut_at_eq_some ']' _ _ _ h2]
  · rintro ⟨a, b, c, e⟩
    unfold get_range_from_jid
    obtain ⟨r, hr, hx⟩ := cut_at_snd_of_append '[' (b ++ ']' :: c) a
    rw [e, hr]
    simp only
    have hm : ']' ∈ r := hx _ (List.mem_append_right _ (List.mem_cons_self _ _))
    obtain ⟨b2, c2, e2⟩ := List.append_of_mem hm
    obtain ⟨r2, hr2, -⟩ := cut_at_snd_of_append ']' c2 b2
    rw [e2]
    cases h3 : cut_at ']' (b2 ++ ']' :: c2) with
    | mk x y =>
      rw [h3] at hr2
      simp only at hr2
      rw [hr2]
      simp

/-- Claim C20, as stated, fails: the id `123[].host` has brackets with nothing
between them and so no index, `get_index_from_jid` gives -1 for it, and
`create_subjob` on the array parent `sample_path_parent` returns a job with
this id and an empty `array_index`, with the code `PBSE_NONE`. -/
theorem create_subjob_empty_brackets_counterexample :
    get_index_from_jid "123[].host" = -1
    ∧ sample_path_parent.ji_svrflags.JOB_SVFLG_ArrayJob = true
    ∧ (create_subjob (sample_env true) sample_path_parent (some "123[].host")).rc
        = pbs_error.PBSE_NONE
    ∧ ((create_subjob (sample_env true) sample_path_parent (some "123[].host")).subj.map
        fun s => (s.ji_jobid, s.JOB_ATR_array_index)) = some ("123[].host", some "") := by
  decide

/-- Claim C20, amended.  A job that `create_subjob` returns comes with the code
`PBSE_NONE` and has the fixed save area of the parent (the union type, the
address and the port of the execution host, the exit status, the end time and
the flag `JOB_SVFLG_HERE`) except that its id is `newjid`, its file prefix is
empty, its flag `JOB_SVFLG_ArrayJob` is clear and its flag `JOB_SVFLG_SubJob`
is set; its `array_id` is the id of the parent and its `array_index` is the
text between the brackets of `newjid`.  No job is returned, with the code
`PBSE_IVALREQ`, when `newjid` is `NULL`, when the parent lacks the flag
`JOB_SVFLG_ArrayJob`, when `newjid` has no pair of brackets (no `[` with a `]`
somewhere after it), and when `svr_enquejob` is reached and fails; when none
of these holds and the allocation succeeds, a job is returned.  For the
parent `123[].host` and the id `123[1].host` the result is the subjob
`sample_created_subjob`. -/
theorem create_subjob_contract :
    (∀ (env : subjob_env) (parent : job) (newjid : Option String) (s : job),
      (create_subjob env parent newjid).subj = some s →
      ∃ jid, newjid = some jid
        ∧ (create_subjob env parent newjid).rc = pbs_error.PBSE_NONE
        ∧ s.ji_jobid = jid ∧ job.ji_fileprefix s = ""
        ∧ s.ji_un_type = parent.ji_un_type ∧ s.ji_momaddr = parent.ji_momaddr
        ∧ s.ji_momport = parent.ji_momport ∧ s.ji_exitstat = parent.ji_exitstat
        ∧ s.ji_endtime = parent.ji_endtime
        ∧ s.ji_svrflags.JOB_SVFLG_HERE = parent.ji_svrflags.JOB_SVFLG_HERE
        ∧ s.ji_svrflags.JOB_SVFLG_ArrayJob = false
        ∧ s.ji_svrflags.JOB_SVFLG_SubJob = true
        ∧ s.JOB_ATR_array_id = some parent.ji_jobid
        ∧ s.JOB_ATR_array_index = get_range_from_jid jid)
    ∧ (∀ (env : subjob_env) (parent : job) (jid : String),
      ((create_subjob env parent none).rc = pbs_error.PBSE_IVALREQ
        ∧ (create_subjob env parent none).subj = none)
      ∧ (parent.ji_svrflags.JOB_SVFLG_ArrayJob = false →
          (create_subjob env parent (some jid)).rc = pbs_error.PBSE_IVALREQ
          ∧ (create_subjob env parent (some jid)).subj = none)
      ∧ ((¬ ∃ a b c : List Char, jid.toList = a ++ '[' :: (b ++ ']' :: c)) →
          (create_subjob env parent (some jid)).rc = pbs_error.PBSE_IVALREQ
          ∧ (create_subjob env parent (some jid)).subj = none)
      ∧ (parent.ji_svrflags.JOB_SVFLG_ArrayJob = true →
          (∃ a b c : List Char, jid.toList = a ++ '[' :: (b ++ ']' :: c)) →
          env.job_alloc_ok = true → env.svr_enquejob_rc ≠ 0 →
          (create_subjob env parent (some jid)).rc = pbs_error.PBSE_IVALREQ
          ∧ (create_subjob env parent (some jid)).subj = none)
      ∧ (parent.ji_svrflags.JOB_SVFLG_ArrayJob = true →
          (∃ a b c : List Char, jid.toList = a ++ '[' :: (b ++ ']' :: c)) →
          env.job_alloc_ok = true → env.svr_enquejob_rc = 0 →
          (create_subjob env parent (some jid)).rc = pbs_error.PBSE_NONE
          ∧ (create_subjob env parent (some jid)).subj ≠ none))
    ∧ create_subjob (sample_env true) sample_path_parent (some "123[1].host")
        = ⟨pbs_error.PBSE_NONE, some sample_created_subjob, sample_path_parent⟩
    ∧ create_subjob (sample_env true) sample_path_parent none
        = ⟨pbs_error.PBSE_IVALREQ, none, sample_path_parent⟩
    ∧ create_subjob (sample_env true) sample_job (some "123[1].host")
        = ⟨pbs_error.PBSE_IVALREQ, none, sample_job⟩
    ∧ create_subjob (sample_env true) sample_path_parent (some "123.host")
        = ⟨pbs_error.PBSE_IVALREQ, none, sample_path_parent⟩
    ∧ create_subjob (sample_env true) sample_path_parent (some "123[1.host")
        = ⟨pbs_error.PBSE_IVALREQ, none, sample_path_parent⟩
    ∧ create_subjob { sample_env true with svr_enquejob_rc := 1 } sample_path_parent
          (some "123[1].host")
        = ⟨pbs_error.PBSE_IVALREQ, none, sample_path_parent⟩ := by
  refine ⟨?_, ?_, by decide, by decide, by decide, by decide, by decide, by decide⟩
  · intro env parent newjid s h
    obtain ⟨jid, index, h1, h2, _, _, _, h6, _, h8, h9, _, h11, h12, h13, h14, h15, h16, h17,
      h18, _⟩ := create_subjob_success env parent newjid s h
    refine ⟨jid, h1, h6, h8, h9, h14, h15, h16, h17, h18, ?_, ?_, ?_, h11, by rw [h12, h2]⟩
    · rw [h13]
    · rw [h13]
    · rw [h13]
  · intro env parent jid
    obtain ⟨e1, e2, e3, e4, e5⟩ := create_subjob_error env parent jid
    have hiff := get_range_from_jid_ne_none_iff jid
    refine ⟨e1, e2, fun hn => e3 ?_, fun hf hb => e4 hf (hiff.mpr hb),
      fun hf hb => e5 hf (hiff.mpr hb)⟩
    by_contra hne
    exact hn (hiff.mp hne)

/-! ## The kind of a job id -/

theorem cut_at_not_mem (d : Char) (l : List Char) (h : d ∉ l) : cut_at d l = (l, none) := by
  induction l with
  | nil => rfl
  | cons c cs ih =>
    have hc : c ≠ d := fun e => h (by rw [e]; exact List.mem_cons_self _ _)
    have hcs : d ∉ cs := fun e => h (List.mem_cons_of_mem _ e)
    simp only [cut_at, if_neg hc, ih hcs]

theorem dropWhile_isDigit_append (ds tl : List Char) (hd : ∀ c ∈ ds, c.isDigit = true)
    (ht : ∀ c, tl.head? = some c → c.isDigit = false) :
    (ds ++ tl).dropWhile Char.isDigit = tl := by
  induction ds with
  | nil =>
    cases tl with
    | nil => rfl
    | cons c cs =>
      have := ht c rfl
      simp [List.dropWhile, this]
  | cons d ds ih =>
    have h1 := hd d (List.mem_cons_self _ _)
    simp only [List.cons_append, List.dropWhile, h1]
    exact ih (fun c hc => hd c (List.mem_cons_of_mem _ hc))

theorem is_job_array_of_bracket (id : String) (pre rest : List Char)
    (hid : id.toList = pre ++ '[' :: rest) (hpre : '[' ∉ pre) :
    is_job_array id
      = if rest.head? = some ']' then array_kind.IS_ARRAY_ArrayJob
        else
          match rest.dropWhile Char.isDigit with
          | c :: _ =>
            if c = '-' ∨ c = ',' then array_kind.IS_ARRAY_Range
            else array_kind.IS_ARRAY_Single
          | [] => array_kind.IS_ARRAY_Single := by
  unfold is_job_array
  rw [hid, cut_at_append '[' pre rest hpre]

/-- Claim C21.  `is_job_array` classifies every job id at its first `[`: the id
without `[` is `IS_ARRAY_NO`; when the character right after the first `[` is
`]` the id is `IS_ARRAY_ArrayJob`; otherwise, with `ds` the run of digits after
the first `[` and `tl` what follows it, the id is `IS_ARRAY_Range` when `tl`
starts with `-` or `,` and `IS_ARRAY_Single` in every other case.  So
`123.host` is NO, `123[].host` the parent, `123[7].host` a single subjob and
`123[0-9].host` a range. -/
theorem is_job_array_classifies (id : String) :
    ('[' ∉ id.toList → is_job_array id = array_kind.IS_ARRAY_NO)
    ∧ (∀ pre rest : List Char, id.toList = pre ++ '[' :: rest → '[' ∉ pre →
        (rest.head? = some ']' → is_job_array id = array_kind.IS_ARRAY_ArrayJob)
        ∧ (∀ ds tl : List Char, rest = ds ++ tl → (∀ c ∈ ds, c.isDigit = true) →
            (∀ c, tl.head? = some c → c.isDigit = false) → rest.head? ≠ some ']' →
            ((tl.head? = some '-' ∨ tl.head? = some ',') →
              is_job_array id = array_kind.IS_ARRAY_Range)
            ∧ (tl.head? ≠ some '-' → tl.head? ≠ some ',' →
              is_job_array id = array_kind.IS_ARRAY_Single)))
    ∧ is_job_array "123.host" = array_kind.IS_ARRAY_NO
    ∧ is_job_array "123[].host" = array_kind.IS_ARRAY_ArrayJob
    ∧ is_job_array "123[7].host" = array_kind.IS_ARRAY_Single
    ∧ is_job_array "123[0-9].host" = array_kind.IS_ARRAY_Range
    ∧ is_job_array "123[0,4].host" = array_kind.IS_ARRAY_Range
    ∧ is_job_array "123[" = array_kind.IS_ARRAY_Single := by
  refine ⟨?_, ?_, by decide, by decide, by decide, by decide, by decide, by decide⟩
  · intro h
    unfold is_job_array
    rw [cut_at_not_mem '[' id.toList h]
  · intro pre rest hid hpre
    have hb := is_job_array_of_bracket id pre rest hid hpre
    refine ⟨fun h => by rw [hb, if_pos h], ?_⟩
    intro ds tl hr hds htl hne
    rw [hb, if_neg hne, hr, dropWhile_isDigit_append ds tl hds htl]
    constructor
    · intro h
      cases tl with
      | nil => rcases h with h | h <;> cases h
      | cons c cs =>
        simp only [List.head?_cons, Option.some.injEq] at h
        simp only [h, if_true]
    · intro h1 h2
      cases tl with
      | nil => rfl
      | cons c cs =>
        simp only [List.head?_cons, ne_eq, Option.some.injEq] at h1 h2
        simp only [h1, h2, or_self, if_false]

/-! ## The sweep that renews credentials -/

theorem svr_renew_creds_loop_jobs (g : cred_globals) (now : Int) (rand : Nat → Nat) :
    ∀ (l : List job) (k : Nat),
      (svr_renew_creds_loop g now rand k l).map (fun t => t.wt_parm1)
        = (l.filter (needs_renewal g now)).map (fun j => some j.ji_jobid) := by
  intro l
  induction l with
  | nil => intro k; rfl
  | cons j js ih =>
    intro k
    unfold svr_renew_creds_loop
    by_cases h1 : j.JOB_ATR_cred_id.isSome ∧ check_job_state j JOB_STATE_LTR_RUNNING = true
    · rw [if_pos h1]
      by_cases h2 : j.JOB_ATR_cred_validity.is_set = true
          ∧ get_jattr_long j.JOB_ATR_cred_validity - g.svr_cred_renew_period ≤ now
      · rw [if_pos h2]
        have hn : needs_renewal g now j = true := by
          simp only [check_job_state, decide_eq_true_eq] at h1
          simp only [get_jattr_long] at h2
          simp [needs_renewal, h1.1, h1.2, h2.1, h2.2]
        rw [List.filter_cons_of_pos hn, List.map_cons, List.map_cons, ih]
      · rw [if_neg h2]
        have hn : ¬ needs_renewal g now j = true := by
          intro hn
          apply h2
          simp only [needs_renewal, Bool.and_eq_true, decide_eq_true_eq] at hn
          exact ⟨hn.1.2, hn.2⟩
        rw [List.filter_cons_of_neg hn, ih]
    · rw [if_neg h1]
      have hn : ¬ needs_renewal g now j = true := by
        intro hn
        apply h1
        simp only [needs_renewal, Bool.and_eq_true, decide_eq_true_eq] at hn
        exact ⟨hn.1.1.2, by simp [check_job_state, hn.1.1.1]⟩
      rw [List.filter_cons_of_neg hn, ih]

theorem svr_renew_creds_loop_task (g : cred_globals) (now : Int) (rand : Nat → Nat) :
    ∀ (l : List job) (k : Nat) (t : work_task), t ∈ svr_renew_creds_loop g now rand k l →
      t.wt_func = task_fn.svr_renew_job_cred ∧ now ≤ t.wt_event
        ∧ t.wt_event < now + SVR_RENEW_CREDS_TM := by
  intro l
  induction l with
  | nil => intro k t h; cases h
  | cons j js ih =>
    intro k t h
    unfold svr_renew_creds_loop at h
    by_cases h1 : j.JOB_ATR_cred_id.isSome ∧ check_job_state j JOB_STATE_LTR_RUNNING = true
    · rw [if_pos h1] at h
      by_cases h2 : j.JOB_ATR_cred_validity.is_set = true
          ∧ get_jattr_long j.JOB_ATR_cred_validity - g.svr_cred_renew_period ≤ now
      · rw [if_pos h2] at h
        rcases List.mem_cons.mp h with h | h
        · subst h
          have h0 : (0 : Int) ≤ (rand k : Int) % SVR_RENEW_CREDS_TM :=
            Int.emod_nonneg _ (by decide)
          have h3 : (rand k : Int) % SVR_RENEW_CREDS_TM < SVR_RENEW_CREDS_TM :=
            Int.emod_lt_of_pos _ (by decide)
          refine ⟨rfl, ?_, ?_⟩
          · show now ≤ now + (rand k : Int) % SVR_RENEW_CREDS_TM
            omega
          · show now + (rand k : Int) % SVR_RENEW_CREDS_TM < now + SVR_RENEW_CREDS_TM
            omega
        · exact ih (k + 1) t h
      · rw [if_neg h2] at h
        exact ih k t h
    · rw [if_neg h1] at h
      exact ih k t h

/-- Claim C22.  On each sweep, the per-job renewal tasks that `svr_renew_creds`
hands to `set_task` are, in the order of the job list, one for each job that
is Running, has `cred_id` set, has `cred_validity` set and has
`cred_validity - cred_renew_period <= now`, and none for any other job; each
carries the id of its job and fires at a time `t` with `now <= t < now + 300`.
With `cred_renew_period` 3600 and `now` 1000, of two running jobs with
`cred_validity` 2800 and 8200 the first gets a task and the second none. -/
theorem svr_renew_creds_schedules (g : cred_globals) (now : Int) (rand : Nat → Nat)
    (pwt : Bool) (svr_alljobs : List job) :
    (((svr_renew_creds g now rand pwt svr_alljobs).filter
          (fun t => decide (t.wt_func = task_fn.svr_renew_job_cred))).map
        (fun t => t.wt_parm1)
      = (svr_alljobs.filter (needs_renewal g now)).map (fun j => some j.ji_jobid))
    ∧ (∀ t ∈ svr_renew_creds g now rand pwt svr_alljobs,
        t.wt_func = task_fn.svr_renew_job_cred →
        now ≤ t.wt_event ∧ t.wt_event < now + 300)
    ∧ svr_renew_creds cred_globals_init 1000 (fun _ => 12345) true
        [sample_cred_job "1.host" (1000 + 1800), sample_cred_job "2.host" (1000 + 7200)]
      = [⟨1045, task_fn.svr_renew_job_cred, some "1.host"⟩]
    ∧ needs_renewal cred_globals_init 1000 (sample_cred_job "1.host" (1000 + 1800)) = true
    ∧ needs_renewal cred_globals_init 1000 (sample_cred_job "2.host" (1000 + 7200)) = false := by
  refine ⟨?_, ?_, by decide, by decide, by decide⟩
  · unfold svr_renew_creds
    have hl : (svr_renew_creds_loop g now rand 0 svr_alljobs).filter
        (fun t => decide (t.wt_func = task_fn.svr_renew_job_cred))
        = svr_renew_creds_loop g now rand 0 svr_alljobs := by
      apply List.filter_eq_self.mpr
      intro t ht
      simp [(svr_renew_creds_loop_task g now rand svr_alljobs 0 t ht).1]
    rw [List.filter_append, hl, List.map_append, svr_renew_creds_loop_jobs]
    by_cases h : pwt = true ∧ g.svr_cred_renew_enable ≠ 0
    · rw [if_pos h]; rfl
    · rw [if_neg h]; rfl
  · intro t ht hf
    unfold svr_renew_creds at ht
    rcases List.mem_append.mp ht with h | h
    · by_cases hc : pwt = true ∧ g.svr_cred_renew_enable ≠ 0
      · rw [if_pos hc] at h
        rw [List.mem_singleton] at h
        rw [h] at hf
        cases hf
      · rw [if_neg hc] at h
        cases h
    · have := svr_renew_creds_loop_task g now rand svr_alljobs 0 t h
      exact ⟨this.2.1, this.2.2⟩

/-! ## The two tunables of the renewal -/

/-- Claim C23.  Each of `set_cred_renew_period` and `set_cred_renew_cache_period`,
called in ALTER or RECOV mode with the value `v`, returns `PBSE_BADATVAL` and
leaves its tunable as it was if and only if `v < 300`; for every `v >= 300` it
stores `v` in its tunable and returns `PBSE_NONE`, also when the period then
exceeds the cache period, which is logged only.  The other tunable and the
enable switch are never modified. -/
theorem set_cred_renew_period_bounds (g : cred_globals) (v : Int) (mode : actmode)
    (hm : mode = actmode.ATR_ACTION_ALTER ∨ mode = actmode.ATR_ACTION_RECOV) :
    ((((set_cred_renew_period g v mode).1 = pbs_error.PBSE_BADATVAL
          ∧ (set_cred_renew_period g v mode).2.1.svr_cred_renew_period
            = g.svr_cred_renew_period) ↔ v < 300)
      ∧ (v < 300 → (set_cred_renew_period g v mode).2.1 = g)
      ∧ (300 ≤ v → (set_cred_renew_period g v mode).1 = pbs_error.PBSE_NONE
          ∧ (set_cred_renew_period g v mode).2.1 = { g with svr_cred_renew_period := v })
      ∧ (set_cred_renew_period g v mode).2.1.svr_cred_renew_cache_period
          = g.svr_cred_renew_cache_period
      ∧ (set_cred_renew_period g v mode).2.1.svr_cred_renew_enable = g.svr_cred_renew_enable)
    ∧ ((((set_cred_renew_cache_period g v mode).1 = pbs_error.PBSE_BADATVAL
          ∧ (set_cred_renew_cache_period g v mode).2.1.svr_cred_renew_cache_period
            = g.svr_cred_renew_cache_period) ↔ v < 300)
      ∧ (v < 300 → (set_cred_renew_cache_period g v mode).2.1 = g)
      ∧ (300 ≤ v → (set_cred_renew_cache_period g v mode).1 = pbs_error.PBSE_NONE
          ∧ (set_cred_renew_cache_period g v mode).2.1
            = { g with svr_cred_renew_cache_period := v })
      ∧ (set_cred_renew_cache_period g v mode).2.1.svr_cred_renew_period
          = g.svr_cred_renew_period
      ∧ (set_cred_renew_cache_period g v mode).2.1.svr_cred_renew_enable
          = g.svr_cred_renew_enable) := by
  have h300 : SVR_RENEW_CREDS_TM = 300 := rfl
  by_cases hv : v < 300
  · have hv2 : v < SVR_RENEW_CREDS_TM := by rw [h300]; exact hv
    have hn : ¬ 300 ≤ v := by omega
    simp [set_cred_renew_period, set_cred_renew_cache_period, hm, hv, hv2, hn]
  · have hv2 : ¬ v < SVR_RENEW_CREDS_TM := by rw [h300]; exact hv
    have hn : 300 ≤ v := by omega
    simp [set_cred_renew_period, set_cred_renew_cache_period, hm, hv, hv2, hn]

/-- Witness of C23: with the initial tunables 3600 and 7200, the value 9000 is
stored as the period in ALTER mode although it exceeds the cache period, and a
warning is logged. -/
theorem set_cred_renew_period_bounds_witness :
    set_cred_renew_period cred_globals_init 9000 actmode.ATR_ACTION_ALTER
      = (pbs_error.PBSE_NONE, ⟨0, 9000, 7200⟩,
          [cred_log.should_be_lower 9000 7200, cred_log.set_to false 9000])
    ∧ set_cred_renew_period cred_globals_init 299 actmode.ATR_ACTION_ALTER
      = (pbs_error.PBSE_BADATVAL, cred_globals_init, [cred_log.value_too_low false 3600])
    ∧ ((set_cred_renew_period cred_globals_init 9000 actmode.ATR_ACTION_ALTER).1
          = pbs_error.PBSE_NONE
        ∧ (set_cred_renew_period cred_globals_init 9000 actmode.ATR_ACTION_ALTER).2.1
          = { cred_globals_init with svr_cred_renew_period := 9000 }) :=
  ⟨by decide, by decide,
    (set_cred_renew_period_bounds cred_globals_init 9000 actmode.ATR_ACTION_ALTER
      (Or.inl rfl)).1.2.2.1 (by decide)⟩

/-! ## Comparison of two attribute lists -/

theorem strcmp_eq_zero (a : List Char) : ∀ b : List Char, strcmp a b = 0 ↔ a = b := by
  induction a with
  | nil =>
    intro b
    cases b with
    | nil => simp [strcmp]
    | cons d ds => simp [strcmp]
  | cons c cs ih =>
    intro b
    cases b with
    | nil => simp [strcmp]
    | cons d ds =>
      unfold strcmp
      by_cases h1 : c.toNat < d.toNat
      · rw [if_pos h1]
        have hne : c ≠ d := fun e => by rw [e] at h1; exact lt_irrefl _ h1
        simp [hne]
      · rw [if_neg h1]
        by_cases h2 : d.toNat < c.toNat
        · rw [if_pos h2]
          have hne : c ≠ d := fun e => by rw [e] at h2; exact lt_irrefl _ h2
          simp [hne]
        · rw [if_neg h2, ih ds]
          have he : c.toNat = d.toNat := by omega
          have hcd : c = d := by
            have h3 := congrArg Char.ofNat he
            rwa [Char.ofNat_toNat, Char.ofNat_toNat] at h3
          simp [hcd]

theorem strcmp_pair (e f : svrattrl) :
    (strcmp e.al_name.toList f.al_name.toList = 0
      ∧ strcmp e.al_value.toList f.al_value.toList = 0) ↔ e.pair = f.pair := by
  rw [strcmp_eq_zero, strcmp_eq_zero]
  unfold svrattrl.pair
  constructor
  · rintro ⟨h1, h2⟩
    rw [String.ext h1, String.ext h2]
  · intro h
    rw [Prod.mk.injEq] at h
    rw [h.1, h.2]
    exact ⟨rfl, rfl⟩

theorem compare_svrattrl_list_match_some (pal1 : svrattrl) :
    ∀ list2 r : List svrattrl, compare_svrattrl_list_match pal1 list2 = some r →
      List.Perm (list2.map svrattrl.pair) (pal1.pair :: r.map svrattrl.pair) := by
  intro list2
  induction list2 with
  | nil => intro r h; cases h
  | cons pal2 rest ih =>
    intro r h
    unfold compare_svrattrl_list_match at h
    by_cases hs : strcmp pal1.al_name.toList pal2.al_name.toList = 0
        ∧ strcmp pal1.al_value.toList pal2.al_value.toList = 0
    · rw [if_pos hs] at h
      cases h
      rw [List.map_cons, (strcmp_pair pal1 pal2).mp hs]
    · rw [if_neg hs] at h
      cases hc : compare_svrattrl_list_match pal1 rest with
      | none => rw [hc] at h; cases h
      | some r2 =>
        rw [hc] at h
        cases h
        rw [List.map_cons, List.map_cons]
        exact ((ih r2 hc).cons pal2.pair).trans (List.Perm.swap _ _ _)

theorem compare_svrattrl_list_match_none (pal1 : svrattrl) :
    ∀ list2 : List svrattrl, compare_svrattrl_list_match pal1 list2 = none →
      pal1.pair ∉ list2.map svrattrl.pair := by
  intro list2
  induction list2 with
  | nil => intro _ hm; cases hm
  | cons pal2 rest ih =>
    intro h
    unfold compare_svrattrl_list_match at h
    by_cases hs : strcmp pal1.al_name.toList pal2.al_name.toList = 0
        ∧ strcmp pal1.al_value.toList pal2.al_value.toList = 0
    · rw [if_pos hs] at h; cases h
    · rw [if_neg hs] at h
      cases hc : compare_svrattrl_list_match pal1 rest with
      | some r2 => rw [hc] at h; cases h
      | none =>
        rw [List.map_cons, List.mem_cons]
        rintro (e | e)
        · exact hs ((strcmp_pair pal1 pal2).mpr e)
        · exact ih hc e

theorem compare_svrattrl_list_loop_perm :
    ∀ list1 list2 : List svrattrl,
      compare_svrattrl_list_loop list1 list2 = 1
        ↔ List.Perm (list1.map svrattrl.pair) (list2.map svrattrl.pair) := by
  intro list1
  induction list1 with
  | nil =>
    intro list2
    unfold compare_svrattrl_list_loop
    cases list2 with
    | nil => simp
    | cons e es => simp
  | cons pal1 nx ih =>
    intro list2
    unfold compare_svrattrl_list_loop
    rw [List.map_cons]
    cases hc : compare_svrattrl_list_match pal1 list2 with
    | none =>
      have hn := compare_svrattrl_list_match_none pal1 list2 hc
      constructor
      · intro h; simp at h
      · intro h
        exact absurd (h.subset (List.mem_cons_self _ _)) hn
    | some list2r =>
      have hs := compare_svrattrl_list_match_some pal1 list2 list2r hc
      show compare_svrattrl_list_loop nx list2r = 1 ↔ _
      rw [ih list2r]
      constructor
      · intro h
        exact (h.cons pal1.pair).trans hs.symm
      · intro h
        exact (h.trans hs).cons_inv

theorem compare_svrattrl_list_loop_range (list1 : List svrattrl) :
    ∀ list2 : List svrattrl,
      compare_svrattrl_list_loop list1 list2 = 0 ∨ compare_svrattrl_list_loop list1 list2 = 1 := by
  induction list1 with
  | nil =>
    intro list2
    unfold compare_svrattrl_list_loop
    by_cases h : list2 = []
    · rw [if_pos h]; exact Or.inr rfl
    · rw [if_neg h]; exact Or.inl rfl
  | cons pal1 nx ih =>
    intro list2
    unfold compare_svrattrl_list_loop
    cases compare_svrattrl_list_match pal1 list2 with
    | none => exact Or.inl rfl
    | some r => exact ih r

theorem copy_svrattrl_list_loop_pairs :
    ∀ from_head to_head : List svrattrl,
      ∃ r, copy_svrattrl_list_loop true from_head to_head = some r
        ∧ r.map svrattrl.pair = to_head.map svrattrl.pair ++ from_head.map svrattrl.pair := by
  intro from_head
  induction from_head with
  | nil => intro to_head; exact ⟨to_head, rfl, by simp⟩
  | cons e es ih =>
    intro to_head
    obtain ⟨r, hr, hp⟩ := ih (to_head ++ [⟨e.al_name, e.al_resc, e.al_value, e.al_op, SET⟩])
    refine ⟨r, ?_, ?_⟩
    · unfold copy_svrattrl_list_loop
      simp only [add_to_svrattrl_list]
      exact hr
    · rw [hp]
      simp [svrattrl.pair]

theorem compare_svrattrl_list_perm (l1 l2 : List svrattrl) :
    compare_svrattrl_list true l1 l2 = 1
      ↔ List.Perm (l1.map svrattrl.pair) (l2.map svrattrl.pair) := by
  obtain ⟨r1, h1, p1⟩ := copy_svrattrl_list_loop_pairs l1 []
  obtain ⟨r2, h2, p2⟩ := copy_svrattrl_list_loop_pairs l2 []
  unfold compare_svrattrl_list copy_svrattrl_list
  rw [h1, h2]
  simp only
  rw [compare_svrattrl_list_loop_perm, p1, p2]
  simp

/-- Claim C24, as stated, fails: the list with the pair (a, 1) twice and the
list with the pair (a, 1) once have the same set of (name, value) pairs, and
`compare_svrattrl_list` returns 0 for them, in either order. -/
theorem compare_svrattrl_list_set_counterexample :
    List.map svrattrl.pair [⟨"a", none, "1", 0, 0⟩, ⟨"a", none, "1", 0, 0⟩]
        ⊆ List.map svrattrl.pair [⟨"a", none, "1", 0, 0⟩]
    ∧ List.map svrattrl.pair [⟨"a", none, "1", 0, 0⟩]
        ⊆ List.map svrattrl.pair [⟨"a", none, "1", 0, 0⟩, ⟨"a", none, "1", 0, 0⟩]
    ∧ compare_svrattrl_list true [⟨"a", none, "1", 0, 0⟩, ⟨"a", none, "1", 0, 0⟩]
        [⟨"a", none, "1", 0, 0⟩] = 0
    ∧ compare_svrattrl_list true [⟨"a", none, "1", 0, 0⟩]
        [⟨"a", none, "1", 0, 0⟩, ⟨"a", none, "1", 0, 0⟩] = 0 := by
  refine ⟨?_, ?_, by decide, by decide⟩
  · intro p hp
    simpa using hp
  · intro p hp
    simpa using hp

/-- Claim C24, amended.  `compare_svrattrl_list` is equality of the (name, value)
pairs counted with their repetitions: when the copies of the two lists can be
allocated it returns 1 if and only if the pairs of `l1` are a rearrangement of
the pairs of `l2`, each pair occurring as often in one list as in the other,
whatever the resource names, the flags and the order are; otherwise it
returns 0.  Two lists with the same two pairs in different order, with
different resource names and flags, compare equal. -/
theorem compare_svrattrl_list_pairs (l1 l2 : List svrattrl) :
    (compare_svrattrl_list true l1 l2 = 1
      ↔ List.Perm (l1.map svrattrl.pair) (l2.map svrattrl.pair))
    ∧ (compare_svrattrl_list true l1 l2 = 0 ∨ compare_svrattrl_list true l1 l2 = 1)
    ∧ compare_svrattrl_list true [⟨"a", none, "1", 0, 0⟩, ⟨"b", some "x", "2", 0, 0⟩]
        [⟨"b", none, "2", 7, 0⟩, ⟨"a", none, "1", 0, 0⟩] = 1 := by
  refine ⟨compare_svrattrl_list_perm l1 l2, ?_, by decide⟩
  · obtain ⟨r1, h1, _⟩ := copy_svrattrl_list_loop_pairs l1 []
    obtain ⟨r2, h2, _⟩ := copy_svrattrl_list_loop_pairs l2 []
    unfold compare_svrattrl_list copy_svrattrl_list
    rw [h1, h2]
    exact compare_svrattrl_list_loop_range r1 r2

/-! ## Sorted insertion into an attribute list -/

theorem strcmp_swap (a : List Char) : ∀ b : List Char, strcmp b a = - strcmp a b := by
  induction a with
  | nil =>
    intro b
    cases b with
    | nil => rfl
    | cons d ds => rfl
  | cons c cs ih =>
    intro b
    cases b with
    | nil => rfl
    | cons d ds =>
      simp only [strcmp]
      rw [ih ds]
      split_ifs <;> first | rfl | omega

theorem strcmp_le_trans (a : List Char) :
    ∀ b c : List Char, strcmp a b ≤ 0 → strcmp b c ≤ 0 → strcmp a c ≤ 0 := by
  induction a with
  | nil =>
    intro b c _ _
    cases c with
    | nil => simp [strcmp]
    | cons e es => simp [strcmp]
  | cons x xs ih =>
    intro b c hab hbc
    cases b with
    | nil => simp [strcmp] at hab
    | cons y ys =>
      cases c with
      | nil => simp [strcmp] at hbc
      | cons z zs =>
        simp only [strcmp] at hab hbc ⊢
        by_cases h1 : x.toNat < y.toNat
        · by_cases h2 : y.toNat < z.toNat
          · have : x.toNat < z.toNat := by omega
            simp [this]
          · rw [if_neg h2] at hbc
            by_cases h3 : z.toNat < y.toNat
            · rw [if_pos h3] at hbc; omega
            · have : x.toNat < z.toNat := by omega
              simp [this]
        · rw [if_neg h1] at hab
          by_cases h4 : y.toNat < x.toNat
          · rw [if_pos h4] at hab; omega
          · rw [if_neg h4] at hab
            by_cases h2 : y.toNat < z.toNat
            · have : x.toNat < z.toNat := by omega
              simp [this]
            · rw [if_neg h2] at hbc
              by_cases h3 : z.toNat < y.toNat
              · rw [if_pos h3] at hbc; omega
              · rw [if_neg h3] at hbc
                have e1 : ¬ x.toNat < z.toNat := by omega
                have e2 : ¬ z.toNat < x.toNat := by omega
                rw [if_neg e1, if_neg e2]
                exact ih ys zs hab hbc

theorem svrattrl_insert_sorted_split (e : svrattrl) :
    ∀ l : List svrattrl, svrattrl_sorted l →
      ∃ l1 l2, l = l1 ++ l2 ∧ svrattrl_insert_sorted e l = l1 ++ e :: l2
        ∧ (∀ x ∈ l1, strcmp x.al_name.toList e.al_name.toList ≤ 0)
        ∧ (∀ x ∈ l2, strcmp x.al_name.toList e.al_name.toList > 0) := by
  intro l
  induction l with
  | nil =>
    intro _
    exact ⟨[], [], rfl, rfl, fun _ h => (by cases h), fun _ h => (by cases h)⟩
  | cons c cs ih =>
    intro hs
    unfold svrattrl_insert_sorted
    by_cases h : strcmp c.al_name.toList e.al_name.toList > 0
    · rw [if_pos h]
      refine ⟨[], c :: cs, rfl, rfl, fun _ hx => (by cases hx), ?_⟩
      intro x hx
      rcases List.mem_cons.mp hx with hx | hx
      · rw [hx]; exact h
      · have hcx : strcmp c.al_name.toList x.al_name.toList ≤ 0 :=
          List.rel_of_pairwise_cons hs hx
        by_contra hneg
        have := strcmp_le_trans _ _ _ hcx (not_lt.mp hneg)
        omega
    · rw [if_neg h]
      obtain ⟨l1, l2, h1, h2, h3, h4⟩ := ih (List.Pairwise.of_cons hs)
      refine ⟨c :: l1, l2, by rw [h1]; rfl, by rw [h2]; rfl, ?_, h4⟩
      intro x hx
      rcases List.mem_cons.mp hx with hx | hx
      · rw [hx]; exact not_lt.mp h
      · exact h3 x hx

theorem svrattrl_insert_sorted_sorted (e : svrattrl) (l : List svrattrl)
    (hs : svrattrl_sorted l) : svrattrl_sorted (svrattrl_insert_sorted e l) := by
  obtain ⟨l1, l2, h1, h2, h3, h4⟩ := svrattrl_insert_sorted_split e l hs
  rw [h2]
  rw [h1] at hs
  unfold svrattrl_sorted at hs ⊢
  rw [List.pairwise_append] at hs ⊢
  refine ⟨hs.1, ?_, ?_⟩
  · rw [List.pairwise_cons]
    refine ⟨?_, hs.2.1⟩
    intro x hx
    have := h4 x hx
    rw [strcmp_swap]
    omega
  · intro x hx y hy
    rcases List.mem_cons.mp hy with hy | hy
    · rw [hy]; exact h3 x hx
    · exact hs.2.2 x hx y hy

/-- Claim C26.  Sorted insertion keeps the list sorted: for every list whose
names are in ascending order by `strcmp`, after `add_to_svrattrl_list_sorted`
succeeds the names are again in ascending order, and the list consists of the
previous entries in their previous order plus one new entry, named `name_str`
or `name_prefix.name_str`, placed after all the entries whose name is below or
equal to the new name and before all the entries whose name is above it. -/
theorem add_to_svrattrl_list_sorted_sorted (malloc_ok : Bool) (phead : List svrattrl)
    (name_str : String) (resc_str : Option String) (val_str : String) (flag : Nat)
    ( name_prefix : Option String) (r : List svrattrl)
    (hs : svrattrl_sorted phead)
    (h : add_to_svrattrl_list_sorted malloc_ok phead name_str resc_str val_str flag
      name_prefix = some r) :
    svrattrl_sorted r
    ∧ ∃ (e : svrattrl) (l1 l2 : List svrattrl),
        phead = l1 ++ l2 ∧ r = l1 ++ e :: l2
        ∧ e.al_name = the_str name_prefix name_str
        ∧ e.al_resc = resc_str ∧ e.al_value = val_str ∧ e.al_flags = flag
        ∧ (∀ x ∈ l1, strcmp x.al_name.toList e.al_name.toList ≤ 0)
        ∧ (∀ x ∈ l2, strcmp x.al_name.toList e.al_name.toList > 0) := by
  unfold add_to_svrattrl_list_sorted at h
  by_cases hm : malloc_ok = false
  · rw [if_pos hm] at h; cases h
  · rw [if_neg hm] at h
    simp only [Option.some.injEq] at h
    subst h
    refine ⟨svrattrl_insert_sorted_sorted _ phead hs, ?_⟩
    obtain ⟨l1, l2, h1, h2, h3, h4⟩ := svrattrl_insert_sorted_split
      ⟨the_str name_prefix name_str, resc_str, val_str, flag, SET⟩ phead hs
    exact ⟨_, l1, l2, h1, h2, rfl, rfl, rfl, rfl, h3, h4⟩

/-- Witness of C26: the entry `job.b` is added to the sorted list of `job.a`,
`job.b` and `job.c`; it is placed after the entry of the same name. -/
theorem add_to_svrattrl_list_sorted_sorted_witness :
    add_to_svrattrl_list_sorted true
        [⟨"job.a", none, "1", 0, 0⟩, ⟨"job.b", none, "2", 0, 0⟩, ⟨"job.c", none, "3", 0, 0⟩]
        "b" none "4" 5 (some "job")
      = some [⟨"job.a", none, "1", 0, 0⟩, ⟨"job.b", none, "2", 0, 0⟩,
          ⟨"job.b", none, "4", 5, 0⟩, ⟨"job.c", none, "3", 0, 0⟩]
    ∧ svrattrl_sorted [⟨"job.a", none, "1", 0, 0⟩, ⟨"job.b", none, "2", 0, 0⟩,
          ⟨"job.b", none, "4", 5, 0⟩, ⟨"job.c", none, "3", 0, 0⟩] :=
  ⟨by decide,
    (add_to_svrattrl_list_sorted_sorted true
      [⟨"job.a", none, "1", 0, 0⟩, ⟨"job.b", none, "2", 0, 0⟩, ⟨"job.c", none, "3", 0, 0⟩]
      "b" none "4" 5 (some "job")
      [⟨"job.a", none, "1", 0, 0⟩, ⟨"job.b", none, "2", 0, 0⟩,
          ⟨"job.b", none, "4", 5, 0⟩, ⟨"job.c", none, "3", 0, 0⟩]
      (by unfold svrattrl_sorted; decide) (by decide)).1⟩

/-! ## Tokens, quotes and escapes -/

/-- Claim C25, the code at the documented input: for
`foo_float=1.5,foo_stra="glad,elated"some,squote=',foo_size=10mb,dquote="` and
the delimiter `,` the calls of `strtok_quoted` return six tokens and then
`NULL`; the comma between the two double quotes ends the second token, which
is `foo_stra="glad`, and `elated"some` is a token of its own.  Likewise
`a="b,c",d` gives `a="b`, `c"` and `d`. -/
theorem strtok_quoted_splits_in_quotes :
    str_to_str_array
        "foo_float=1.5,foo_stra=\"glad,elated\"some,squote=',foo_size=10mb,dquote=\"".toList
        ','
      = ["foo_float=1.5".toList, "foo_stra=\"glad".toList, "elated\"some".toList,
          "squote='".toList, "foo_size=10mb".toList, "dquote=\"".toList]
    ∧ strtok_quoted none
        (some
          "foo_float=1.5,foo_stra=\"glad,elated\"some,squote=',foo_size=10mb,dquote=\"".toList)
        ','
      = (some "foo_float=1.5".toList,
          some "foo_stra=\"glad,elated\"some,squote=',foo_size=10mb,dquote=\"".toList)
    ∧ strtok_quoted
        (some "foo_stra=\"glad,elated\"some,squote=',foo_size=10mb,dquote=\"".toList) none ','
      = (some "foo_stra=\"glad".toList,
          some "elated\"some,squote=',foo_size=10mb,dquote=\"".toList)
    ∧ str_to_str_array "a=\"b,c\",d".toList ','
      = ["a=\"b".toList, "c\"".toList, "d".toList] := by
  decide

/-- Claim C27, the code at a failing input: the environment with the one entry
`A=x\,y`, whose value has a backslash right before a comma, is encoded by
`env_array_to_str` as `A=x\\\,y`, and `str_to_str_array` splits this text at
the comma into the two entries `A=x\` and `y`.  An entry whose value has a
comma and a backslash apart from each other comes back as it was. -/
theorem env_array_round_trip_fails :
    env_array_to_str true ["A=x\\,y".toList] ',' = malloc_str.str "A=x\\\\\\,y".toList
    ∧ str_to_str_array "A=x\\\\\\,y".toList ',' = ["A=x\\".toList, "y".toList]
    ∧ env_array_to_str true ["A=x,y\\z".toList, "B=1".toList] ','
      = malloc_str.str "A=x\\,y\\\\z,B=1".toList
    ∧ str_to_str_array "A=x\\,y\\\\z,B=1".toList ','
      = ["A=x,y\\z".toList, "B=1".toList] := by
  decide

/-- Claim C28, the code at two failing inputs: for `a\\,b`, a comma after an
escaped backslash, `count_substrings` reports 2 and `parse_comma_string`
returns the one token `a\\,b`; for `a\` followed by a new-line and `b`,
`count_substrings` reports 1 and `parse_comma_string` returns the two tokens
`a\` and `b`.  For `a, b ,c` both give three. -/
theorem count_substrings_disagrees :
    (count_substrings "a\\\\,b".toList).1 = 2
    ∧ parse_comma_string_tokens "a\\\\,b".toList = some ["a\\\\,b".toList]
    ∧ (count_substrings "a\\\nb".toList).1 = 1
    ∧ parse_comma_string_tokens "a\\\nb".toList = some ["a\\".toList, "b".toList]
    ∧ (count_substrings "a, b ,c".toList).1 = 3
    ∧ parse_comma_string_tokens "a, b ,c".toList
      = some ["a".toList, "b".toList, "c".toList] := by
  decide

/-- Claim C29, the code at a failing input: for the environment of the two
entries `A` and `B`, neither with a `=`, the first pass of `env_array_to_str`
computes the size 5, and the second pass writes `A=,B=`, five characters and
the terminator, one character past the end of the buffer.  With one such
entry, or with entries that have a `=`, the size is sufficient. -/
theorem env_array_to_str_overflows :
    env_array_to_str_len ["A".toList, "B".toList] ',' = 5
    ∧ env_array_to_str_write ',' ["A".toList, "B".toList] true [] = "A=,B=".toList
    ∧ env_array_to_str true ["A".toList, "B".toList] ',' = malloc_str.overflow 5 6
    ∧ env_array_to_str true ["A".toList] ',' = malloc_str.str "A=".toList
    ∧ env_array_to_str true ["HOME=/home/somebody".toList, "G=@locale,UTF-8".toList] ','
      = malloc_str.str "HOME=/home/somebody,G=@locale\\,UTF-8".toList := by
  decide

/-- Claim C30, the code at three failing inputs: for a buffer that holds one
comma, one new-line or one blank, passed as `start`, the token starts at the
first character of the buffer and the backward scan
`while (isspace(*--back))` reads the position before it, position -1.  For
`a, b ,c` the three calls stay inside the buffer. -/
theorem parse_comma_string_reads_before_buffer :
    parse_comma_string ⟨",".toList, 0⟩ = comma_result.outside (-1)
    ∧ parse_comma_string ⟨"\n".toList, 0⟩ = comma_result.outside (-1)
    ∧ parse_comma_string ⟨" ".toList, 0⟩ = comma_result.outside (-1)
    ∧ parse_comma_string ⟨"a, b ,c".toList, 0⟩
      = comma_result.ret (some 0) ⟨"a\x00 b ,c".toList, 2⟩
    ∧ parse_comma_string ⟨"a\x00 b ,c".toList, 2⟩
      = comma_result.ret (some 3) ⟨"a\x00 b\x00\x00c".toList, 6⟩
    ∧ parse_comma_string ⟨"a\x00 b\x00\x00c".toList, 6⟩
      = comma_result.ret (some 6) ⟨"a\x00 b\x00\x00c".toList, 7⟩
    ∧ parse_comma_string ⟨"a\x00 b\x00\x00c".toList, 7⟩
      = comma_result.ret none ⟨"a\x00 b\x00\x00c".toList, 7⟩ := by
  decide

/-! ## The size of the buffer of env_array_to_str -/

theorem cut_at_mem (d : Char) (l : List Char) (h : d ∈ l) :
    ∃ a b, cut_at d l = (a, some b) ∧ l = a ++ d :: b := by
  induction l with
  | nil => cases h
  | cons c cs ih =>
    unfold cut_at
    by_cases hc : c = d
    · rw [if_pos hc]
      exact ⟨[], cs, rfl, by rw [hc]; rfl⟩
    · rw [if_neg hc]
      have hm : d ∈ cs := by
        rcases List.mem_cons.mp h with e | e
        · exact absurd e.symm hc
        · exact e
      obtain ⟨a, b, h1, h2⟩ := ih hm
      refine ⟨c :: a, b, ?_, ?_⟩
      · rw [h1]
      · rw [h2]; rfl

theorem env_array_to_str_val_length (delimiter : Char) (val : List Char) :
    ((env_array_to_str_val delimiter val).length : Int)
      = val.length + (val.filter fun c => decide (c = delimiter ∨ c = ESC_CHAR)).length := by
  induction val with
  | nil => rfl
  | cons c cs ih =>
    unfold env_array_to_str_val
    by_cases h : c = delimiter ∨ c = ESC_CHAR
    · rw [if_pos h, List.filter_cons_of_pos (by simpa using h)]
      simp only [List.length_cons]
      push_cast
      omega
    · rw [if_neg h, List.filter_cons_of_neg (by simpa using h)]
      simp only [List.length_cons]
      push_cast
      omega

/-- The number of characters the second pass writes for an entry that has a
`=`: the entry and one escape character for each delimiter or escape
character of its value. -/
theorem env_array_to_str_entry (delimiter : Char) (escape : Int) (entry : List Char)
    (h : '=' ∈ entry) :
    ∃ var val, cut_at '=' entry = (var, some val)
      ∧ env_array_to_str_escape delimiter escape entry
        = (val.filter fun c => decide (c = delimiter ∨ c = ESC_CHAR)).length
      ∧ 0 ≤ env_array_to_str_escape delimiter escape entry
      ∧ ((var ++ ['='] ++ env_array_to_str_val delimiter val).length : Int)
        = entry.length + env_array_to_str_escape delimiter escape entry := by
  obtain ⟨var, val, h1, h2⟩ := cut_at_mem '=' entry h
  have he : env_array_to_str_escape delimiter escape entry
      = (val.filter fun c => decide (c = delimiter ∨ c = ESC_CHAR)).length := by
    unfold env_array_to_str_escape
    rw [h1]
  refine ⟨var, val, h1, he, by rw [he]; exact Int.natCast_nonneg _, ?_⟩
  rw [he, h2]
  simp only [List.length_append, List.length_cons, List.length_nil, List.length_singleton]
  have := env_array_to_str_val_length delimiter val
  push_cast at this ⊢
  omega

theorem env_array_to_str_written (delimiter : Char) :
    ∀ (env_array : List (List Char)) (len escape : Int) (ret_string : List Char),
      (∀ e ∈ env_array, '=' ∈ e) →
      env_array_to_str_len_loop delimiter env_array len escape - len
        = (env_array_to_str_write delimiter env_array false ret_string).length
          - ret_string.length := by
  intro env_array
  induction env_array with
  | nil =>
    intro len escape ret_string _
    simp [env_array_to_str_len_loop, env_array_to_str_write]
  | cons e rest ih =>
    intro len escape ret_string h
    obtain ⟨var, val, h1, h2, h3, h4⟩ :=
      env_array_to_str_entry delimiter escape e (h e (List.mem_cons_self _ _))
    have hr : ∀ x ∈ rest, '=' ∈ x := fun x hx => h x (List.mem_cons_of_mem _ hx)
    unfold env_array_to_str_len_loop env_array_to_str_write
    simp only [h1, Bool.false_eq_true, if_false]
    have ih2 := ih
      ((if env_array_to_str_escape delimiter escape e > 0 then
          len + (e.length : Int) + env_array_to_str_escape delimiter escape e
        else len + (e.length : Int)) + 1)
      (env_array_to_str_escape delimiter escape e)
      (ret_string ++ [delimiter] ++ var ++ ['='] ++ env_array_to_str_val delimiter val) hr
    have hl : ((ret_string ++ [delimiter] ++ var ++ ['=']
          ++ env_array_to_str_val delimiter val).length : Int)
        = ret_string.length + 1 + (e.length + env_array_to_str_escape delimiter escape e) := by
      rw [← h4]
      simp only [List.length_append, List.length_singleton]
      push_cast
      omega
    by_cases hp : env_array_to_str_escape delimiter escape e > 0
    · rw [if_pos hp] at ih2 ⊢
      omega
    · rw [if_neg hp] at ih2 ⊢
      have hz : env_array_to_str_escape delimiter escape e = 0 := by omega
      omega

/-- When every entry of a non-empty environment has a `=`, the size computed by
the first pass of `env_array_to_str` is the length of the string written by
the second pass plus two: room for the terminator and one spare character. -/
theorem env_array_to_str_len_with_eq (delimiter : Char) (e : List Char)
    (rest : List (List Char)) (h : ∀ x ∈ e :: rest, '=' ∈ x) :
    env_array_to_str_len (e :: rest) delimiter
      = (env_array_to_str_write delimiter (e :: rest) true []).length + 2 := by
  obtain ⟨var, val, h1, h2, h3, h4⟩ :=
    env_array_to_str_entry delimiter 0 e (h e (List.mem_cons_self _ _))
  have hr : ∀ x ∈ rest, '=' ∈ x := fun x hx => h x (List.mem_cons_of_mem _ hx)
  unfold env_array_to_str_len env_array_to_str_len_loop env_array_to_str_write
  simp only [h1, if_true]
  have ih2 := env_array_to_str_written delimiter rest
    ((if env_array_to_str_escape delimiter 0 e > 0 then
        (0 : Int) + (e.length : Int) + env_array_to_str_escape delimiter 0 e
      else (0 : Int) + (e.length : Int)) + 1)
    (env_array_to_str_escape delimiter 0 e)
    (var ++ ['='] ++ env_array_to_str_val delimiter val) hr
  by_cases hp : env_array_to_str_escape delimiter 0 e > 0
  · rw [if_pos hp] at ih2 ⊢
    omega
  · rw [if_neg hp] at ih2 ⊢
    have hz : env_array_to_str_escape delimiter 0 e = 0 := by omega
    omega

/-! ## The backward scan of parse_comma_string -/

theorem parse_comma_string_find_ge (buf : List Char) (rv : Nat) :
    ∀ fuel pc : Nat, pc ≤ parse_comma_string_find buf rv fuel pc := by
  intro fuel
  induction fuel with
  | zero => intro pc; exact le_refl _
  | succ k ih =>
    intro pc
    unfold parse_comma_string_find
    split_ifs
    · exact le_refl _
    · exact le_refl _
    · exact le_trans (Nat.le_succ pc) (ih (pc + 1))

theorem parse_comma_string_strip_some :
    ∀ (back fuel : Nat) (buf : List Char), 0 < back → back ≤ fuel →
      isspace (c_at buf 0) = false → ∃ b, parse_comma_string_strip fuel buf back = some b := by
  intro back
  induction back with
  | zero => intro fuel buf h; exact absurd h (lt_irrefl 0)
  | succ back1 ih =>
    intro fuel buf _ hf h0
    cases fuel with
    | zero => omega
    | succ f =>
      unfold parse_comma_string_strip
      by_cases hs : isspace (c_at buf back1) = true
      · simp only [hs, if_true]
        have hb : back1 ≠ 0 := by
          intro e
          rw [e, h0] at hs
          cases hs
        apply ih f (buf.set back1 '\x00') (Nat.pos_of_ne_zero hb) (by omega)
        unfold c_at at h0 ⊢
        cases buf with
        | nil => exact h0
        | cons c cs =>
          cases back1 with
          | zero => exact absurd rfl hb
          | succ n => exact h0
      · simp only [hs]
        exact ⟨buf, rfl⟩

/-- A first call of `parse_comma_string` on a buffer whose first character is
neither white space nor a comma stays inside the buffer and returns the token
that starts at the first character. -/
theorem parse_comma_string_first_inside (c : Char) (cs : List Char) (hc : c ≠ '\x00')
    (hs : isspace c = false) (hcomma : c ≠ ',') :
    ∃ st, parse_comma_string ⟨c :: cs, 0⟩ = comma_result.ret (some 0) st := by
  have hnl : c ≠ '\n' := by
    intro e
    rw [e] at hs
    exact absurd hs (by decide)
  have h0 : c_at (c :: cs) 0 = c := rfl
  have hskip : parse_comma_string_skip (c :: cs) (c :: cs).length 0 = 0 := by
    rw [List.length_cons]
    unfold parse_comma_string_skip
    rw [h0, hs]
    simp
  have hfind : 0 < parse_comma_string_find (c :: cs) 0 (c :: cs).length 0 := by
    rw [List.length_cons]
    unfold parse_comma_string_find
    rw [h0, if_neg hc]
    have hb : ¬ ((c = ',' ∧ (0 = 0 ∨ c ≠ ESC_CHAR)) ∨ c = '\n') := by
      rintro (⟨e, _⟩ | e)
      · exact hcomma e
      · exact hnl e
    rw [if_neg hb]
    exact lt_of_lt_of_le (Nat.lt_succ_self 0) (parse_comma_string_find_ge _ _ _ _)
  have hle : ∀ fuel pc : Nat, pc ≤ (c :: cs).length →
      parse_comma_string_find (c :: cs) 0 fuel pc ≤ (c :: cs).length := by
    intro fuel
    induction fuel with
    | zero => intro pc h; exact h
    | succ k ih =>
      intro pc h
      unfold parse_comma_string_find
      by_cases h1 : c_at (c :: cs) pc = '\x00'
      · rw [if_pos h1]; exact h
      · rw [if_neg h1]
        split_ifs
        · exact h
        · apply ih
          by_contra hgt
          apply h1
          unfold c_at
          rw [List.getD_eq_default]
          omega
  obtain ⟨b, hb⟩ := parse_comma_string_strip_some
    (parse_comma_string_find (c :: cs) 0 (c :: cs).length 0) ((c :: cs).length + 1) (c :: cs)
    hfind (le_trans (hle _ 0 (Nat.zero_le _)) (Nat.le_succ _)) (by rw [h0]; exact hs)
  unfold parse_comma_string
  simp only [h0, if_neg hc, hskip, hb]
  split_ifs
  · exact ⟨_, rfl⟩
  · exact ⟨_, rfl⟩

end Pbs
